import Mathlib

/-!
# Frame scheduling core of the emulator front end

A shallow embedding of the delegate registry (`imagine/util/DelegateFuncSet.hh`),
of the view controller / frame scheduler
(`EmuFramework/src/EmuViewController.cc`), of the window
(`imagine/src/base/common/Window.cc`), of the drawable holder
(`imagine/src/gfx/opengl/DrawableHolder.cc`), of the recent-games list
(`EmuFramework/src/Recent.cc`), of the renderer configuration
(`imagine/src/gfx/opengl/config.cc`) and of the Android input events
(`imagine/src/base/android/input.cc`), followed by theorems about them.

Conventions of the embedding
* a callback handle is a value of a type with decidable equality; equality of
  handles is the identity comparison `e.del == del` of the source;
* `int` priorities are `Int`; `uint32_t` frame counts are `Nat`, reduced
  modulo `2 ^ 32` where a conversion happens; an `int` result is an `Int`
  brought into the 32-bit range by `toInt32`;
* a C string is the list of its characters before the terminator;
* a function pointer is `none` (null) or `some name`;
* calls into collaborators that are outside the modelled state (emulated
  system, background task, renderer, views, windows) are recorded, in order,
  in a trace of `Call` values.
-/

namespace IG

/-! ## Delegate registry (`DelegateFuncSet.hh`) -/

/-- Entry of a delegate set, `DelegateFuncSet::DelegateEntry`: a callback handle
and its priority. -/
structure DelegateEntry (F : Type) where
  del : F
  priority : Int
  deriving DecidableEq, Repr

/-- Modelled from the spec: `FlatMultiSet::emplace` of
`imagine/util/container/FlatSet.hh`, which is not among the sources. The
container keeps its entries ordered by `DelegateEntry::operator<` (priority);
an entry goes behind every entry that is not greater than it, so entries of
equal priority stay in insertion order. -/
def FlatMultiSet.emplace {F : Type} (e : DelegateEntry F) :
    List (DelegateEntry F) → List (DelegateEntry F)
  | [] => [e]
  | x :: xs => if e.priority < x.priority then e :: x :: xs else x :: FlatMultiSet.emplace e xs

/-- The class `DelegateFuncSet<FUNC>`: its only member is the flat multiset
`delegate`. -/
structure DelegateFuncSet (F : Type) where
  delegate : List (DelegateEntry F)
  deriving DecidableEq, Repr

namespace DelegateFuncSet

variable {F : Type} [DecidableEq F]

/-- The default constructor `DelegateFuncSet()`. -/
def empty : DelegateFuncSet F := ⟨[]⟩

/-- Member `contains(del)`: `find_if` over the entries with `e.del == del`. -/
def contains (s : DelegateFuncSet F) (del : F) : Bool :=
  (s.delegate.find? (fun e => decide (e.del = del))).isSome

/-- Member `size()`. -/
def size (s : DelegateFuncSet F) : Nat := s.delegate.length

/-- Member `add(del, priority)`: the new set and the returned flag. -/
def add (s : DelegateFuncSet F) (del : F) (priority : Int) : DelegateFuncSet F × Bool :=
  if s.contains del then (s, false)
  else (⟨FlatMultiSet.emplace ⟨del, priority⟩ s.delegate⟩, true)

/-- The `delegate.erase(it)` of `remove`, for `it` the first entry with
`e.del == del`. -/
def eraseFirstDel (del : F) : List (DelegateEntry F) → List (DelegateEntry F)
  | [] => []
  | x :: xs => if x.del = del then xs else x :: eraseFirstDel del xs

/-- Member `remove(del)`: the new set and the returned flag. -/
def remove (s : DelegateFuncSet F) (del : F) : DelegateFuncSet F × Bool :=
  if s.contains del then (⟨eraseFirstDel del s.delegate⟩, true) else (s, false)

/-- A set holds at most one entry per callback handle. Every set built from
the empty set by `add` and `remove` is of this kind. -/
def Unique (s : DelegateFuncSet F) : Prop :=
  (s.delegate.map (fun e => e.del)).Nodup

instance (s : DelegateFuncSet F) : Decidable s.Unique := by
  unfold Unique
  infer_instance

/-- Modelled from the spec: `IG::eraseFirst(delegate, d)` of
`imagine/util/algorithm.h`, which is not among the sources: it erases the
first entry equal to `d`, and `DelegateEntry::operator==` compares the
callback handles only. -/
def eraseFirst (d : DelegateEntry F) (xs : List (DelegateEntry F)) : List (DelegateEntry F) :=
  eraseFirstDel d.del xs

end DelegateFuncSet

/-- Member `DelegateFuncSet::runAll(exec)`, for a set that lives inside a larger
state `σ` (read with `get`, written with `put`), because the callbacks run by
`exec` may themselves add to or remove from the set. The entries are copied
first; `exec` is run on every entry of the copy, in order, and an entry whose
run returned false is erased from the live set. -/
def runAll {σ F : Type} [DecidableEq F] (get : σ → DelegateFuncSet F)
    (put : DelegateFuncSet F → σ → σ) (exec : F → σ → σ × Bool) (s : σ) : σ :=
  if (get s).size = 0 then s
  else
    (get s).delegate.foldl
      (fun acc d =>
        let r := exec d.del acc
        if r.2 then r.1
        else put ⟨DelegateFuncSet.eraseFirst d (get r.1).delegate⟩ r.1)
      s

end IG

/-! ## View controller and frame scheduler (`EmuViewController.cc`) -/

/-- Identity of a `Base::Window`; `origWin == win` compares identities. -/
abbrev WindowId := Nat

/-- Identity of a `Base::Screen`. -/
abbrev ScreenId := Nat

/-- The `Base::OnFrameDelegate` values the controller creates: the member
`onFrameUpdate`, and the closure returned by `makeOnFrameDelayed(delay)`, which
captures `this` and `delay`; two such closures are the same delegate exactly
when their delays agree. -/
inductive OnFrameDelegate
  | onFrameUpdate
  | onFrameDelayed (delay : Nat)
  deriving DecidableEq, Repr

/-- A source of frame ticks: the on-frame set of a screen, or the on-frame set
of the drawable holder kept in a window's `WindowData`. -/
inductive FrameSource
  | screen (s : ScreenId)
  | drawableHolder (w : WindowId)
  deriving DecidableEq, Repr

/-- Calls into collaborators, recorded in the order they are made. -/
inductive Call
  | setSpeedMultiplier (speed : Nat)
  | advanceFramesWithTime (timestamp : Nat)
  | runFrame (audioPresent : Bool) (frames : Nat) (skipForward : Bool)
  | setPresentationTime (win : WindowId) (presentTime : Nat)
  | windowPostDraw (win : WindowId)
  | setCPUNeedsLowLatency (enable : Bool)
  | systemTaskStart
  | systemTaskPause
  | systemTaskStop
  | emuSystemStart
  | emuSystemPause
  | closeRuntimeSystem (allowAutosaveState : Bool)
  | setAddSoundBuffersOnUnderrun (enable : Bool)
  | setVolume (volume : Nat)
  | viewStackTopOnHide
  | viewStackShow
  | viewStackTopPostDraw
  | viewStackPopTo (idx : Int)
  | navViewShowRightBtn (enable : Bool)
  | setIdleDisplayPowerSave (enable : Bool)
  | applyOSNavStyle (running : Bool)
  | setHintKeyRepeat (enable : Bool)
  | setFrameInterval (win : WindowId)
  | setWindowValidOrientations (win : WindowId) (running : Bool)
  | setIntendedFrameRate (win : WindowId) (running : Bool)
  | commonInitInput
  | popupClear
  | popupSetWindow (win : WindowId)
  | emuInputViewResetInput
  | emuViewPlace
  | emuInputViewPlace
  | emuViewPostDraw
  | emuViewSetWindow (win : WindowId)
  | emuViewSetViewRect (win : WindowId)
  deriving DecidableEq, Repr

/-- The option values and build switches the modelled functions read. -/
structure Options where
  optionSkipLateFrames : Bool
  optionFastForwardSpeed : Nat
  optionAddSoundBuffersOnUnderrun : Bool
  optionSoundVolume : Nat
  soundDuringFastForwardIsEnabled : Bool
  optionIdleDisplayPowerSave : Bool
  configBaseScreenFrameInterval : Bool
  deriving DecidableEq, Repr

/-- The fields of `WindowData` the modelled functions use; `WindowData{}` has
both flags false. -/
structure WindowData where
  hasEmuView : Bool
  hasPopup : Bool
  deriving DecidableEq, Repr

/-- Brightness of the video layer, in hundredths (`1.f`, `.75f`, `.25f` are
100, 75, 25). -/
abbrev Brightness := Nat

/-- State read and written by the controller.
* `emuViewWin`, `emuInputViewWin`, `popupWin`: the windows of the members
  `emuView`, `emuInputView` (the main window) and `popup`;
* `onFrame`: the registered frame callbacks of every frame source;
* `windowScreen`: `win.screen()`;
* `settleDelay`: the value of `screen->frameRate() / 4` as converted to the
  `uint8_t` parameter of `makeOnFrameDelayed`, a floating-point computation
  on the refresh rate that is taken as given. -/
structure State where
  showingEmulation : Bool
  emuVideoInProgress : Bool
  useRendererTime_ : Bool
  targetFastForwardSpeed : Nat
  brightness : Brightness
  emuViewWin : WindowId
  emuInputViewWin : WindowId
  popupWin : WindowId
  windowData : WindowId → WindowData
  onFrame : FrameSource → IG.DelegateFuncSet OnFrameDelegate
  windowScreen : WindowId → ScreenId
  settleDelay : ScreenId → Nat
  options : Options

/-- The controller state together with the trace of collaborator calls. -/
structure World where
  st : State
  trace : List Call

/-- What the collaborators answer while one frame tick is dispatched.
* `timestamp`, `presentTime`: the `IG::FrameParams` of the tick;
* `shouldFastForward`: `EmuSystem::shouldFastForward()`;
* `advanced`: the field `advanced` of `EmuSystem::advanceFramesWithTime(..)`;
* `currentFrameInterval`: `currentFrameInterval()`;
* `emuSystemIsActive`: `EmuSystem::isActive()`;
* `audioPresent`: the conversion of `emuAudio` to bool. -/
structure FrameEnv where
  timestamp : Nat
  presentTime : Nat
  shouldFastForward : Bool
  advanced : Nat
  currentFrameInterval : Nat
  emuSystemIsActive : Bool
  audioPresent : Bool
  deriving DecidableEq, Repr

namespace World

/-- Record a collaborator call. -/
def call (c : Call) (w : World) : World := { w with trace := w.trace ++ [c] }

/-- Change the controller state. -/
def modify (f : State → State) (w : World) : World := { w with st := f w.st }

end World

namespace EmuViewController

/-- Accessor `useRendererTime()`. -/
def useRendererTime (s : State) : Bool := s.useRendererTime_

/-- Accessor `emuWindowScreen()`. -/
def emuWindowScreen (s : State) : ScreenId := s.windowScreen s.emuViewWin

/-- The frame source `addOnFrameDelegate` and `removeOnFrame` address: the
screen of the emulation window, or with renderer time the drawable holder of
the emulation window. -/
def emuFrameSource (s : State) : FrameSource :=
  if !useRendererTime s then .screen (emuWindowScreen s) else .drawableHolder s.emuViewWin

/-- The frame source `moveOnFrame` addresses for a window. -/
def windowFrameSource (s : State) (win : WindowId) : FrameSource :=
  if !useRendererTime s then .screen (s.windowScreen win) else .drawableHolder win

/-- Write the on-frame set of one frame source. -/
def setOnFrame (src : FrameSource) (d : IG.DelegateFuncSet OnFrameDelegate) (s : State) : State :=
  { s with onFrame := Function.update s.onFrame src d }

/-- The calls `addOnFrame(del)` of `DrawableHolder` (`onFrame.add(del, priority)`
with the default priority 0) and of `Base::Screen`.
Modelled from the spec: `Screen::addOnFrame` is not among the sources; like
the drawable holder it keeps its callbacks in a delegate set. -/
def addOnFrame (src : FrameSource) (del : OnFrameDelegate) (w : World) : World :=
  w.modify (fun s => setOnFrame src ((s.onFrame src).add del 0).1 s)

/-- The calls `removeOnFrame(del)` of `DrawableHolder` (`onFrame.remove(del)`) and
of `Base::Screen`.
Modelled from the spec: `Screen::removeOnFrame` is not among the sources. -/
def removeOnFrameFrom (src : FrameSource) (del : OnFrameDelegate) (w : World) : World :=
  w.modify (fun s => setOnFrame src ((s.onFrame src).remove del).1 s)

/-- Member `postDrawToEmuWindows()`: `emuView.window().postDraw()`. -/
def postDrawToEmuWindows (w : World) : World :=
  w.call (.windowPostDraw w.st.emuViewWin)

/-- Member `addOnFrameDelegate(onFrame)`. -/
def addOnFrameDelegate (del : OnFrameDelegate) (w : World) : World :=
  if !useRendererTime w.st then addOnFrame (.screen (emuWindowScreen w.st)) del w
  else postDrawToEmuWindows (addOnFrame (.drawableHolder w.st.emuViewWin) del w)

/-- Member `addOnFrameDelayed()`. -/
def addOnFrameDelayed (w : World) : World :=
  addOnFrameDelegate (.onFrameDelayed (w.st.settleDelay (emuWindowScreen w.st) % 256)) w

/-- Member `addOnFrame()`. -/
def addOnFrameUpdate (w : World) : World :=
  addOnFrameDelegate .onFrameUpdate w

/-- Member `removeOnFrame()`. -/
def removeOnFrame (w : World) : World :=
  removeOnFrameFrom (emuFrameSource w.st) .onFrameUpdate w

/-- Member `moveOnFrame(from, to)`. -/
def moveOnFrame (src dst : WindowId) (w : World) : World :=
  let w1 := removeOnFrameFrom (windowFrameSource w.st src) .onFrameUpdate w
  addOnFrame (windowFrameSource w1.st dst) .onFrameUpdate w1

/-- Member `setFastForwardActive(active)`. -/
def setFastForwardActive (active : Bool) (w : World) : World :=
  let o := w.st.options
  let w1 := w.modify (fun s =>
    { s with targetFastForwardSpeed := if active then o.optionFastForwardSpeed else 0 })
  let w2 := w1.call (.setAddSoundBuffersOnUnderrun
    (if active then o.optionAddSoundBuffersOnUnderrun else false))
  let soundVolume := if active && !o.soundDuringFastForwardIsEnabled then 0 else o.optionSoundVolume
  w2.call (.setVolume soundVolume)

/-- The closure assigned to `onFrameUpdate` in `initViews`: the per-frame
callback. The result holds the new world and the returned flag. -/
def onFrameUpdate (env : FrameEnv) (w : World) : World × Bool :=
  if w.st.emuVideoInProgress then
    ((if useRendererTime w.st then postDrawToEmuWindows w else w), true)
  else
    let ff : Bool × Bool × Nat :=
      if env.shouldFastForward then (true, true, 8)
      else if w.st.targetFastForwardSpeed > 1 then (true, false, w.st.targetFastForwardSpeed)
      else (false, false, 1)
    let fastForwarding := ff.1
    let skipForward := ff.2.1
    let w1 := w.call (.setSpeedMultiplier ff.2.2)
    let w2 := w1.call (.advanceFramesWithTime env.timestamp)
    if env.advanced = 0 then
      ((if useRendererTime w2.st then postDrawToEmuWindows w2 else w2), true)
    else
      let advanced : Nat :=
        if !w2.st.options.optionSkipLateFrames && !fastForwarding
        then env.currentFrameInterval % 2 ^ 32 else env.advanced
      let maxFrameSkip : Nat := 8
      let framesToEmulate := min advanced maxFrameSkip
      let w3 := w2.modify (fun s => { s with emuVideoInProgress := true })
      let w4 := w3.call (.runFrame env.audioPresent framesToEmulate skipForward)
      let w5 := w4.call (.setPresentationTime w4.st.emuViewWin env.presentTime)
      (w5, true)

/-- The closure returned by `makeOnFrameDelayed(delay)`. -/
def onFrameDelayed (delay : Nat) (env : FrameEnv) (w : World) : World × Bool :=
  let w1 :=
    if delay ≠ 0 then addOnFrameDelegate (.onFrameDelayed ((delay - 1) % 256)) w
    else if env.emuSystemIsActive then addOnFrameDelegate .onFrameUpdate w
    else w
  ((if useRendererTime w1.st then postDrawToEmuWindows w1 else w1), false)

/-- Invocation `del(frameParams)` of a registered frame callback. -/
def invoke (env : FrameEnv) (del : OnFrameDelegate) (w : World) : World × Bool :=
  match del with
  | .onFrameUpdate => onFrameUpdate env w
  | .onFrameDelayed delay => onFrameDelayed delay env w

/-- One frame tick of a frame source: `DrawableHolder::dispatchOnFrame()`,
`onFrame.runAll` with every callback called on the same frame parameters.
Modelled from the spec: the frame dispatch of `Base::Screen` is not among the
sources; it runs the callbacks of the screen in the same way. -/
def dispatchOnFrame (src : FrameSource) (env : FrameEnv) (w : World) : World :=
  IG.runAll (fun (x : World) => x.st.onFrame src)
    (fun d (x : World) => x.modify (setOnFrame src d)) (invoke env) w

/-- The closure given to `setOnFrameFinished` in `initViews`: the completion
callback of a video frame. -/
def onFrameFinished (w : World) : World :=
  postDrawToEmuWindows (w.modify (fun s => { s with emuVideoInProgress := false }))

/-- Write the `WindowData` of one window. -/
def setWindowData (win : WindowId) (d : WindowData) (s : State) : State :=
  { s with windowData := Function.update s.windowData win d }

/-- Member `movePopupToWindow(win)`. -/
def movePopupToWindow (win : WindowId) (w : World) : World :=
  let origWin := w.st.popupWin
  if origWin = win then w
  else
    let w1 := w.modify (fun s => setWindowData origWin { s.windowData origWin with hasPopup := false } s)
    let w2 := w1.modify (fun s => setWindowData win { s.windowData win with hasPopup := true } s)
    (w2.modify (fun s => { s with popupWin := win })).call (.popupSetWindow win)

/-- Member `moveEmuViewToWindow(win)`. -/
def moveEmuViewToWindow (win : WindowId) (w : World) : World :=
  let origWin := w.st.emuViewWin
  if origWin = win then w
  else
    let w1 := w.modify (fun s => setWindowData origWin { s.windowData origWin with hasEmuView := false } s)
    let w2 := w1.modify (fun s => setWindowData win { s.windowData win with hasEmuView := true } s)
    let w3 := (w2.modify (fun s => { s with emuViewWin := win })).call (.emuViewSetWindow win)
    w3.call (.emuViewSetViewRect win)

/-- Member `configureAppForEmulation(running)`. -/
def configureAppForEmulation (running : Bool) (w : World) : World :=
  let w1 := w.call (.setIdleDisplayPowerSave
    (if running then w.st.options.optionIdleDisplayPowerSave else true))
  let w2 := w1.call (.applyOSNavStyle running)
  w2.call (.setHintKeyRepeat (!running))

/-- Member `configureWindowForEmulation(win, running)`. -/
def configureWindowForEmulation (win : WindowId) (running : Bool) (w : World) : World :=
  let w1 := if w.st.options.configBaseScreenFrameInterval then w.call (.setFrameInterval win) else w
  let w2 := w1.call (.setWindowValidOrientations win running)
  let w3 := w2.call (.setIntendedFrameRate win running)
  movePopupToWindow (if running then w3.st.emuViewWin else w3.st.emuInputViewWin) w3

/-- Member `placeEmuViews()`. -/
def placeEmuViews (w : World) : World :=
  (w.call .emuViewPlace).call .emuInputViewPlace

/-- Member `startEmulation()`. -/
def startEmulation (w : World) : World :=
  let w1 := w.call (.setCPUNeedsLowLatency true)
  let w2 := w1.call .systemTaskStart
  let w3 := w2.call .emuSystemStart
  let w4 := w3.modify (fun s => { s with brightness := 100 })
  addOnFrameDelayed w4

/-- Member `pauseEmulation()`. -/
def pauseEmulation (w : World) : World :=
  let w1 := w.call (.setCPUNeedsLowLatency false)
  let w2 := w1.call .systemTaskPause
  let w3 := w2.call .emuSystemPause
  let w4 := w3.modify (fun s => { s with brightness := if s.showingEmulation then 75 else 25 })
  let w5 := setFastForwardActive false w4
  let w6 := w5.modify (fun s => { s with emuVideoInProgress := false })
  removeOnFrame w6

/-- Member `showEmulation()`. -/
def showEmulation (w : World) : World :=
  if w.st.showingEmulation then w
  else
    let w1 := w.call .viewStackTopOnHide
    let w2 := w1.modify (fun s => { s with showingEmulation := true })
    let w3 := configureAppForEmulation true w2
    let w4 := configureWindowForEmulation w3.st.emuViewWin true w3
    let w5 := w4.call .commonInitInput
    let w6 := w5.call .popupClear
    let w7 := w6.call .emuInputViewResetInput
    let w8 := startEmulation w7
    placeEmuViews w8

/-- Member `showUI(updateTopView)`. -/
def showUI (updateTopView : Bool) (w : World) : World :=
  if !w.st.showingEmulation then w
  else
    let w1 := w.modify (fun s => { s with showingEmulation := false })
    let w2 := pauseEmulation w1
    let w3 := configureAppForEmulation false w2
    let w4 := configureWindowForEmulation w3.st.emuViewWin false w3
    let w5 := w4.call .emuViewPostDraw
    if updateTopView then (w5.call .viewStackShow).call .viewStackTopPostDraw else w5

/-- Member `closeSystem(allowAutosaveState)`. `updateTopView` is the default
argument of `showUI()`, declared in the header, and `systemActionsIdx` is the
answer of `viewStack.viewIdx("System Actions")`. -/
def closeSystem (allowAutosaveState updateTopView : Bool) (systemActionsIdx : Int)
    (w : World) : World :=
  let w1 := showUI updateTopView w
  let w2 := w1.call .systemTaskStop
  let w3 := w2.call (.closeRuntimeSystem allowAutosaveState)
  let w4 := w3.call (.navViewShowRightBtn false)
  if systemActionsIdx > 0 then w4.call (.viewStackPopTo (systemActionsIdx - 1)) else w4

/-- The state after the constructor `EmuViewController(win, ..)`: the three
views are attached to `win`, no frame callback is registered and every
`WindowData` is `WindowData{}`. The flags and the target speed start cleared
(the member initialisers are in the header, which is not among the sources);
`brightness` is the brightness of the video layer handed to the constructor. -/
def construct (win : WindowId) (windowScreen : WindowId → ScreenId)
    (settleDelay : ScreenId → Nat) (options : Options) (brightness : Brightness) : World :=
  { st :=
      { showingEmulation := false
        emuVideoInProgress := false
        useRendererTime_ := false
        targetFastForwardSpeed := 0
        brightness := brightness
        emuViewWin := win
        emuInputViewWin := win
        popupWin := win
        windowData := fun _ => { hasEmuView := false, hasPopup := false }
        onFrame := fun _ => IG.DelegateFuncSet.empty
        windowScreen := windowScreen
        settleDelay := settleDelay
        options := options }
    trace := [] }

/-- Member `initViews(viewAttach)`, as far as it writes the modelled state: the
window data of the attached window, the choice of the timestamp source
(`rendererTime` stands for the tested condition on the platform), and the
`showUI(false)` of `pushAndShow`. The construction of the views and the
registration of the lifecycle hooks are left out. -/
def initViews (win : WindowId) (rendererTime : Bool) (w : World) : World :=
  let w1 := w.modify (fun s => setWindowData win { s.windowData win with hasEmuView := true } s)
  let w2 := w1.modify (fun s => setWindowData win { s.windowData win with hasPopup := true } s)
  let w3 := if rendererTime then w2.modify (fun s => { s with useRendererTime_ := true }) else w2
  showUI false w3

/-- The operations of the controller that the theorems range over. -/
inductive Op
  | frameTick (src : FrameSource) (env : FrameEnv)
  | frameUpdate (env : FrameEnv)
  | frameFinished
  | startEmulation
  | pauseEmulation
  | showEmulation
  | showUI (updateTopView : Bool)
  | closeSystem (allowAutosaveState updateTopView : Bool) (systemActionsIdx : Int)
  | moveEmuViewToWindow (win : WindowId)
  | movePopupToWindow (win : WindowId)
  | moveOnFrame (src dst : WindowId)
  deriving DecidableEq, Repr

/-- Run one operation. `frameTick` is a tick of a frame source, which runs the
callbacks registered there; `frameUpdate` is one call of the per-frame
callback itself. -/
def step (w : World) : Op → World
  | .frameTick src env => dispatchOnFrame src env w
  | .frameUpdate env => (onFrameUpdate env w).1
  | .frameFinished => onFrameFinished w
  | .startEmulation => startEmulation w
  | .pauseEmulation => pauseEmulation w
  | .showEmulation => showEmulation w
  | .showUI updateTopView => showUI updateTopView w
  | .closeSystem a u i => closeSystem a u i w
  | .moveEmuViewToWindow win => moveEmuViewToWindow win w
  | .movePopupToWindow win => movePopupToWindow win w
  | .moveOnFrame src dst => moveOnFrame src dst w

/-- Run a sequence of operations, first to last. -/
def run (w : World) (ops : List Op) : World := ops.foldl step w

end EmuViewController

/-! ## Observations on traces and sample inputs -/

namespace EmuViewController

/-- The frame counts of the `runFrame` calls of a trace, in order. -/
def runFrameCounts : List Call → List Nat
  | [] => []
  | .runFrame _ frames _ :: cs => frames :: runFrameCounts cs
  | _ :: cs => runFrameCounts cs

/-- The skip-forward flags of the `runFrame` calls of a trace, in order. -/
def runFrameSkipFlags : List Call → List Bool
  | [] => []
  | .runFrame _ _ skipForward :: cs => skipForward :: runFrameSkipFlags cs
  | _ :: cs => runFrameSkipFlags cs

/-- The arguments of the `setSpeedMultiplier` calls of a trace, in order. -/
def speedMultipliers : List Call → List Nat
  | [] => []
  | .setSpeedMultiplier speed :: cs => speed :: speedMultipliers cs
  | _ :: cs => speedMultipliers cs

/-- Whether a call advances emulation: `advanceFramesWithTime` and `runFrame`
do. -/
def advancesEmulation : Call → Bool
  | .advanceFramesWithTime _ => true
  | .runFrame _ _ _ => true
  | _ => false

/-- Exactly one window hosts the emulation view, and it is the window of
`emuView`; exactly one window hosts the popup, and it is the window of
`popup`. -/
def WindowsOK (s : State) : Prop :=
  (∀ x, (s.windowData x).hasEmuView = true ↔ x = s.emuViewWin) ∧
  (∀ x, (s.windowData x).hasPopup = true ↔ x = s.popupWin)

/-- The calls a tick adds to the trace: the trace after it without the calls
that were there before. -/
def newCalls (before after : World) : List Call := after.trace.drop before.trace.length

/-- Sample options: skip-late-frames disabled, a fast-forward speed of 4. -/
def sampleOptions : Options :=
  { optionSkipLateFrames := false
    optionFastForwardSpeed := 4
    optionAddSoundBuffersOnUnderrun := false
    optionSoundVolume := 100
    soundDuringFastForwardIsEnabled := false
    optionIdleDisplayPowerSave := false
    configBaseScreenFrameInterval := false }

/-- The controller right after `initViews` on the main window 0, with the
timestamp source chosen by `rendererTime`; window `n` is on screen `n`, and
every screen has a 60 Hz refresh rate, so a settling delay of 15. -/
def sampleInit (rendererTime : Bool) : World :=
  initViews 0 rendererTime (construct 0 (fun win => win) (fun _ => 15) sampleOptions 100)

/-- A tick in which the emulated system reports `advanced` elapsed frames, is
active, does not ask for fast-forward, and the base frame interval is 1. -/
def sampleEnv (advanced : Nat) : FrameEnv :=
  { timestamp := 0
    presentTime := 0
    shouldFastForward := false
    advanced := advanced
    currentFrameInterval := 1
    emuSystemIsActive := true
    audioPresent := false }

/-- The controller after `showEmulation`: emulation started, the settling-delay
wrapper registered. -/
def sampleRunning (rendererTime : Bool) : World := showEmulation (sampleInit rendererTime)

/-- The controller once the settling delay is over: sixteen ticks of the frame
source of the emulation window have replaced the wrapper by `onFrameUpdate`;
the emulated system reported no elapsed frame yet. -/
def sampleInstalled (rendererTime : Bool) : World :=
  run (sampleRunning rendererTime)
    (List.replicate 16 (.frameTick (emuFrameSource (sampleRunning rendererTime).st) (sampleEnv 0)))

/-- The controller after a tick that started a frame: the frame-in-progress
flag is set. -/
def sampleInProgress (rendererTime : Bool) : World :=
  (onFrameUpdate (sampleEnv 1) (sampleInstalled rendererTime)).1

end EmuViewController

/-! ## Observations on `runAll` and on sets built by `add` and `remove` -/

namespace IG

/-- One turn of the loop of `runAll`: run the callback of the copied entry `d`,
and erase `d` from the live set when the run returned false. -/
def runAllStep {σ F : Type} [DecidableEq F] (get : σ → DelegateFuncSet F)
    (put : DelegateFuncSet F → σ → σ) (exec : F → σ → σ × Bool) (acc : σ)
    (d : DelegateEntry F) : σ :=
  let r := exec d.del acc
  if r.2 then r.1
  else put ⟨DelegateFuncSet.eraseFirst d (get r.1).delegate⟩ r.1

/-- A callback runner that also writes down every call: the callback and the
value its run returned are appended to a log kept next to the state. -/
def logged {σ F : Type} (exec : F → σ → σ × Bool) (d : F) (a : σ × List (F × Bool)) :
    (σ × List (F × Bool)) × Bool :=
  ((((exec d a.1).1), a.2 ++ [(d, (exec d a.1).2)]), (exec d a.1).2)

/-- The member `runAll` itself, run with the logging callback runner: the
state after the pass and the log of the calls made during it. -/
def runAllLogged {σ F : Type} [DecidableEq F] (get : σ → DelegateFuncSet F)
    (put : DelegateFuncSet F → σ → σ) (exec : F → σ → σ × Bool) (s : σ) :
    σ × List (F × Bool) :=
  runAll (fun a => get a.1) (fun d a => (put d a.1, a.2)) (logged exec) (s, [])

/-- The calls of a pass over the copied entries `ds` from state `a`: each
callback with the value its run returns in the state the pass has reached. -/
def passLog {σ F : Type} [DecidableEq F] (get : σ → DelegateFuncSet F)
    (put : DelegateFuncSet F → σ → σ) (exec : F → σ → σ × Bool) :
    List (DelegateEntry F) → σ → List (F × Bool)
  | [], _ => []
  | d :: ds, a => (d.del, (exec d.del a).2) :: passLog get put exec ds (runAllStep get put exec a d)

/-- A call on a delegate set. -/
inductive SetOp (F : Type)
  | add (del : F) (priority : Int)
  | remove (del : F)
  deriving DecidableEq, Repr

/-- A delegate set together with a clock that counts the calls made on it and,
for every callback, the time of the last `add` that inserted it. -/
structure Timed (F : Type) where
  set : DelegateFuncSet F
  clock : Nat
  time : F → Nat

/-- Make one call on a timed set. The set changes as `add` and `remove` say;
a successful `add` stamps the callback with the current time. -/
def Timed.apply {F : Type} [DecidableEq F] (t : Timed F) : SetOp F → Timed F
  | .add del priority =>
    { set := (t.set.add del priority).1
      clock := t.clock + 1
      time := if (t.set.add del priority).2 then Function.update t.time del t.clock else t.time }
  | .remove del =>
    { set := (t.set.remove del).1
      clock := t.clock + 1
      time := t.time }

/-- The timed set built from the empty set by a sequence of calls. -/
def Timed.build {F : Type} [DecidableEq F] (ops : List (SetOp F)) : Timed F :=
  ops.foldl Timed.apply { set := DelegateFuncSet.empty, clock := 0, time := fun _ => 0 }

/-- Entry `a` goes before entry `b`: its priority is lower, or the priorities
are equal and `a` was added earlier. -/
def Timed.Before {F : Type} (t : Timed F) (a b : DelegateEntry F) : Prop :=
  a.priority < b.priority ∨ (a.priority = b.priority ∧ t.time a.del < t.time b.del)

end IG

namespace EmuViewController

/-- The controller restarted during the settling delay: after `showEmulation`
one frame tick has shortened the wrapper to 14 ticks, and a further
`startEmulation` has registered a wrapper with the full delay of 15. -/
def sampleRestarted : World :=
  run (sampleRunning false) [.frameTick (.screen 0) (sampleEnv 0), .startEmulation]

end EmuViewController

/-! ## Window (`imagine/src/base/common/Window.cc`) -/

namespace Base

/-- Modelled from the spec: the four orientation values `VIEW_ROTATE_0`,
`VIEW_ROTATE_90`, `VIEW_ROTATE_180`, `VIEW_ROTATE_270`, constants of a header
that is not among the sources. `requestOrientationChange` asserts that its
argument is one of them. -/
inductive Orientation
  | VIEW_ROTATE_0
  | VIEW_ROTATE_90
  | VIEW_ROTATE_180
  | VIEW_ROTATE_270
  deriving DecidableEq, Repr

/-- Modelled from the spec: `orientationIsSideways(o)`, not among the sources:
an orientation is sideways when it is 90 or 270 degrees. -/
def orientationIsSideways : Orientation → Bool
  | .VIEW_ROTATE_90 => true
  | .VIEW_ROTATE_270 => true
  | _ => false

/-- A mask of orientation values: one bit for each of the four values. -/
structure OrientationMask where
  rotate0 : Bool
  rotate90 : Bool
  rotate180 : Bool
  rotate270 : Bool
  deriving DecidableEq, Repr

/-- The test `mask & o` for a single orientation value `o`. -/
def OrientationMask.has (m : OrientationMask) : Orientation → Bool
  | .VIEW_ROTATE_0 => m.rotate0
  | .VIEW_ROTATE_90 => m.rotate90
  | .VIEW_ROTATE_180 => m.rotate180
  | .VIEW_ROTATE_270 => m.rotate270

/-- An `IG::Point2D<int>`. -/
structure Point2D where
  x : Int
  y : Int
  deriving DecidableEq, Repr

/-- Modelled from the spec: `Window::SurfaceChange`, declared in a header that
is not among the sources: the set of pending surface-change sub-flags. -/
structure SurfaceChange where
  surfaceResized : Bool
  contentRectResized : Bool
  customViewportResized : Bool
  deriving DecidableEq, Repr

namespace SurfaceChange

/-- The value `SurfaceChange{}`: no sub-flag pending. -/
def none : SurfaceChange :=
  { surfaceResized := false, contentRectResized := false, customViewportResized := false }

/-- The test `surfaceChange.flags`: some sub-flag is pending. -/
def flags (c : SurfaceChange) : Bool :=
  c.surfaceResized || c.contentRectResized || c.customViewportResized

/-- Member `addSurfaceResized()`. -/
def addSurfaceResized (c : SurfaceChange) : SurfaceChange := { c with surfaceResized := true }

/-- Member `addCustomViewportResized()`. -/
def addCustomViewportResized (c : SurfaceChange) : SurfaceChange :=
  { c with customViewportResized := true }

/-- Member `removeCustomViewportResized()`. -/
def removeCustomViewportResized (c : SurfaceChange) : SurfaceChange :=
  { c with customViewportResized := false }

end SurfaceChange

/-- The `Window::DrawParams` handed to the draw handler. -/
structure DrawParams where
  needsSync_ : Bool
  wasResized_ : Bool
  deriving DecidableEq, Repr

/-- The fields of `Window` the modelled members read and write. `hasSurface` is
the answer of `hasSurface()` and `isMainWindow` that of `*this == mainWindow()`.
The physical sizes in millimetres are floating-point fields and are left
out; the call that recomputes them is recorded. -/
structure Window where
  winSizePixels : Point2D
  softOrientation_ : Orientation
  setSoftOrientation : Orientation
  validSoftOrientations_ : OrientationMask
  surfaceChange : SurfaceChange
  drawNeeded : Bool
  notifyDrawAllowed : Bool
  hasSurface : Bool
  isMainWindow : Bool
  deriving DecidableEq, Repr

/-- Calls made by the window, in order: to its draw event, to the platform, and
to its handlers. A handler call carries the window as the handler finds it. -/
inductive WinCall
  | drawEventNotify
  | drawEventCancel
  | updatePhysicalSize (realWidth realHeight : Int)
  | setSystemOrientation (o : Orientation)
  | configureInputForOrientation
  | onSurfaceChange (win : Window) (change : SurfaceChange)
  | onDraw (win : Window) (params : DrawParams)
  deriving DecidableEq, Repr

/-- The handlers registered with a window. A handler receives the window by
reference and may change it; `onDraw` also returns a flag. -/
structure Handlers where
  onSurfaceChange : Window → SurfaceChange → Window
  onDraw : Window → DrawParams → Window × Bool

/-- A window together with the calls it has made. -/
structure WinWorld where
  win : Window
  calls : List WinCall
  deriving DecidableEq, Repr

namespace Window

/-- Member `width()`. -/
def width (w : Window) : Int := w.winSizePixels.x

/-- Member `height()`. -/
def height (w : Window) : Int := w.winSizePixels.y

/-- Member `softOrientation()`. -/
def softOrientation (w : Window) : Orientation := w.softOrientation_

/-- Member `realWidth()`. -/
def realWidth (w : Window) : Int :=
  if orientationIsSideways w.softOrientation then w.height else w.width

/-- Member `realHeight()`. -/
def realHeight (w : Window) : Int :=
  if orientationIsSideways w.softOrientation then w.width else w.height

/-- Member `realSize()`. -/
def realSize (w : Window) : Point2D := { x := w.realWidth, y := w.realHeight }

/-- Member `size()`. -/
def size (w : Window) : Point2D := w.winSizePixels

/-- Member `needsDraw()`. -/
def needsDraw (w : Window) : Bool := w.drawNeeded

/-- Member `setNeedsDraw(needsDraw)`. -/
def setNeedsDraw (needsDraw : Bool) (w : Window) : Window × Bool :=
  if needsDraw then
    if !w.hasSurface then ({ w with drawNeeded := false }, false)
    else ({ w with drawNeeded := true }, true)
  else ({ w with drawNeeded := false }, false)

/-- Member `setNeedsCustomViewportResize(needsResize)`. -/
def setNeedsCustomViewportResize (needsResize : Bool) (w : Window) : Window :=
  if needsResize then { w with surfaceChange := w.surfaceChange.addCustomViewportResized }
  else { w with surfaceChange := w.surfaceChange.removeCustomViewportResized }

end Window

namespace WinWorld

/-- Record a call. -/
def call (c : WinCall) (v : WinWorld) : WinWorld := { v with calls := v.calls ++ [c] }

/-- Member `postDraw()`. -/
def postDraw (v : WinWorld) : WinWorld :=
  let r := v.win.setNeedsDraw true
  let v1 : WinWorld := { v with win := r.1 }
  if !r.2 then v1
  else if !v1.win.notifyDrawAllowed then v1
  else v1.call .drawEventNotify

/-- Member `unpostDraw()`. -/
def unpostDraw (v : WinWorld) : WinWorld :=
  let v1 : WinWorld := { v with win := (v.win.setNeedsDraw false).1 }
  v1.call .drawEventCancel

/-- Member `deferredDrawComplete()`. -/
def deferredDrawComplete (v : WinWorld) : WinWorld :=
  let v1 : WinWorld := { v with win := { v.win with notifyDrawAllowed := true } }
  if v1.win.drawNeeded then v1.call .drawEventNotify else v1

/-- Member `updateSize(surfaceSize)`: the new world and the returned flag. -/
def updateSize (surfaceSize : Point2D) (v : WinWorld) : WinWorld × Bool :=
  let surfaceSize : Point2D :=
    if orientationIsSideways v.win.softOrientation_ then { x := surfaceSize.y, y := surfaceSize.x }
    else surfaceSize
  let oldSize := v.win.winSizePixels
  let v1 : WinWorld := { v with win := { v.win with winSizePixels := surfaceSize } }
  if oldSize = v1.win.winSizePixels then (v1, false)
  else
    let v2 := v1.call (.updatePhysicalSize v1.win.realWidth v1.win.realHeight)
    let v3 : WinWorld :=
      { v2 with win := { v2.win with surfaceChange := v2.win.surfaceChange.addSurfaceResized } }
    (v3, true)

/-- Member `requestOrientationChange(o)`: the new world and the returned flag. -/
def requestOrientationChange (o : Orientation) (v : WinWorld) : WinWorld × Bool :=
  let v1 : WinWorld := { v with win := { v.win with setSoftOrientation := o } }
  if v1.win.validSoftOrientations_.has o && decide (v1.win.softOrientation_ ≠ o) then
    let savedRealWidth := v1.win.realWidth
    let savedRealHeight := v1.win.realHeight
    let v2 : WinWorld := { v1 with win := { v1.win with softOrientation_ := o } }
    let v3 := (updateSize { x := savedRealWidth, y := savedRealHeight } v2).1
    let v4 := postDraw v3
    let v5 := if v4.win.isMainWindow then v4.call (.setSystemOrientation o) else v4
    let v6 := v5.call .configureInputForOrientation
    (v6, true)
  else (v1, false)

/-- Member `setValidOrientations(oMask)`. `validate` stands for
`validateOrientationMask`, which is not among the sources. The result is
`none` when the code reaches `bug_unreachable`. -/
def setValidOrientations (validate : OrientationMask → OrientationMask) (oMask : OrientationMask)
    (v : WinWorld) : Option (WinWorld × Bool) :=
  let oMask := validate oMask
  let v1 : WinWorld := { v with win := { v.win with validSoftOrientations_ := oMask } }
  if v1.win.validSoftOrientations_.has v1.win.setSoftOrientation then
    some (requestOrientationChange v1.win.setSoftOrientation v1)
  else if !v1.win.validSoftOrientations_.has v1.win.softOrientation_ then
    if v1.win.validSoftOrientations_.has .VIEW_ROTATE_0 then
      some (requestOrientationChange .VIEW_ROTATE_0 v1)
    else if v1.win.validSoftOrientations_.has .VIEW_ROTATE_90 then
      some (requestOrientationChange .VIEW_ROTATE_90 v1)
    else if v1.win.validSoftOrientations_.has .VIEW_ROTATE_180 then
      some (requestOrientationChange .VIEW_ROTATE_180 v1)
    else if v1.win.validSoftOrientations_.has .VIEW_ROTATE_270 then
      some (requestOrientationChange .VIEW_ROTATE_270 v1)
    else none
  else some (v1, false)

/-- Member `dispatchSurfaceChange()`: the pending sub-flags are taken out of the
window, then the handler is called with them. -/
def dispatchSurfaceChange (h : Handlers) (v : WinWorld) : WinWorld :=
  let change := v.win.surfaceChange
  let v1 : WinWorld := { v with win := { v.win with surfaceChange := SurfaceChange.none } }
  let v2 := v1.call (.onSurfaceChange v1.win change)
  { v2 with win := h.onSurfaceChange v1.win change }

/-- Member `draw(needsSync)`. -/
def draw (h : Handlers) (needsSync : Bool) (v : WinWorld) : WinWorld :=
  let pending := v.win.surfaceChange.flags
  let v1 := if pending then dispatchSurfaceChange h v else v
  let params : DrawParams := { needsSync_ := needsSync, wasResized_ := pending }
  let v2 : WinWorld := { v1 with win := { v1.win with notifyDrawAllowed := false } }
  let v3 := v2.call (.onDraw v2.win params)
  let r := h.onDraw v2.win params
  let v4 : WinWorld := { v3 with win := r.1 }
  if r.2 then deferredDrawComplete v4 else v4

/-- Member `dispatchOnDraw(needsSync)`. -/
def dispatchOnDraw (h : Handlers) (needsSync : Bool) (v : WinWorld) : WinWorld :=
  if !v.win.needsDraw then v
  else draw h needsSync { v with win := { v.win with drawNeeded := false } }

/-- The calls to handlers among a list of calls. -/
def handlerCalls : List WinCall → List WinCall
  | [] => []
  | .onSurfaceChange win change :: cs => .onSurfaceChange win change :: handlerCalls cs
  | .onDraw win params :: cs => .onDraw win params :: handlerCalls cs
  | _ :: cs => handlerCalls cs

end WinWorld

/-- A size with its axes swapped when `sideways` holds, else the size itself. -/
def Point2D.swapIf (sideways : Bool) (s : Point2D) : Point2D :=
  if sideways then { x := s.y, y := s.x } else s

/-- The first orientation of the list 0, 90, 180, 270 that a mask contains. -/
def OrientationMask.firstValid (m : OrientationMask) : Option Orientation :=
  [Orientation.VIEW_ROTATE_0, .VIEW_ROTATE_90, .VIEW_ROTATE_180, .VIEW_ROTATE_270].find? m.has

/-- A window of 640 by 480 pixels in orientation 0, with a surface, in which
the orientations of the mask are valid. -/
def sampleWindow (mask : OrientationMask) : WinWorld :=
  { win :=
      { winSizePixels := { x := 640, y := 480 }
        softOrientation_ := .VIEW_ROTATE_0
        setSoftOrientation := .VIEW_ROTATE_0
        validSoftOrientations_ := mask
        surfaceChange := SurfaceChange.none
        drawNeeded := false
        notifyDrawAllowed := true
        hasSurface := true
        isMainWindow := true }
    calls := [] }

/-- The mask of the orientations 0 and 90. -/
def mask0and90 : OrientationMask :=
  { rotate0 := true, rotate90 := true, rotate180 := false, rotate270 := false }

/-- The mask of the orientation 0 alone. -/
def mask0 : OrientationMask :=
  { rotate0 := true, rotate90 := false, rotate180 := false, rotate270 := false }

/-- The mask of the orientations 90 and 270. -/
def mask90and270 : OrientationMask :=
  { rotate0 := false, rotate90 := true, rotate180 := false, rotate270 := true }

/-- Handlers that leave the window as they find it; the draw handler returns
true. -/
def quietHandlers : Handlers :=
  { onSurfaceChange := fun w _ => w, onDraw := fun w _ => (w, true) }

end Base

/-! ## Drawable holder (`imagine/src/gfx/opengl/DrawableHolder.cc`) -/

namespace Gfx

/-- A non-null `GLDrawable` handle. -/
abbrev DrawableId := Nat

/-- The on-resume and on-exit delegates the model knows: the two closures made
by `makeDrawable` (`onResume` captures the drawable handle, `onExit` captures
`this`), and hooks registered by other components. -/
inductive LifecycleHook
  | drawableOnResume (drawable : DrawableId)
  | drawableOnExit (holder : Nat)
  | other (id : Nat)
  deriving DecidableEq, Repr

/-- Calls made by the drawable holder and its hooks, in order. -/
inductive GfxCall
  | makeDrawable
  | logErr
  | taskRunDestroy (drawable : DrawableId)
  | taskRunSetDrawBuffers (drawable : DrawableId)
  | restoreCaches (drawable : DrawableId)
  | freeCaches (drawable : DrawableId)
  | destroy (drawable : DrawableId)
  | dispatchOnFrame
  deriving DecidableEq, Repr

/-- The drawable holder `self` and what it touches.
* `drawable_`: the bound handle, `none` for the null handle;
* `onResume`, `onExit`: the delegates stored in the holder, `none` while empty;
* `onFrameSize`: `onFrame.size()`;
* `eventAttached`, `eventPending`: the state of `drawFinishedEvent`;
* `onResumeSet`, `onExitSet`: the process-wide on-resume and on-exit
  registries;
* `caches`, `alive`: for every drawable, whether its caches are present and
  whether it has not been destroyed.
Modelled from the spec: the registries behind `Base::addOnResume`,
`Base::addOnExit`, `Base::removeOnResume`, `Base::removeOnExit`, the event
`drawFinishedEvent` and the members `freeCaches`, `restoreCaches`, `destroy`
of `GLDrawable` are not among the sources. The registries are delegate sets;
`notify` makes the event pending, `cancel` and `detach` clear it. -/
structure GfxWorld where
  self : Nat
  drawable_ : Option DrawableId
  onResume : Option LifecycleHook
  onExit : Option LifecycleHook
  onFrameSize : Nat
  eventAttached : Bool
  eventPending : Bool
  onResumeSet : IG.DelegateFuncSet LifecycleHook
  onExitSet : IG.DelegateFuncSet LifecycleHook
  resumePriority : Int
  exitPriority : Int
  caches : DrawableId → Bool
  alive : DrawableId → Bool
  calls : List GfxCall

namespace GfxWorld

/-- Record a call. -/
def call (c : GfxCall) (w : GfxWorld) : GfxWorld := { w with calls := w.calls ++ [c] }

/-- The call `Base::addOnResume(del, priority)`. -/
def addOnResume (del : LifecycleHook) (priority : Int) (w : GfxWorld) : GfxWorld :=
  { w with onResumeSet := (w.onResumeSet.add del priority).1 }

/-- The call `Base::addOnExit(del, priority)`. -/
def addOnExit (del : LifecycleHook) (priority : Int) (w : GfxWorld) : GfxWorld :=
  { w with onExitSet := (w.onExitSet.add del priority).1 }

/-- The call `Base::removeOnResume(del)`, with the stored delegate `del`; an
empty delegate is in no registry. -/
def removeOnResume (del : Option LifecycleHook) (w : GfxWorld) : GfxWorld :=
  match del with
  | some d => { w with onResumeSet := (w.onResumeSet.remove d).1 }
  | none => w

/-- The call `Base::removeOnExit(del)`, with the stored delegate `del`. -/
def removeOnExit (del : Option LifecycleHook) (w : GfxWorld) : GfxWorld :=
  match del with
  | some d => { w with onExitSet := (w.onExitSet.remove d).1 }
  | none => w

/-- Member `GLDrawableHolder::destroyDrawable()`. -/
def destroyDrawable (w : GfxWorld) : GfxWorld :=
  match w.drawable_ with
  | none => w
  | some d =>
    let w1 := ({ w with drawable_ := none } : GfxWorld).call (.taskRunDestroy d)
    let w2 := removeOnExit w1.onResume w1
    let w3 := removeOnExit w2.onExit w2
    { w3 with eventAttached := false, eventPending := false }

/-- Member `GLDrawableHolder::makeDrawable(rTask, win)`. `made` is the answer of
`dpy.makeDrawable(win, ..)`, `none` for an error code, and
`hasDrawReadBuffers` that of `r.support.hasDrawReadBuffers()`. The
assignments to the members `task` and `screen` are left out. -/
def makeDrawable (made : Option DrawableId) (hasDrawReadBuffers : Bool) (w : GfxWorld) :
    GfxWorld :=
  let w1 := (destroyDrawable w).call .makeDrawable
  match made with
  | none => w1.call .logErr
  | some drawable =>
    let w2 : GfxWorld := { w1 with drawable_ := some drawable }
    let w3 : GfxWorld := { w2 with onResume := some (.drawableOnResume drawable) }
    let w4 := addOnResume (.drawableOnResume drawable) w3.resumePriority w3
    let w5 : GfxWorld := { w4 with onExit := some (.drawableOnExit w4.self) }
    let w6 := addOnExit (.drawableOnExit w5.self) w5.exitPriority w5
    let w7 : GfxWorld := { w6 with eventAttached := true }
    if hasDrawReadBuffers then w7.call (.taskRunSetDrawBuffers drawable) else w7

/-- Member `GLDrawableHolder::notifyOnFrame()`. -/
def notifyOnFrame (w : GfxWorld) : GfxWorld :=
  if w.onFrameSize ≠ 0 then { w with eventPending := true } else w

/-- The closure attached to `drawFinishedEvent`, run by the event loop when the
event is attached and pending. -/
def fireDrawFinished (w : GfxWorld) : GfxWorld :=
  if w.eventAttached && w.eventPending then
    let w1 : GfxWorld := { w with eventPending := false }
    if w1.onFrameSize = 0 then w1 else w1.call .dispatchOnFrame
  else w

/-- The closure `onResume` made by `makeDrawable`, with the captured handle. -/
def runOnResume (drawable : DrawableId) (_focused : Bool) (w : GfxWorld) : GfxWorld × Bool :=
  (({ w with caches := Function.update w.caches drawable true } : GfxWorld).call
    (.restoreCaches drawable), true)

/-- The closure `onExit` made by `makeDrawable`; it works on the handle bound
when it runs. On the null handle the members of `GLDrawable` are taken to do
nothing. -/
def runOnExit (backgrounded : Bool) (w : GfxWorld) : GfxWorld × Bool :=
  match w.drawable_ with
  | none => (if backgrounded then { w with eventPending := false } else w, true)
  | some d =>
    if backgrounded then
      let w1 : GfxWorld := { w with eventPending := false }
      (({ w1 with caches := Function.update w1.caches d false } : GfxWorld).call (.freeCaches d),
        true)
    else
      (({ w with alive := Function.update w.alive d false } : GfxWorld).call (.destroy d), true)

/-- Run a registered lifecycle hook with its argument. Hooks of other
components and of other holders leave this holder alone. -/
def invokeHook (hook : LifecycleHook) (arg : Bool) (w : GfxWorld) : GfxWorld × Bool :=
  match hook with
  | .drawableOnResume drawable => runOnResume drawable arg w
  | .drawableOnExit holder => if holder = w.self then runOnExit arg w else (w, true)
  | .other _ => (w, true)

end GfxWorld

/-- A holder with no drawable bound, one frame callback registered, and empty
process-wide registries. -/
def sampleHolder : GfxWorld :=
  { self := 0
    drawable_ := none
    onResume := none
    onExit := none
    onFrameSize := 1
    eventAttached := false
    eventPending := false
    onResumeSet := IG.DelegateFuncSet.empty
    onExitSet := IG.DelegateFuncSet.empty
    resumePriority := -10
    exitPriority := 20
    caches := fun _ => true
    alive := fun _ => true
    calls := [] }

end Gfx

/-! ## Delegate sets reached through the members of the class -/

namespace IG

/-- Make one call on a delegate set: the set after `add` or `remove`. -/
def DelegateFuncSet.apply {F : Type} [DecidableEq F] (s : DelegateFuncSet F) :
    SetOp F → DelegateFuncSet F
  | .add del priority => (s.add del priority).1
  | .remove del => (s.remove del).1

/-- A callback run by `runAll` that works on the set it is registered in: `cb`
says, for the callback and the set it finds, which calls of `add` and `remove`
it makes, in order, and which flag it returns. -/
def execCalls {F : Type} [DecidableEq F] (cb : F → DelegateFuncSet F → List (SetOp F) × Bool)
    (d : F) (s : DelegateFuncSet F) : DelegateFuncSet F × Bool :=
  ((cb d s).1.foldl DelegateFuncSet.apply s, (cb d s).2)

/-- The sets the members of the class produce from the empty set: by `add`, by
`remove`, and by a `runAll` pass whose callbacks call `add` and `remove` on
the set. -/
inductive Built {F : Type} [DecidableEq F] : DelegateFuncSet F → Prop
  | empty : Built DelegateFuncSet.empty
  | add (s : DelegateFuncSet F) (del : F) (priority : Int) : Built s → Built (s.add del priority).1
  | remove (s : DelegateFuncSet F) (del : F) : Built s → Built (s.remove del).1
  | runAll (s : DelegateFuncSet F) (cb : F → DelegateFuncSet F → List (SetOp F) × Bool) :
      Built s → Built (IG.runAll (fun x => x) (fun d _ => d) (execCalls cb) s)

/-- A pass over the set that holds callbacks 1, 2 and 3: callback 1 adds
callback 2 again and callback 4 and returns false, callback 2 removes callback
3 and returns true, callback 3 returns false. -/
def samplePass : DelegateFuncSet Nat :=
  runAll (fun x => x) (fun d _ => d)
    (execCalls (fun d _ =>
      if d = 1 then ([.add 2 7, .add 4 0], false)
      else if d = 2 then ([.remove 3], true)
      else ([], false)))
    ⟨[⟨1, 0⟩, ⟨2, 0⟩, ⟨3, 0⟩]⟩

end IG

/-! ## Observations on the settling delay -/

namespace EmuViewController

/-- The callbacks that one frame tick of the frame source `src` runs, in order,
each with the flag it returns. -/
def tickLog (src : FrameSource) (env : FrameEnv) (w : World) : List (OnFrameDelegate × Bool) :=
  (IG.runAllLogged (fun (x : World) => x.st.onFrame src)
    (fun d (x : World) => x.modify (setOnFrame src d)) (invoke env) w).2

/-- The frame source `src` is the one of the emulation window and holds the
callback `del` and no other; the trace is `t0` followed by calls that do not
advance emulation. -/
def Holds (src : FrameSource) (t0 : List Call) (del : OnFrameDelegate) (a : World) : Prop :=
  emuFrameSource a.st = src ∧ (a.st.onFrame src).delegate = [⟨del, 0⟩] ∧
    ∃ l, a.trace = t0 ++ l ∧ ∀ c ∈ l, advancesEmulation c = false

/-- The controller paused during the settling delay: after `showEmulation` one
frame tick has shortened the wrapper to 14 ticks, and `pauseEmulation`, which
removes `onFrameUpdate` only, has left that wrapper registered. -/
def samplePaused : World :=
  run (sampleRunning false) [.frameTick (.screen 0) (sampleEnv 0), .pauseEmulation]

/-- The paused controller started again and ticked `n` times: `startEmulation`
arms the frame source of screen 0, which still holds the wrapper with 14
ticks left, with the full delay of 15. -/
def sampleRearmed (n : Nat) : World :=
  run (startEmulation samplePaused)
    ((List.replicate n (sampleEnv 0)).map (fun e => Op.frameTick (.screen 0) e))

end EmuViewController

/-! ## Recent games (`EmuFramework/src/Recent.cc`) -/

/-- Modelled from the spec: `RecentGameInfo` of `Recent.hh`, which is not among
the sources: the path and the display name of a game. `string_copy` stores
the two C strings in the fixed-size buffers of the entry, which are taken to
hold them in full. -/
structure RecentGameInfo where
  path : String
  name : String
  deriving DecidableEq, Repr

/-- Modelled from the spec: `IG::eraseFirst(recentGameList, recent)` of
`imagine/util/algorithm.h` with `RecentGameInfo::operator==`, both not among
the sources: the first entry equal to `recent` is erased, and two entries are
equal when their paths are. -/
def eraseFirstPath (path : String) : List RecentGameInfo → List RecentGameInfo
  | [] => []
  | x :: xs => if x.path = path then xs else x :: eraseFirstPath path xs

/-- The function `addRecentGame(fullPath, name)` on the list `recentGameList`, a
`StaticArrayList` whose capacity (`MAX_RECENT`, a constant of a header that is
not among the sources) is the parameter `capacity`; `isFull()` holds when the
size is the capacity. -/
def addRecentGame (capacity : Nat) (fullPath name : String)
    (recentGameList : List RecentGameInfo) : List RecentGameInfo :=
  if fullPath.length = 0 then recentGameList
  else
    let recent : RecentGameInfo := { path := fullPath, name := name }
    let erased := eraseFirstPath recent.path recentGameList
    let room := if erased.length = capacity then erased.dropLast else erased
    recent :: room

/-- A recent-games list of three games. -/
def sampleRecent : List RecentGameInfo :=
  [⟨"/roms/a.nes", "A"⟩, ⟨"/roms/b.nes", "B"⟩, ⟨"/roms/c.nes", "C"⟩]

/-! ## Renderer configuration (`imagine/src/gfx/opengl/config.cc`) -/

namespace Gfx

/-- The C library test `isdigit` in the C locale. -/
def isdigit (c : Char) : Bool := decide (48 ≤ c.toNat ∧ c.toNat ≤ 57)

/-- The C library test `isspace` in the C locale: space, and the control
characters from horizontal tab to carriage return. -/
def isspace (c : Char) : Bool := decide (c.toNat = 32 ∨ (9 ≤ c.toNat ∧ c.toNat ≤ 13))

/-- The value an `int` holds after an integer is stored in it: 32 bits, two's
complement. -/
def toInt32 (x : Int) : Int := (x + 2 ^ 31) % 2 ^ 32 - 2 ^ 31

/-- The number a run of decimal digits stands for. -/
def digitsValue (ds : List Char) : Nat :=
  ds.foldl (fun a c => 10 * a + (c.toNat - 48)) 0

/-- The conversion `%d` of `sscanf`, as the C standard describes it: white
space is skipped, an optional sign and a non-empty run of decimal digits are
read and stored in an `int`. The result is the stored value and the rest of
the input, or `none` when no number is there. -/
def scanInt (s : List Char) : Option (Int × List Char) :=
  let s1 := s.dropWhile isspace
  let signed : Bool × List Char :=
    if s1.head? = some '-' then (true, s1.tail)
    else if s1.head? = some '+' then (false, s1.tail)
    else (false, s1)
  let ds := signed.2.takeWhile isdigit
  if ds.isEmpty then none
  else
    some (toInt32 (if signed.1 then -(digitsValue ds : Int) else digitsValue ds),
      signed.2.dropWhile isdigit)

/-- The call `sscanf(s, "%d.%d", &major, &minor)` on `major = 1, minor = 0`: the
values of `major` and `minor` afterwards. A conversion that fails ends the
scan and leaves the later variables as they were. -/
def scanVersion (s : List Char) : Int × Int :=
  match scanInt s with
  | none => (1, 0)
  | some (major, rest) =>
    match rest with
    | '.' :: rest2 =>
      match scanInt rest2 with
      | none => (major, 0)
      | some (minor, _) => (major, minor)
    | _ => (major, 0)

/-- The function `glVersionFromStr(versionStr)`; a C string is the list of its
characters before the terminator. The result is an `int`. -/
def glVersionFromStr (versionStr : List Char) : Int :=
  let s := versionStr.dropWhile (fun c => !isdigit c)
  let v := scanVersion s
  toInt32 (10 * v.1 + v.2)

/-- A version string in parts: a prefix, the digits of the major number, a
dot, the digits of the minor number, and a suffix. -/
structure VersionString where
  pre : List Char
  major : List Char
  minor : List Char
  suffix : List Char
  deriving DecidableEq, Repr

/-- The characters of a version string. -/
def VersionString.chars (v : VersionString) : List Char :=
  v.pre ++ v.major ++ '.' :: v.minor ++ v.suffix

/-- The parts of a version string are what their names say: the prefix holds
no digit, the two numbers are non-empty runs of digits, and the suffix does
not go on with a digit. -/
def VersionString.WellFormed (v : VersionString) : Prop :=
  (∀ c ∈ v.pre, isdigit c = false) ∧
  v.major ≠ [] ∧ (∀ c ∈ v.major, isdigit c = true) ∧
  v.minor ≠ [] ∧ (∀ c ∈ v.minor, isdigit c = true) ∧
  (∀ c, v.suffix.head? = some c → isdigit c = false)

/-- The version string `OpenGL ES 3.2 build`. -/
def sampleVersion : VersionString :=
  { pre := "OpenGL ES ".toList, major := "3".toList, minor := "2".toList,
    suffix := " build".toList }

/-- The version string `4.6.0 NVIDIA`. -/
def sampleVersionDesktop : VersionString :=
  { pre := [], major := "4".toList, minor := "6".toList, suffix := ".0 NVIDIA".toList }

/-- A version string whose major number is 214748365. -/
def sampleVersionHuge : VersionString :=
  { pre := [], major := "214748365".toList, minor := "0".toList, suffix := [] }

end Gfx

namespace Gfx

/-- The switches of conditional compilation and the `Config` constants the
modelled functions read.
* `openglES`: `CONFIG_GFX_OPENGL_ES` is defined (`Config::Gfx::OPENGL_ES`);
* `esMajorVersion`: `Config::Gfx::OPENGL_ES_MAJOR_VERSION`;
* `debugContext`: `CONFIG_GFX_OPENGL_DEBUG_CONTEXT` is defined;
* `debugBuild`: `Config::DEBUG_BUILD`;
* `android`: `__ANDROID__` is defined (`Config::envIsAndroid`);
* `apple`: `__APPLE__` is defined;
* `envIsIOS`: `Config::envIsIOS`. -/
structure BuildConfig where
  openglES : Bool
  esMajorVersion : Nat
  debugContext : Bool
  debugBuild : Bool
  android : Bool
  apple : Bool
  envIsIOS : Bool
  deriving DecidableEq, Repr

/-- A function pointer: `none` is the null pointer, `some name` the entry point
found under `name`. -/
abbrev FuncPtr := Option String

/-- What the surroundings answer while the renderer is configured.
* `androidSDK`: `Base::androidSDK()`;
* `procAddress`: `Base::GLContext::procAddress(name)`;
* `maxTextureMaxAnisotropy`: the value `glGetFloatv` gives for
  `GL_MAX_TEXTURE_MAX_ANISOTROPY_EXT`, taken as given;
* `overrideFileExists`: `FS::exists` of the file
  `imagine_force_single_gl_context` in the shared storage path. -/
structure GLEnv where
  androidSDK : Nat
  procAddress : String → FuncPtr
  maxTextureMaxAnisotropy : Nat
  overrideFileExists : Bool

/-- The constant `GL_RGBA`. -/
def GL_RGBA : Nat := 0x1908

/-- The constant `GL_BGRA`. -/
def GL_BGRA : Nat := 0x80E1

/-- The fields of the capability record `DrawContextSupport` that the
extension probes and the choice of the threading mode read or write; the
three `nonPow2` flags are those of its member `textureSizeSupport`. -/
structure DrawContextSupport where
  nonPow2 : Bool
  nonPow2CanMipmap : Bool
  nonPow2CanRepeat : Bool
  hasDebugOutput : Bool
  hasUnpackRowLength : Bool
  bgrInternalFormat : Nat
  hasBGRPixels : Bool
  generateMipmaps : FuncPtr
  hasImmutableTexStorage : Bool
  glTexStorage2D : FuncPtr
  glFenceSync : FuncPtr
  glDeleteSync : FuncPtr
  glClientWaitSync : FuncPtr
  glWaitSync : FuncPtr
  hasFenceSync : Bool
  hasEGLImages : Bool
  hasExternalEGLImages : Bool
  glEGLImageTargetTexStorageEXT : FuncPtr
  hasPBOFuncs : Bool
  glMapBufferRange : FuncPtr
  glUnmapBuffer : FuncPtr
  glBufferStorage : FuncPtr
  hasBufferStorage : Bool
  maximumAnisotropy : Nat
  hasMultisample : Bool
  hasMultisampleHints : Bool
  isConfigured : Bool
  deriving DecidableEq, Repr

namespace DrawContextSupport

/-- Member `hasSyncFences()`. -/
def hasSyncFences (cfg : BuildConfig) (s : DrawContextSupport) : Bool :=
  if cfg.openglES then s.glFenceSync.isSome else s.hasFenceSync

/-- Member `hasImmutableBufferStorage()`. -/
def hasImmutableBufferStorage (cfg : BuildConfig) (s : DrawContextSupport) : Bool :=
  if cfg.openglES then s.glBufferStorage.isSome else s.hasBufferStorage

end DrawContextSupport

namespace GLRenderer

/-- Member `setupAnisotropicFiltering()`. -/
def setupAnisotropicFiltering (cfg : BuildConfig) (env : GLEnv) (s : DrawContextSupport) :
    DrawContextSupport :=
  if !cfg.openglES then { s with maximumAnisotropy := env.maxTextureMaxAnisotropy } else s

/-- Member `setupMultisample()`. -/
def setupMultisample (cfg : BuildConfig) (s : DrawContextSupport) : DrawContextSupport :=
  if !cfg.openglES then { s with hasMultisample := true } else s

/-- Member `setupMultisampleHints()`. -/
def setupMultisampleHints (cfg : BuildConfig) (s : DrawContextSupport) : DrawContextSupport :=
  if !cfg.openglES && !cfg.apple then { s with hasMultisampleHints := true } else s

/-- Member `setupNonPow2Textures()`. -/
def setupNonPow2Textures (s : DrawContextSupport) : DrawContextSupport :=
  { s with nonPow2 := true }

/-- Member `setupNonPow2MipmapTextures()`. -/
def setupNonPow2MipmapTextures (s : DrawContextSupport) : DrawContextSupport :=
  { s with nonPow2 := true, nonPow2CanMipmap := true }

/-- Member `setupNonPow2MipmapRepeatTextures()`. -/
def setupNonPow2MipmapRepeatTextures (s : DrawContextSupport) : DrawContextSupport :=
  { s with nonPow2 := true, nonPow2CanMipmap := true, nonPow2CanRepeat := true }

/-- Member `setupBGRPixelSupport()`. -/
def setupBGRPixelSupport (s : DrawContextSupport) : DrawContextSupport :=
  { s with hasBGRPixels := true }

/-- Member `setupFBOFuncs(useFBOFuncs)`: the record and the flag afterwards. -/
def setupFBOFuncs (cfg : BuildConfig) (s : DrawContextSupport) : DrawContextSupport × Bool :=
  if cfg.openglES && decide (cfg.esMajorVersion = 1) then
    ({ s with generateMipmaps := some "glGenerateMipmapOES" }, true)
  else if !cfg.openglES then ({ s with generateMipmaps := some "glGenerateMipmap" }, true)
  else (s, true)

/-- Member `setupImmutableTexStorage(extSuffix)`. -/
def setupImmutableTexStorage (cfg : BuildConfig) (env : GLEnv) (extSuffix : Bool)
    (s : DrawContextSupport) : DrawContextSupport :=
  if s.hasImmutableTexStorage then s
  else
    let s1 := { s with hasImmutableTexStorage := true }
    if cfg.openglES then
      { s1 with glTexStorage2D :=
          env.procAddress (if extSuffix then "glTexStorage2DEXT" else "glTexStorage2D") }
    else s1

/-- Member `setupPBO()`. -/
def setupPBO (s : DrawContextSupport) : DrawContextSupport := { s with hasPBOFuncs := true }

/-- Member `setupFenceSync()`. -/
def setupFenceSync (cfg : BuildConfig) (env : GLEnv) (s : DrawContextSupport) :
    DrawContextSupport :=
  if s.hasSyncFences cfg then s
  else if cfg.openglES then
    { s with
      glFenceSync := env.procAddress "glFenceSync"
      glDeleteSync := env.procAddress "glDeleteSync"
      glClientWaitSync := env.procAddress "glClientWaitSync"
      glWaitSync := env.procAddress "glWaitSync" }
  else { s with hasFenceSync := true }

/-- Member `setupAppleFenceSync()`. -/
def setupAppleFenceSync (cfg : BuildConfig) (env : GLEnv) (s : DrawContextSupport) :
    DrawContextSupport :=
  if s.hasSyncFences cfg then s
  else
    { s with
      glFenceSync := env.procAddress "glFenceSyncAPPLE"
      glDeleteSync := env.procAddress "glDeleteSyncAPPLE"
      glClientWaitSync := env.procAddress "glClientWaitSyncAPPLE"
      glWaitSync := env.procAddress "glWaitSyncAPPLE" }

/-- Member `setupUnmapBufferFunc()`. -/
def setupUnmapBufferFunc (cfg : BuildConfig) (env : GLEnv) (s : DrawContextSupport) :
    DrawContextSupport :=
  if cfg.openglES then
    if !s.glUnmapBuffer.isSome then
      if cfg.android || cfg.envIsIOS then { s with glUnmapBuffer := some "glUnmapBufferOES" }
      else { s with glUnmapBuffer := env.procAddress "glUnmapBufferOES" }
    else s
  else s

/-- Member `setupImmutableBufferStorage()`. -/
def setupImmutableBufferStorage (cfg : BuildConfig) (env : GLEnv) (s : DrawContextSupport) :
    DrawContextSupport :=
  if s.hasImmutableBufferStorage cfg then s
  else if cfg.openglES then { s with glBufferStorage := env.procAddress "glBufferStorageEXT" }
  else { s with hasBufferStorage := true }

/-- Member `checkExtensionString(extStr, useFBOFuncs)`: the capability record
and the flag `useFBOFuncs` afterwards. -/
def checkExtensionString (cfg : BuildConfig) (env : GLEnv) (extStr : String)
    (support : DrawContextSupport) (useFBOFuncs : Bool) : DrawContextSupport × Bool :=
  if extStr = "GL_ARB_texture_non_power_of_two" ∨
      (cfg.openglES = true ∧ extStr = "GL_OES_texture_npot") then
    (setupNonPow2MipmapRepeatTextures support, useFBOFuncs)
  else if cfg.debugContext = true ∧ cfg.debugBuild = true ∧ extStr = "GL_KHR_debug" then
    let s1 := { support with hasDebugOutput := true }
    ((if cfg.android = true ∧ env.androidSDK < 23 then { s1 with hasDebugOutput := false } else s1),
      useFBOFuncs)
  else if cfg.openglES = true ∧ cfg.esMajorVersion = 1 ∧
      (extStr = "GL_APPLE_texture_2D_limited_npot" ∨ extStr = "GL_IMG_texture_npot") then
    (setupNonPow2Textures support, useFBOFuncs)
  else if cfg.openglES = true ∧ cfg.esMajorVersion ≥ 2 ∧ cfg.envIsIOS = false ∧
      extStr = "GL_NV_texture_npot_2D_mipmap" then
    (setupNonPow2MipmapTextures support, useFBOFuncs)
  else if cfg.openglES = true ∧ cfg.esMajorVersion ≥ 2 ∧ extStr = "GL_EXT_unpack_subimage" then
    ({ support with hasUnpackRowLength := true }, useFBOFuncs)
  else if cfg.openglES = true ∧ extStr = "GL_APPLE_texture_format_BGRA8888" then
    (setupBGRPixelSupport { support with bgrInternalFormat := GL_RGBA }, useFBOFuncs)
  else if cfg.openglES = true ∧ extStr = "GL_EXT_texture_format_BGRA8888" then
    (setupBGRPixelSupport support, useFBOFuncs)
  else if cfg.openglES = true ∧ cfg.esMajorVersion = 1 ∧
      extStr = "GL_OES_framebuffer_object" then
    (if !useFBOFuncs then setupFBOFuncs cfg support else (support, useFBOFuncs))
  else if cfg.openglES = true ∧ extStr = "GL_EXT_texture_storage" then
    (setupImmutableTexStorage cfg env true support, useFBOFuncs)
  else if cfg.openglES = true ∧ (cfg.android = true ∨ cfg.apple = true) ∧
      extStr = "GL_APPLE_sync" then
    (setupAppleFenceSync cfg env support, useFBOFuncs)
  else if cfg.openglES = true ∧ cfg.android = true ∧ extStr = "GL_OES_EGL_image" then
    ({ support with hasEGLImages := true }, useFBOFuncs)
  else if cfg.openglES = true ∧ cfg.android = true ∧ cfg.esMajorVersion ≥ 2 ∧
      extStr = "GL_OES_EGL_image_external" then
    ({ support with hasExternalEGLImages := true }, useFBOFuncs)
  else if cfg.openglES = true ∧ cfg.android = true ∧ cfg.esMajorVersion ≥ 2 ∧
      extStr = "GL_EXT_EGL_image_storage" then
    ({ support with
        glEGLImageTargetTexStorageEXT := env.procAddress "glEGLImageTargetTexStorageEXT" },
      useFBOFuncs)
  else if cfg.openglES = true ∧ cfg.esMajorVersion ≥ 2 ∧
      extStr = "GL_NV_pixel_buffer_object" then
    (setupPBO support, useFBOFuncs)
  else if cfg.openglES = true ∧ cfg.esMajorVersion ≥ 2 ∧ extStr = "GL_NV_map_buffer_range" then
    (setupUnmapBufferFunc cfg env
      (if !support.glMapBufferRange.isSome then
        { support with glMapBufferRange := env.procAddress "glMapBufferRangeNV" }
      else support), useFBOFuncs)
  else if cfg.openglES = true ∧ extStr = "GL_EXT_map_buffer_range" then
    (setupUnmapBufferFunc cfg env
      (if !support.glMapBufferRange.isSome then
        { support with glMapBufferRange := env.procAddress "glMapBufferRangeEXT" }
      else support), useFBOFuncs)
  else if cfg.openglES = true ∧ cfg.esMajorVersion ≥ 2 ∧ extStr = "GL_EXT_buffer_storage" then
    (setupImmutableBufferStorage cfg env support, useFBOFuncs)
  else if cfg.openglES = false ∧ extStr = "GL_EXT_texture_filter_anisotropic" then
    (setupAnisotropicFiltering cfg env support, useFBOFuncs)
  else if cfg.openglES = false ∧ extStr = "GL_ARB_multisample" then
    (setupMultisample cfg support, useFBOFuncs)
  else if cfg.openglES = false ∧ extStr = "GL_NV_multisample_filter_hint" then
    (setupMultisampleHints cfg support, useFBOFuncs)
  else if cfg.openglES = false ∧ extStr = "GL_EXT_framebuffer_object" then
    (if cfg.apple = false ∧ useFBOFuncs = false then
      ({ (setupFBOFuncs cfg support).1 with generateMipmaps := some "glGenerateMipmapEXT" },
        (setupFBOFuncs cfg support).2)
    else (support, useFBOFuncs))
  else if cfg.openglES = false ∧ extStr = "GL_ARB_framebuffer_object" then
    (if !useFBOFuncs then setupFBOFuncs cfg support else (support, useFBOFuncs))
  else if cfg.openglES = false ∧ extStr = "GL_ARB_texture_storage" then
    (setupImmutableTexStorage cfg env false support, useFBOFuncs)
  else if cfg.openglES = false ∧ extStr = "GL_ARB_pixel_buffer_object" then
    (setupPBO support, useFBOFuncs)
  else if cfg.openglES = false ∧ extStr = "GL_ARB_sync" then
    (setupFenceSync cfg env support, useFBOFuncs)
  else if cfg.openglES = false ∧ extStr = "GL_ARB_buffer_storage" then
    (setupImmutableBufferStorage cfg env support, useFBOFuncs)
  else (support, useFBOFuncs)

/-- The pieces of a list of characters between its spaces. -/
def splitSpaces : List Char → List (List Char)
  | [] => [[]]
  | c :: cs =>
    if c = Char.ofNat 32 then [] :: splitSpaces cs
    else
      match splitSpaces cs with
      | t :: ts => (c :: t) :: ts
      | [] => [[c]]

/-- The tokens `strtok_r` finds in a string for the delimiter `" "`: the
maximal runs of characters other than the space. -/
def tokens (fullExtStr : String) : List String :=
  ((splitSpaces fullExtStr.toList).filter (fun t => !t.isEmpty)).map String.mk

/-- Member `checkFullExtensionString(fullExtStr)`: every token is probed, in
order, starting with `useFBOFuncs = false`. -/
def checkFullExtensionString (cfg : BuildConfig) (env : GLEnv) (fullExtStr : String)
    (support : DrawContextSupport) : DrawContextSupport :=
  ((tokens fullExtStr).foldl (fun a extStr => checkExtensionString cfg env extStr a.1 a.2)
    (support, false)).1

end GLRenderer

/-- Modelled from the spec: the values of `Renderer::ThreadMode`, an
enumeration of a header that is not among the sources. -/
inductive ThreadMode
  | AUTO
  | SINGLE
  | MULTI
  deriving DecidableEq, Repr

/-- The members of the renderer the choice of the threading mode reads or
writes. -/
structure Renderer where
  support : DrawContextSupport
  useSeparateDrawContext : Bool
  deriving DecidableEq, Repr

namespace Renderer

/-- Member `configureRenderer(threadMode)` from the end of its GL task on: the
capability record `r.support` is the one the task has filled in. (The calls
`setCorrectnessChecks` and `setDebugOutput` of a debug build are not among
the sources and are left out.) -/
def configureRenderer (cfg : BuildConfig) (env : GLEnv) (threadMode : ThreadMode)
    (r : Renderer) : Renderer :=
  let threadMode := if !r.support.hasSyncFences cfg then ThreadMode.SINGLE else threadMode
  let separate : Bool :=
    if threadMode = .AUTO then
      let u := r.support.hasSyncFences cfg
      if cfg.android && decide (env.androidSDK < 26) &&
          !r.support.hasImmutableBufferStorage cfg then false
      else u
    else decide (threadMode = .MULTI)
  let separate := if separate then (if env.overrideFileExists then false else separate) else separate
  { support := { r.support with isConfigured := true }, useSeparateDrawContext := separate }

/-- Member `isConfigured()`. -/
def isConfigured (r : Renderer) : Bool := r.support.isConfigured

/-- Member `threadMode()`. -/
def threadMode (r : Renderer) : ThreadMode :=
  if r.useSeparateDrawContext then .MULTI else .SINGLE

/-- Member `supportsThreadMode()`. -/
def supportsThreadMode (cfg : BuildConfig) (r : Renderer) : Bool := r.support.hasSyncFences cfg

end Renderer

/-- A capability record in which no feature is set; the internal format of BGR
pixels is `GL_BGRA`. -/
def sampleSupport : DrawContextSupport :=
  { nonPow2 := false, nonPow2CanMipmap := false, nonPow2CanRepeat := false
    hasDebugOutput := false, hasUnpackRowLength := false
    bgrInternalFormat := GL_BGRA, hasBGRPixels := false
    generateMipmaps := none
    hasImmutableTexStorage := false, glTexStorage2D := none
    glFenceSync := none, glDeleteSync := none, glClientWaitSync := none, glWaitSync := none
    hasFenceSync := false
    hasEGLImages := false, hasExternalEGLImages := false
    glEGLImageTargetTexStorageEXT := none
    hasPBOFuncs := false
    glMapBufferRange := none, glUnmapBuffer := none
    glBufferStorage := none, hasBufferStorage := false
    maximumAnisotropy := 0
    hasMultisample := false, hasMultisampleHints := false
    isConfigured := false }

/-- A desktop build: no OpenGL ES, not Android, not Apple. -/
def sampleDesktopBuild : BuildConfig :=
  { openglES := false, esMajorVersion := 0, debugContext := false, debugBuild := false
    android := false, apple := false, envIsIOS := false }

/-- An Android build for OpenGL ES 2 and later. -/
def sampleAndroidBuild : BuildConfig :=
  { openglES := true, esMajorVersion := 2, debugContext := false, debugBuild := false
    android := true, apple := false, envIsIOS := false }

/-- Sample surroundings at a given SDK level: every entry point is found under
its name, and the override file is absent. -/
def sampleGLEnv (androidSDK : Nat) : GLEnv :=
  { androidSDK := androidSDK
    procAddress := fun name => some name
    maxTextureMaxAnisotropy := 16
    overrideFileExists := false }

/-- The capability record of a configured desktop renderer whose driver lists
the extensions `GL_ARB_framebuffer_object` and `GL_ARB_sync`. -/
def sampleConfiguredDesktop : DrawContextSupport :=
  { GLRenderer.checkFullExtensionString sampleDesktopBuild (sampleGLEnv 0)
      "GL_ARB_framebuffer_object GL_ARB_sync" sampleSupport with isConfigured := true }

/-- The capability record of a configured Android renderer whose driver lists
the extension `GL_EXT_texture_format_BGRA8888`. -/
def sampleConfiguredAndroid : DrawContextSupport :=
  { GLRenderer.checkFullExtensionString sampleAndroidBuild (sampleGLEnv 28)
      "GL_EXT_texture_format_BGRA8888" sampleSupport with isConfigured := true }

end Gfx

namespace Gfx

/-- What a probe keeps of a capability record `a` in the record `b` it
produces: every feature flag that is set in `a` is set in `b` (for
`hasDebugOutput`: unless the build is for Android and the SDK level is below
23), the flag `isConfigured` is as it was, and the function pointers that are
behind a test are as they were once the test holds: `glTexStorage2D` when
`hasImmutableTexStorage` is set, the four fence functions when
`hasSyncFences()` holds, `glMapBufferRange` and `glUnmapBuffer` when they are
not null, `glBufferStorage` when `hasImmutableBufferStorage()` holds. -/
def Keeps (cfg : BuildConfig) (env : GLEnv) (a b : DrawContextSupport) : Prop :=
  (a.nonPow2 = true → b.nonPow2 = true) ∧
  (a.nonPow2CanMipmap = true → b.nonPow2CanMipmap = true) ∧
  (a.nonPow2CanRepeat = true → b.nonPow2CanRepeat = true) ∧
  (a.hasUnpackRowLength = true → b.hasUnpackRowLength = true) ∧
  (a.hasBGRPixels = true → b.hasBGRPixels = true) ∧
  (a.hasImmutableTexStorage = true → b.hasImmutableTexStorage = true) ∧
  (a.hasFenceSync = true → b.hasFenceSync = true) ∧
  (a.hasEGLImages = true → b.hasEGLImages = true) ∧
  (a.hasExternalEGLImages = true → b.hasExternalEGLImages = true) ∧
  (a.hasPBOFuncs = true → b.hasPBOFuncs = true) ∧
  (a.hasBufferStorage = true → b.hasBufferStorage = true) ∧
  (a.hasMultisample = true → b.hasMultisample = true) ∧
  (a.hasMultisampleHints = true → b.hasMultisampleHints = true) ∧
  (a.hasDebugOutput = true →
    b.hasDebugOutput = true ∨ (cfg.android = true ∧ env.androidSDK < 23)) ∧
  b.isConfigured = a.isConfigured ∧
  (a.hasImmutableTexStorage = true → b.glTexStorage2D = a.glTexStorage2D) ∧
  (a.hasSyncFences cfg = true →
    b.glFenceSync = a.glFenceSync ∧ b.glDeleteSync = a.glDeleteSync ∧
    b.glClientWaitSync = a.glClientWaitSync ∧ b.glWaitSync = a.glWaitSync) ∧
  (a.glMapBufferRange.isSome = true → b.glMapBufferRange = a.glMapBufferRange) ∧
  (a.glUnmapBuffer.isSome = true → b.glUnmapBuffer = a.glUnmapBuffer) ∧
  (a.hasImmutableBufferStorage cfg = true → b.glBufferStorage = a.glBufferStorage)

end Gfx

/-! ## Android input events (`imagine/src/base/android/input.cc`) -/

namespace Input

/-- The fields of an `AndroidInputDevice` the modelled functions read: `osId`,
the id the OS gives the device; `devId`, the value of `Device::enumId()`;
`subtype_`, the value of `Device::subtype()`; the value of `iCadeMode()`; and
the ids of its joystick axes. -/
structure AndroidInputDevice where
  osId : Int
  devId : Nat
  subtype_ : Nat
  iCadeMode : Bool
  axis : List Nat
  deriving DecidableEq, Repr

/-- The constant `Device::SUBTYPE_XPERIA_PLAY`. -/
def SUBTYPE_XPERIA_PLAY : Nat := 1

/-- The constant `Device::SUBTYPE_XBOX_360_CONTROLLER`. -/
def SUBTYPE_XBOX_360_CONTROLLER : Nat := 6

/-- Modelled from the spec: the actions of a normalized input event, an
enumeration of a header that is not among the sources. -/
inductive Action
  | RELEASED
  | PUSHED
  | MOVED
  | MOVED_RELATIVE
  | CANCELED
  deriving DecidableEq, Repr

/-- The key and button codes the code names, constants of headers that are not
among the sources; `LBUTTON` is `Pointer::LBUTTON` and `LBUTTON_BIT` is
`IG::bit(Pointer::LBUTTON)`. -/
structure Keycodes where
  BACK : Nat
  GAME_B : Nat
  LEFT : Nat
  RIGHT : Nat
  UP : Nat
  DOWN : Nat
  ENTER : Nat
  LBUTTON : Nat
  LBUTTON_BIT : Nat
  deriving DecidableEq, Repr

/-- One pointer of a motion event: the values of `AMotionEvent_getX` and
`AMotionEvent_getY` as converted to `int`, the same values times 1000 as
converted to `int` (the trackball branch), and `AMotionEvent_getPointerId`. -/
structure PointerSample where
  x : Int
  y : Int
  x1000 : Int
  y1000 : Int
  id : Int
  deriving DecidableEq, Repr

/-- What the accessors of the NDK return for an `AInputEvent`: the type, the
source, the device id, the action (`AMotionEvent_getAction` or
`AKeyEvent_getAction`), the pointers of a motion event, and the key code,
repeat count, meta state, scan code and time of the event. -/
structure AInputEvent where
  type : Nat
  source : Nat
  deviceId : Int
  action : Nat
  pointers : List PointerSample
  keyCode : Nat
  repeatCount : Int
  metaState : Nat
  scanCode : Nat
  eventTime : Nat
  deriving DecidableEq, Repr

/-- The NDK constant `AINPUT_EVENT_TYPE_KEY`. -/
def AINPUT_EVENT_TYPE_KEY : Nat := 1

/-- The NDK constant `AINPUT_EVENT_TYPE_MOTION`. -/
def AINPUT_EVENT_TYPE_MOTION : Nat := 2

/-- The NDK constant `AINPUT_SOURCE_CLASS_MASK`. -/
def AINPUT_SOURCE_CLASS_MASK : Nat := 0xff

/-- The NDK constant `AINPUT_SOURCE_CLASS_POINTER`. -/
def AINPUT_SOURCE_CLASS_POINTER : Nat := 0x02

/-- The NDK constant `AINPUT_SOURCE_CLASS_NAVIGATION`. -/
def AINPUT_SOURCE_CLASS_NAVIGATION : Nat := 0x04

/-- The constant `AINPUT_SOURCE_CLASS_JOYSTICK` of `input.cc`. -/
def AINPUT_SOURCE_CLASS_JOYSTICK : Nat := 0x10

/-- The NDK constant `AINPUT_SOURCE_MOUSE`. -/
def AINPUT_SOURCE_MOUSE : Nat := 0x2002

/-- The NDK constant `AMOTION_EVENT_ACTION_MASK`. -/
def AMOTION_EVENT_ACTION_MASK : Nat := 0xff

/-- The NDK constant `AMOTION_EVENT_ACTION_POINTER_INDEX_SHIFT`. -/
def AMOTION_EVENT_ACTION_POINTER_INDEX_SHIFT : Nat := 8

/-- The NDK constant `AMOTION_EVENT_ACTION_DOWN`. -/
def AMOTION_EVENT_ACTION_DOWN : Nat := 0

/-- The NDK constant `AMOTION_EVENT_ACTION_UP`. -/
def AMOTION_EVENT_ACTION_UP : Nat := 1

/-- The NDK constant `AMOTION_EVENT_ACTION_MOVE`. -/
def AMOTION_EVENT_ACTION_MOVE : Nat := 2

/-- The NDK constant `AMOTION_EVENT_ACTION_CANCEL`. -/
def AMOTION_EVENT_ACTION_CANCEL : Nat := 3

/-- The NDK constant `AMOTION_EVENT_ACTION_POINTER_DOWN`. -/
def AMOTION_EVENT_ACTION_POINTER_DOWN : Nat := 5

/-- The NDK constant `AMOTION_EVENT_ACTION_POINTER_UP`. -/
def AMOTION_EVENT_ACTION_POINTER_UP : Nat := 6

/-- The NDK constant `AKEY_EVENT_ACTION_UP`. -/
def AKEY_EVENT_ACTION_UP : Nat := 1

/-- The NDK constant `AMETA_SHIFT_ON`. -/
def AMETA_SHIFT_ON : Nat := 0x01

/-- The NDK constant `AMETA_ALT_ON`. -/
def AMETA_ALT_ON : Nat := 0x02

/-- The normalized event given to `Window::dispatchInputEvent`, one constructor
for each of the three ways the code builds it: a pointer event
(`Event::MAP_POINTER`), a relative pointer event of the trackball
(`Event::MAP_REL_POINTER`, device `nullptr`), and a key event
(`Event::MAP_SYSTEM`), which carries the repeat count. -/
inductive Event
  | pointer (idx : Nat) (button : Nat) (metaState : Nat) (action : Action) (x y : Int)
      (pointerID : Int) (isTouch : Bool) (time : Nat) (device : AndroidInputDevice)
  | relPointer (button : Nat) (action : Action) (x y : Int) (time : Nat)
  | key (devId : Nat) (button : Nat) (action : Action) (shiftState : Nat) (repeatCount : Int)
      (time : Nat) (device : AndroidInputDevice)
  deriving DecidableEq, Repr

/-- Calls the modelled functions make, recorded in order. -/
inductive InputCall
  | dispatchInputEvent (e : Event)
  | axisKeyEmuDispatch (axisId : Nat) (pos : Int) (enumID : Nat) (time : Nat)
      (dev : AndroidInputDevice)
  | processICadeKey (keyCode : Nat) (action : Action) (time : Nat) (dev : AndroidInputDevice)
  | cancelKeyRepeatTimer
  deriving DecidableEq, Repr

/-- What the surroundings answer while an event is processed.
* `androidSDK`: `Base::androidSDK()`;
* `hasGetAxisValue`: `hasGetAxisValue()`;
* `machineIsGenericArmv7`: `Config::MACHINE_IS_GENERIC_ARMV7`;
* `keycodes`: the key codes the code names;
* `transformInputPos`: `transformInputPos(win, pos)`;
* `axisValue`: `AMotionEvent_getAxisValue(event, axis, 0)`;
* `iCadeHandles`: the result of `processICadeKey`;
* `windowHandles`: the result of `win.dispatchInputEvent`. -/
structure InputEnv where
  androidSDK : Nat
  hasGetAxisValue : Bool
  machineIsGenericArmv7 : Bool
  keycodes : Keycodes
  transformInputPos : Int × Int → Int × Int
  axisValue : AInputEvent → Nat → Int
  iCadeHandles : Nat → Action → AndroidInputDevice → Bool
  windowHandles : Event → Bool

/-- A `TouchState`. -/
structure TouchState where
  id : Int
  isTouching : Bool
  deriving DecidableEq, Repr

/-- The variables of the input module: the list `sysInputDev` of the known
devices, the device `virtualDev` when there is one, the device id of the most
recent key event, the touch states `m`, and the calls made so far. -/
structure InputState where
  sysInputDev : List AndroidInputDevice
  virtualDev : Option AndroidInputDevice
  mostRecentKeyEventDevID : Int
  m : List TouchState
  calls : List InputCall
  deriving DecidableEq, Repr

/-- Record a call. -/
def InputState.call (c : InputCall) (s : InputState) : InputState :=
  { s with calls := s.calls ++ [c] }

/-- The function `deviceForInputId(id)`; `none` is `nullptr`. Below SDK level 12
the first known device stands for every id (the code assumes there is one). -/
def deviceForInputId (env : InputEnv) (s : InputState) (id : Int) : Option AndroidInputDevice :=
  if env.androidSDK < 12 then s.sysInputDev.head?
  else s.sysInputDev.find? (fun e => decide (e.osId = id))

/-- The function `mapKeycodesForSpecialDevices`: the key code afterwards (the
meta state is not changed). -/
def mapKeycodesForSpecialDevices (env : InputEnv) (dev : AndroidInputDevice) (keyCode : Nat)
    (metaState : Nat) (event : AInputEvent) : Nat :=
  if dev.subtype_ = SUBTYPE_XPERIA_PLAY then
    if env.machineIsGenericArmv7 && decide (keyCode = env.keycodes.BACK) &&
        decide (metaState &&& AMETA_ALT_ON ≠ 0) then env.keycodes.GAME_B
    else keyCode
  else if dev.subtype_ = SUBTYPE_XBOX_360_CONTROLLER then
    if keyCode ≠ 0 then keyCode
    else if event.scanCode = 704 then env.keycodes.LEFT
    else if event.scanCode = 705 then env.keycodes.RIGHT
    else if event.scanCode = 706 then env.keycodes.UP
    else if event.scanCode = 707 then env.keycodes.DOWN
    else keyCode
  else keyCode

/-- The function `isFromSource(src, srcTest)`. -/
def isFromSource (src srcTest : Nat) : Bool := decide (src &&& srcTest = srcTest)

/-- The function `dispatchTouch`. -/
def dispatchTouch (env : InputEnv) (idx : Nat) (action : Action) (pos : Int × Int) (time : Nat)
    (isMouse : Bool) (device : AndroidInputDevice) (s : InputState) : InputState :=
  let metaState := if action = .RELEASED then 0 else env.keycodes.LBUTTON_BIT
  s.call (.dispatchInputEvent
    (.pointer idx env.keycodes.LBUTTON metaState action pos.1 pos.2 idx (!isMouse) time device))

/-- The function `processTouchEvent`. -/
def processTouchEvent (env : InputEnv) (action : Nat) (x y : Int) (pid : Int) (time : Nat)
    (isMouse : Bool) (device : AndroidInputDevice) (s : InputState) : InputState :=
  let pos := env.transformInputPos (x, y)
  if action = AMOTION_EVENT_ACTION_DOWN ∨ action = AMOTION_EVENT_ACTION_POINTER_DOWN then
    match s.m.findIdx? (fun p => decide (p.id = -1)) with
    | some i =>
      dispatchTouch env i .PUSHED pos time isMouse device
        { s with m := s.m.set i { id := pid, isTouching := true } }
    | none => s
  else if action = AMOTION_EVENT_ACTION_UP ∨ action = AMOTION_EVENT_ACTION_CANCEL then
    let touchAction := if action = AMOTION_EVENT_ACTION_UP then Action.RELEASED else Action.CANCELED
    (List.range s.m.length).foldl
      (fun (a : InputState) i =>
        if (a.m.getD i { id := -1, isTouching := false }).isTouching then
          dispatchTouch env i touchAction (x, y) time isMouse device
            { a with m := a.m.set i { id := -1, isTouching := false } }
        else a)
      s
  else if action = AMOTION_EVENT_ACTION_POINTER_UP then
    match s.m.findIdx? (fun p => decide (p.id = pid)) with
    | some i =>
      dispatchTouch env i .RELEASED pos time isMouse device
        { s with m := s.m.set i { id := -1, isTouching := false } }
    | none => s
  else
    match s.m.findIdx? (fun p => decide (p.id = pid)) with
    | some i => dispatchTouch env i .MOVED pos time isMouse device s
    | none => s

/-- The pointer of a motion event at an index; the NDK answers for every index
the code asks for. -/
def AInputEvent.pointer (event : AInputEvent) (i : Nat) : PointerSample :=
  event.pointers.getD i { x := 0, y := 0, x1000 := 0, y1000 := 0, id := 0 }

/-- The function `processInputEvent(event, win)`: the state afterwards and the
returned flag. -/
def processInputEvent (env : InputEnv) (event : AInputEvent) (s : InputState) :
    InputState × Bool :=
  if event.type = AINPUT_EVENT_TYPE_MOTION then
    let source := event.source
    let eventAction := event.action
    if source &&& AINPUT_SOURCE_CLASS_MASK = AINPUT_SOURCE_CLASS_POINTER then
      match deviceForInputId env s event.deviceId with
      | none => (s, false)
      | some dev =>
        let isMouse := isFromSource source AINPUT_SOURCE_MOUSE
        let action := eventAction &&& AMOTION_EVENT_ACTION_MASK
        if action = AMOTION_EVENT_ACTION_UP ∨ action = AMOTION_EVENT_ACTION_CANCEL then
          (processTouchEvent env action (event.pointer 0).x (event.pointer 0).y
            (event.pointer 0).id event.eventTime isMouse dev s, true)
        else
          let actionPIdx := eventAction >>> AMOTION_EVENT_ACTION_POINTER_INDEX_SHIFT
          ((List.range event.pointers.length).foldl
            (fun (a : InputState) i =>
              let pAction := if actionPIdx ≠ i then AMOTION_EVENT_ACTION_MOVE else action
              processTouchEvent env pAction (event.pointer i).x (event.pointer i).y
                (event.pointer i).id event.eventTime isMouse dev a)
            s, true)
    else if source &&& AINPUT_SOURCE_CLASS_MASK = AINPUT_SOURCE_CLASS_NAVIGATION then
      let time := event.eventTime
      let pos := env.transformInputPos ((event.pointer 0).x1000, (event.pointer 0).y1000)
      if eventAction = AMOTION_EVENT_ACTION_MOVE then
        (s.call (.dispatchInputEvent (.relPointer 0 .MOVED_RELATIVE pos.1 pos.2 time)), true)
      else
        (s.call (.dispatchInputEvent (.relPointer env.keycodes.ENTER
          (if eventAction = AMOTION_EVENT_ACTION_DOWN then .PUSHED else .RELEASED) 0 0 time)), true)
    else if source &&& AINPUT_SOURCE_CLASS_MASK = AINPUT_SOURCE_CLASS_JOYSTICK then
      match deviceForInputId env s event.deviceId with
      | none => (s, false)
      | some dev =>
        let enumID := dev.devId
        let time := event.eventTime
        if env.hasGetAxisValue then
          (dev.axis.foldl
            (fun (a : InputState) axis =>
              a.call (.axisKeyEmuDispatch axis (env.axisValue event axis) enumID time dev))
            s, true)
        else
          (((dev.axis.take 2).enum).foldl
            (fun (a : InputState) (ia : Nat × Nat) =>
              let pos := if ia.1 ≠ 0 then (event.pointer 0).y else (event.pointer 0).x
              a.call (.axisKeyEmuDispatch ia.2 pos enumID time dev))
            s, true)
    else (s, false)
  else if event.type = AINPUT_EVENT_TYPE_KEY then
    let keyCode := event.keyCode
    let devID := event.deviceId
    let repeatCount :=
      if !(decide (event.repeatCount ≠ 0) && decide (devID = s.mostRecentKeyEventDevID)) then 0
      else event.repeatCount
    let s1 : InputState := { s with mostRecentKeyEventDevID := devID }
    let found : Option AndroidInputDevice :=
      match deviceForInputId env s1 devID with
      | some dev => some dev
      | none => s1.virtualDev
    match found with
    | none => (s1, false)
    | some dev =>
      let metaState := event.metaState
      let keyCode := mapKeycodesForSpecialDevices env dev keyCode metaState event
      if keyCode = 0 then (s1, false)
      else
        let shiftState := metaState &&& AMETA_SHIFT_ON
        let time := event.eventTime
        let action := if event.action = AKEY_EVENT_ACTION_UP then Action.RELEASED else Action.PUSHED
        let s2 := if dev.iCadeMode then s1.call (.processICadeKey keyCode action time dev) else s1
        if !dev.iCadeMode || (dev.iCadeMode && !env.iCadeHandles keyCode action dev) then
          let s3 := s2.call .cancelKeyRepeatTimer
          let key := keyCode &&& 0x1ff
          let e := Event.key dev.devId key action shiftState repeatCount time dev
          (s3.call (.dispatchInputEvent e), env.windowHandles e)
        else (s2, true)
  else (s, false)

/-- The repeat counts of the key events given to the window, in order. -/
def keyRepeatCounts : List InputCall → List Int
  | [] => []
  | .dispatchInputEvent (.key _ _ _ _ repeatCount _ _) :: cs => repeatCount :: keyRepeatCounts cs
  | _ :: cs => keyRepeatCounts cs

/-- The calls one processed event adds: the calls afterwards without the calls
made before. -/
def newInputCalls (before after : InputState) : List InputCall :=
  after.calls.drop before.calls.length

/-- Sample values for the key and button codes. -/
def sampleKeycodes : Keycodes :=
  { BACK := 4, GAME_B := 97, LEFT := 21, RIGHT := 22, UP := 19, DOWN := 20, ENTER := 66,
    LBUTTON := 1, LBUTTON_BIT := 2 }

/-- Sample surroundings at a given SDK level: the window handles every event,
no key is an iCade key. -/
def sampleInputEnv (androidSDK : Nat) : InputEnv :=
  { androidSDK := androidSDK
    hasGetAxisValue := true
    machineIsGenericArmv7 := false
    keycodes := sampleKeycodes
    transformInputPos := fun p => p
    axisValue := fun _ _ => 0
    iCadeHandles := fun _ _ _ => false
    windowHandles := fun _ => true }

/-- A gamepad with the OS id 3. -/
def sampleGamepad : AndroidInputDevice :=
  { osId := 3, devId := 0, subtype_ := 0, iCadeMode := false, axis := [0, 1] }

/-- The device `Virtual`. -/
def sampleVirtual : AndroidInputDevice :=
  { osId := -1, devId := 0, subtype_ := 0, iCadeMode := false, axis := [] }

/-- The input module with the gamepad as its only known device; the most recent
key event came from device `recent`. -/
def sampleInput (virtualDev : Option AndroidInputDevice) (recent : Int) : InputState :=
  { sysInputDev := [sampleGamepad]
    virtualDev := virtualDev
    mostRecentKeyEventDevID := recent
    m := List.replicate 4 { id := -1, isTouching := false }
    calls := [] }

/-- A key-down event for key code 96 from the device `deviceId` with the OS
repeat count `repeatCount`. -/
def sampleKeyEvent (deviceId : Int) (repeatCount : Int) : AInputEvent :=
  { type := AINPUT_EVENT_TYPE_KEY
    source := 0x401
    deviceId := deviceId
    action := 0
    pointers := []
    keyCode := 96
    repeatCount := repeatCount
    metaState := 0
    scanCode := 0
    eventTime := 1000 }

/-- A touch-down event of one pointer from the device `deviceId`. -/
def sampleTouchEvent (deviceId : Int) : AInputEvent :=
  { type := AINPUT_EVENT_TYPE_MOTION
    source := 0x1002
    deviceId := deviceId
    action := AMOTION_EVENT_ACTION_DOWN
    pointers := [{ x := 10, y := 20, x1000 := 10000, y1000 := 20000, id := 0 }]
    keyCode := 0
    repeatCount := 0
    metaState := 0
    scanCode := 0
    eventTime := 1000 }

end Input

/-! ## Lemmas on the delegate registry -/

namespace IG

namespace DelegateFuncSet

theorem emplace_perm {F : Type} (e : DelegateEntry F) (xs : List (DelegateEntry F)) :
    (FlatMultiSet.emplace e xs).Perm (e :: xs) := by
  induction xs with
  | nil => simp [FlatMultiSet.emplace]
  | cons x xs ih =>
    unfold FlatMultiSet.emplace
    split
    · exact List.Perm.refl _
    · exact (List.Perm.cons x ih).trans (List.Perm.swap e x xs)

theorem emplace_sublist {F : Type} (e : DelegateEntry F) (xs : List (DelegateEntry F)) :
    xs.Sublist (FlatMultiSet.emplace e xs) := by
  induction xs with
  | nil => simp [FlatMultiSet.emplace]
  | cons x xs ih =>
    unfold FlatMultiSet.emplace
    split
    · exact List.sublist_cons_self _ _
    · exact List.Sublist.cons₂ x ih

theorem empty_unique {F : Type} : (empty : DelegateFuncSet F).Unique := by
  simp [Unique, empty]

variable {F : Type} [DecidableEq F]

theorem contains_iff (s : DelegateFuncSet F) (del : F) :
    s.contains del = true ↔ ∃ e ∈ s.delegate, e.del = del := by
  unfold contains
  rw [List.find?_isSome]
  constructor
  · rintro ⟨e, he, h⟩
    exact ⟨e, he, by simpa using h⟩
  · rintro ⟨e, he, h⟩
    exact ⟨e, he, by simpa using h⟩

theorem contains_eq_false_iff (s : DelegateFuncSet F) (del : F) :
    s.contains del = false ↔ ∀ e ∈ s.delegate, e.del ≠ del := by
  rw [← Bool.not_eq_true, contains_iff]
  push_neg
  rfl

theorem mem_eraseFirstDel_of_ne {del : F} {e : DelegateEntry F} (h : e.del ≠ del)
    (xs : List (DelegateEntry F)) : e ∈ eraseFirstDel del xs ↔ e ∈ xs := by
  induction xs with
  | nil => simp [eraseFirstDel]
  | cons x xs ih =>
    unfold eraseFirstDel
    split
    · rename_i hx
      constructor
      · intro he
        exact List.mem_cons_of_mem _ he
      · intro he
        rcases List.mem_cons.1 he with rfl | he
        · exact absurd hx h
        · exact he
    · simp [ih]

theorem eraseFirstDel_sublist (del : F) (xs : List (DelegateEntry F)) :
    (eraseFirstDel del xs).Sublist xs := by
  induction xs with
  | nil => simp [eraseFirstDel]
  | cons x xs ih =>
    unfold eraseFirstDel
    split
    · exact List.sublist_cons_self _ _
    · exact List.Sublist.cons₂ x ih

theorem not_mem_eraseFirstDel_of_nodup (del : F) (xs : List (DelegateEntry F))
    (h : (xs.map (fun e => e.del)).Nodup) : ∀ e ∈ eraseFirstDel del xs, e.del ≠ del := by
  induction xs with
  | nil => simp [eraseFirstDel]
  | cons x xs ih =>
    rw [List.map_cons, List.nodup_cons] at h
    unfold eraseFirstDel
    split
    · rename_i hx
      intro e he hd
      apply h.1
      rw [hx, ← hd]
      exact List.mem_map_of_mem _ he
    · rename_i hx
      intro e he
      rcases List.mem_cons.1 he with rfl | he
      · exact hx
      · exact ih h.2 e he

theorem add_unique (s : DelegateFuncSet F) (del : F) (priority : Int) (h : s.Unique) :
    (s.add del priority).1.Unique := by
  unfold add
  split
  · exact h
  · rename_i hc
    have hc2 := (contains_eq_false_iff s del).1 (by simpa using hc)
    unfold Unique
    have hp := (emplace_perm ⟨del, priority⟩ s.delegate).map (fun e => e.del)
    rw [hp.nodup_iff, List.map_cons, List.nodup_cons]
    refine ⟨?_, h⟩
    intro hm
    rcases List.mem_map.1 hm with ⟨e, he, hd⟩
    exact hc2 e he hd

theorem remove_unique (s : DelegateFuncSet F) (del : F) (h : s.Unique) :
    (s.remove del).1.Unique := by
  unfold remove
  split
  · exact List.Nodup.sublist ((eraseFirstDel_sublist del s.delegate).map _) h
  · exact h

theorem contains_add_self (s : DelegateFuncSet F) (del : F) (priority : Int) :
    (s.add del priority).1.contains del = true := by
  unfold add
  split
  · assumption
  · rw [contains_iff]
    exact ⟨⟨del, priority⟩, (emplace_perm _ _).mem_iff.2 (List.mem_cons_self _ _), rfl⟩

theorem contains_add_of_ne (s : DelegateFuncSet F) {del other : F} (priority : Int)
    (h : other ≠ del) : (s.add del priority).1.contains other = s.contains other := by
  unfold add
  split
  · rfl
  · rw [Bool.eq_iff_iff, contains_iff, contains_iff]
    constructor
    · rintro ⟨e, he, hd⟩
      rcases List.mem_cons.1 ((emplace_perm _ _).mem_iff.1 he) with rfl | he
      · exact absurd hd.symm h
      · exact ⟨e, he, hd⟩
    · rintro ⟨e, he, hd⟩
      exact ⟨e, (emplace_perm _ _).mem_iff.2 (List.mem_cons_of_mem _ he), hd⟩

theorem contains_remove_self (s : DelegateFuncSet F) (del : F) (h : s.Unique) :
    (s.remove del).1.contains del = false := by
  unfold remove
  split
  · rw [contains_eq_false_iff]
    exact not_mem_eraseFirstDel_of_nodup del s.delegate h
  · rename_i hc
    simpa using hc

theorem contains_remove_of_ne (s : DelegateFuncSet F) {del other : F} (h : other ≠ del) :
    (s.remove del).1.contains other = s.contains other := by
  unfold remove
  split
  · rw [Bool.eq_iff_iff, contains_iff, contains_iff]
    constructor
    · rintro ⟨e, he, hd⟩
      exact ⟨e, (mem_eraseFirstDel_of_ne (by rw [hd]; exact h) _).1 he, hd⟩
    · rintro ⟨e, he, hd⟩
      exact ⟨e, (mem_eraseFirstDel_of_ne (by rw [hd]; exact h) _).2 he, hd⟩
  · rfl

end DelegateFuncSet

end IG

/-! ## Theorems on the delegate registry -/

namespace IG

/-- C10: `DelegateFuncSet::add(del, priority)`. If an entry with the same
callback is present, whatever its priority, `add` returns false and the set is
unchanged. Otherwise it returns true, the size grows by exactly one,
`contains(del)` holds afterwards, the new entries are the old ones and the
entry `(del, priority)`, and the old entries keep their order. -/
theorem DelegateFuncSet.add_spec {F : Type} [DecidableEq F] (s : DelegateFuncSet F) (del : F)
    (priority : Int) :
    if ∃ e ∈ s.delegate, e.del = del then s.add del priority = (s, false)
    else
      (s.add del priority).2 = true ∧
      (s.add del priority).1.size = s.size + 1 ∧
      (s.add del priority).1.contains del = true ∧
      (∀ e ∈ s.delegate, e ∈ (s.add del priority).1.delegate) ∧
      (s.add del priority).1.delegate.Perm (⟨del, priority⟩ :: s.delegate) ∧
      s.delegate.Sublist (s.add del priority).1.delegate := by
  split
  · rename_i h
    have hc := (DelegateFuncSet.contains_iff s del).2 h
    simp [DelegateFuncSet.add, hc]
  · rename_i h
    have hc : s.contains del = false := by
      rw [← Bool.not_eq_true, DelegateFuncSet.contains_iff]
      exact h
    have hp := DelegateFuncSet.emplace_perm ⟨del, priority⟩ s.delegate
    refine ⟨?_, ?_, ?_, ?_, ?_, ?_⟩
    · simp [DelegateFuncSet.add, hc]
    · simp [DelegateFuncSet.add, hc, DelegateFuncSet.size, hp.length_eq]
    · exact DelegateFuncSet.contains_add_self s del priority
    · intro e he
      simp only [DelegateFuncSet.add, hc, Bool.false_eq_true, if_false]
      exact hp.mem_iff.2 (List.mem_cons_of_mem _ he)
    · simpa [DelegateFuncSet.add, hc] using hp
    · simpa [DelegateFuncSet.add, hc] using DelegateFuncSet.emplace_sublist ⟨del, priority⟩ s.delegate

/-- C10, at concrete sets: adding callback 7 with priority 5 to a set that holds
it with priority 0 is refused, and adding it to a set that does not hold it
puts it behind the entry of equal priority. -/
theorem DelegateFuncSet.add_spec_witness :
    (DelegateFuncSet.add ⟨[⟨7, 0⟩, ⟨3, 2⟩]⟩ (7 : Nat) 5 = (⟨[⟨7, 0⟩, ⟨3, 2⟩]⟩, false)) ∧
    (DelegateFuncSet.add ⟨[⟨1, 0⟩, ⟨3, 2⟩]⟩ (7 : Nat) 0 = (⟨[⟨1, 0⟩, ⟨7, 0⟩, ⟨3, 2⟩]⟩, true)) := by
  have h1 := DelegateFuncSet.add_spec (⟨[⟨7, 0⟩, ⟨3, 2⟩]⟩ : DelegateFuncSet Nat) 7 5
  constructor
  · simpa using h1
  · decide

end IG

/-! ## Theorems on the per-frame callback -/

namespace EmuViewController

@[simp] theorem call_st (c : Call) (w : World) : (w.call c).st = w.st := rfl

@[simp] theorem call_trace (c : Call) (w : World) : (w.call c).trace = w.trace ++ [c] := rfl

@[simp] theorem modify_st (f : State → State) (w : World) : (w.modify f).st = f w.st := rfl

@[simp] theorem modify_trace (f : State → State) (w : World) : (w.modify f).trace = w.trace := rfl

@[simp] theorem postDrawToEmuWindows_st (w : World) : (postDrawToEmuWindows w).st = w.st := rfl

@[simp] theorem postDrawToEmuWindows_trace (w : World) :
    (postDrawToEmuWindows w).trace = w.trace ++ [.windowPostDraw w.st.emuViewWin] := rfl

/-- The whole effect of a tick that finds no frame in progress and a non-zero
advanced frame count. -/
theorem onFrameUpdate_run (env : FrameEnv) (w : World) (hp : w.st.emuVideoInProgress = false)
    (ha : env.advanced ≠ 0) :
    onFrameUpdate env w =
      ({ st := { w.st with emuVideoInProgress := true }
         trace := w.trace ++
          [.setSpeedMultiplier (if env.shouldFastForward then 8
              else if w.st.targetFastForwardSpeed > 1 then w.st.targetFastForwardSpeed else 1),
           .advanceFramesWithTime env.timestamp,
           .runFrame env.audioPresent
              (min (if !w.st.options.optionSkipLateFrames && 
                  !(env.shouldFastForward || decide (w.st.targetFastForwardSpeed > 1))
                then env.currentFrameInterval % 2 ^ 32 else env.advanced) 8)
              env.shouldFastForward,
           .setPresentationTime w.st.emuViewWin env.presentTime] }, true) := by
  unfold onFrameUpdate
  simp only [hp, ha, Bool.false_eq_true, if_false]
  by_cases h1 : env.shouldFastForward = true
  · simp [h1, World.call, World.modify]
  · by_cases h2 : w.st.targetFastForwardSpeed > 1
    · simp [h1, h2, World.call, World.modify]
    · simp [h1, h2, World.call, World.modify]

/-- The whole effect of a tick that finds no frame in progress and a zero
advanced frame count. -/
theorem onFrameUpdate_idle (env : FrameEnv) (w : World) (hp : w.st.emuVideoInProgress = false)
    (ha : env.advanced = 0) :
    onFrameUpdate env w =
      ({ st := w.st
         trace := w.trace ++
          ([.setSpeedMultiplier (if env.shouldFastForward then 8
              else if w.st.targetFastForwardSpeed > 1 then w.st.targetFastForwardSpeed else 1), .advanceFramesWithTime env.timestamp] ++
            if useRendererTime w.st then [.windowPostDraw w.st.emuViewWin] else []) }, true) := by
  unfold onFrameUpdate
  simp only [hp, ha, Bool.false_eq_true, if_false, if_true]
  by_cases h1 : env.shouldFastForward = true <;> by_cases h2 : w.st.targetFastForwardSpeed > 1 <;>
    by_cases h3 : useRendererTime w.st = true <;>
    simp [h1, h2, h3, World.call, World.modify, postDrawToEmuWindows]

theorem newCalls_append (w : World) (st : State) (l : List Call) :
    newCalls w { st := st, trace := w.trace ++ l } = l := by
  simp [newCalls]

/-- C1, as amended: in a tick with no frame in progress in which the emulated
system reports at least 8 advanced frames, exactly one `runFrame` is issued;
its frame count is 8 when skip-late-frames is enabled or the tick is
fast-forwarding, and `min(currentFrameInterval(), 8)` otherwise. -/
theorem onFrameUpdate_clamp (env : FrameEnv) (w : World)
    (hp : w.st.emuVideoInProgress = false) (hn : 8 ≤ env.advanced) :
    runFrameCounts (newCalls w (onFrameUpdate env w).1) =
      [if w.st.options.optionSkipLateFrames || env.shouldFastForward ||
          decide (w.st.targetFastForwardSpeed > 1)
        then 8 else min (env.currentFrameInterval % 2 ^ 32) 8] := by
  have ha : env.advanced ≠ 0 := by omega
  rw [onFrameUpdate_run env w hp ha, newCalls_append]
  by_cases h1 : w.st.options.optionSkipLateFrames = true <;>
    by_cases h2 : env.shouldFastForward = true <;>
    by_cases h3 : w.st.targetFastForwardSpeed > 1 <;>
    simp [runFrameCounts, h1, h2, h3, hn]

/-- C1 as stated fails: skip-late-frames is disabled, the tick is not
fast-forwarding, the base frame interval is 1 and the emulated system reports
10 advanced frames; the tick requests 1 frame, not 8. -/
theorem onFrameUpdate_clamp_counterexample :
    (sampleInstalled false).st.emuVideoInProgress = false ∧
    8 ≤ (sampleEnv 10).advanced ∧
    runFrameCounts (newCalls (sampleInstalled false)
      (onFrameUpdate (sampleEnv 10) (sampleInstalled false)).1) = [1] := by
  decide

/-- C1, as amended, at concrete ticks: with skip-late-frames disabled and a base
interval of 1 the count is 1; when the system asks for fast-forward it is 8. -/
theorem onFrameUpdate_clamp_witness :
    runFrameCounts (newCalls (sampleInstalled false)
      (onFrameUpdate (sampleEnv 10) (sampleInstalled false)).1) = [1] ∧
    runFrameCounts (newCalls (sampleInstalled false)
      (onFrameUpdate { sampleEnv 10 with shouldFastForward := true }
        (sampleInstalled false)).1) = [8] :=
  ⟨onFrameUpdate_clamp (sampleEnv 10) (sampleInstalled false) (by decide) (by decide),
   onFrameUpdate_clamp { sampleEnv 10 with shouldFastForward := true }
    (sampleInstalled false) (by decide) (by decide)⟩

/-- The whole effect of a tick that finds a frame in progress. -/
theorem onFrameUpdate_busy (env : FrameEnv) (w : World) (hp : w.st.emuVideoInProgress = true) :
    onFrameUpdate env w = ((if useRendererTime w.st then postDrawToEmuWindows w else w), true) := by
  unfold onFrameUpdate
  simp [hp]

theorem onFrameUpdate_busy_st (env : FrameEnv) (w : World)
    (hp : w.st.emuVideoInProgress = true) : (onFrameUpdate env w).1.st = w.st := by
  rw [onFrameUpdate_busy env w hp]
  dsimp only
  split <;> rfl

/-- C2: a tick that starts with a frame in progress returns true, leaves the
whole controller state as it was (so the flag stays true), adds to the trace
one redraw request to the emulation window when renderer time is in use and
nothing otherwise, and so makes no call to `setSpeedMultiplier`,
`advanceFramesWithTime` or `runFrame`. -/
theorem onFrameUpdate_inProgress (env : FrameEnv) (w : World)
    (hp : w.st.emuVideoInProgress = true) :
    (onFrameUpdate env w).2 = true ∧
    (onFrameUpdate env w).1.st = w.st ∧
    (onFrameUpdate env w).1.st.emuVideoInProgress = true ∧
    (onFrameUpdate env w).1.trace =
      w.trace ++ (if useRendererTime w.st then [.windowPostDraw w.st.emuViewWin] else []) ∧
    speedMultipliers (newCalls w (onFrameUpdate env w).1) = [] ∧
    runFrameCounts (newCalls w (onFrameUpdate env w).1) = [] ∧
    (∀ c ∈ newCalls w (onFrameUpdate env w).1, ∀ t, c ≠ .advanceFramesWithTime t) := by
  unfold onFrameUpdate
  simp only [hp, if_true]
  by_cases h : useRendererTime w.st = true
  · simp [h, hp, newCalls, speedMultipliers, runFrameCounts]
  · simp [h, hp, newCalls, speedMultipliers, runFrameCounts]

/-- C2 at a concrete tick: renderer time in use, a frame in progress. -/
theorem onFrameUpdate_inProgress_witness :
    (sampleInProgress true).st.emuVideoInProgress = true ∧
    (onFrameUpdate (sampleEnv 3) (sampleInProgress true)).2 = true ∧
    newCalls (sampleInProgress true) (onFrameUpdate (sampleEnv 3) (sampleInProgress true)).1
      = [.windowPostDraw 0] := by
  have h := onFrameUpdate_inProgress (sampleEnv 3) (sampleInProgress true) (by decide)
  exact ⟨by decide, h.1, by decide⟩

/-- C3: in a tick with no frame in progress exactly one speed multiplier is set:
8 when `shouldFastForward()` holds, whatever the target speed; otherwise the
target fast-forward speed when that is greater than 1; otherwise 1. Every
`runFrame` of the tick carries the skip-forward flag `shouldFastForward()`,
and there is exactly one such call when the advanced frame count is not 0. -/
theorem onFrameUpdate_speed (env : FrameEnv) (w : World)
    (hp : w.st.emuVideoInProgress = false) :
    speedMultipliers (newCalls w (onFrameUpdate env w).1) =
      [if env.shouldFastForward then 8
        else if w.st.targetFastForwardSpeed > 1 then w.st.targetFastForwardSpeed else 1] ∧
    runFrameSkipFlags (newCalls w (onFrameUpdate env w).1) =
      (if env.advanced = 0 then [] else [env.shouldFastForward]) := by
  by_cases ha : env.advanced = 0
  · rw [onFrameUpdate_idle env w hp ha, newCalls_append]
    by_cases h : useRendererTime w.st = true <;>
      simp [speedMultipliers, runFrameSkipFlags, ha, h]
  · rw [onFrameUpdate_run env w hp ha, newCalls_append]
    simp [speedMultipliers, runFrameSkipFlags, ha]

/-- C3 at concrete ticks: the system asks for fast-forward while the user target
speed is 4, and a tick without any fast-forward. -/
theorem onFrameUpdate_speed_witness :
    (setFastForwardActive true (sampleInstalled false)).st.targetFastForwardSpeed = 4 ∧
    speedMultipliers (newCalls (setFastForwardActive true (sampleInstalled false))
      (onFrameUpdate { sampleEnv 2 with shouldFastForward := true }
        (setFastForwardActive true (sampleInstalled false))).1) = [8] ∧
    runFrameSkipFlags (newCalls (sampleInstalled false)
      (onFrameUpdate (sampleEnv 2) (sampleInstalled false)).1) = [false] := by
  have h1 := onFrameUpdate_speed { sampleEnv 2 with shouldFastForward := true }
    (setFastForwardActive true (sampleInstalled false)) (by decide)
  have h2 := onFrameUpdate_speed (sampleEnv 2) (sampleInstalled false) (by decide)
  exact ⟨by decide, by simpa using h1.1, by simpa using h2.2⟩

end EmuViewController

/-! ## Theorems on the controller operations -/

namespace IG

/-- A property that holds before `runAll`, and is kept by every run of a callback
and by every erasure, holds after it. -/
theorem runAll_induction {σ F : Type} [DecidableEq F] (get : σ → DelegateFuncSet F)
    (put : DelegateFuncSet F → σ → σ) (exec : F → σ → σ × Bool) (P : σ → Prop) (s : σ)
    (h0 : P s) (hexec : ∀ e ∈ (get s).delegate, ∀ a, P a → P (exec e.del a).1)
    (hput : ∀ d a, P a → P (put d a)) :
    P (runAll get put exec s) := by
  unfold runAll
  split
  · exact h0
  · rename_i hne
    clear hne
    generalize (get s).delegate = l at hexec
    induction l generalizing s with
    | nil => exact h0
    | cons x xs ih =>
      rw [List.foldl_cons]
      have hx := hexec x (List.mem_cons_self _ _) s h0
      apply ih
      · dsimp only
        split
        · exact hx
        · exact hput _ _ hx
      · intro e he
        exact hexec e (List.mem_cons_of_mem _ he)

end IG

namespace EmuViewController

theorem addOnFrameDelegate_flag (del : OnFrameDelegate) (w : World) :
    (addOnFrameDelegate del w).st.emuVideoInProgress = w.st.emuVideoInProgress := by
  unfold addOnFrameDelegate
  split <;> rfl

theorem invoke_flag_of_true (env : FrameEnv) (del : OnFrameDelegate) (w : World)
    (h : w.st.emuVideoInProgress = true) : (invoke env del w).1.st.emuVideoInProgress = true := by
  cases del with
  | onFrameUpdate =>
    simp only [invoke]
    rw [onFrameUpdate_busy_st env w h]
    exact h
  | onFrameDelayed delay =>
    simp only [invoke, onFrameDelayed]
    split <;> split <;> (try split) <;> simp [addOnFrameDelegate_flag, h]

theorem dispatchOnFrame_flag_of_true (src : FrameSource) (env : FrameEnv) (w : World)
    (h : w.st.emuVideoInProgress = true) :
    (dispatchOnFrame src env w).st.emuVideoInProgress = true := by
  unfold dispatchOnFrame
  apply IG.runAll_induction _ _ _ (fun a => a.st.emuVideoInProgress = true) w h
  · intro d _ a ha
    exact invoke_flag_of_true env d.del a ha
  · intro d a ha
    exact ha

theorem movePopupToWindow_flag (win : WindowId) (w : World) :
    (movePopupToWindow win w).st.emuVideoInProgress = w.st.emuVideoInProgress := by
  unfold movePopupToWindow
  dsimp only
  split <;> rfl

theorem moveEmuViewToWindow_flag (win : WindowId) (w : World) :
    (moveEmuViewToWindow win w).st.emuVideoInProgress = w.st.emuVideoInProgress := by
  unfold moveEmuViewToWindow
  dsimp only
  split <;> rfl

theorem configureAppForEmulation_st (running : Bool) (w : World) :
    (configureAppForEmulation running w).st = w.st := rfl

theorem configureWindowForEmulation_flag (win : WindowId) (running : Bool) (w : World) :
    (configureWindowForEmulation win running w).st.emuVideoInProgress =
      w.st.emuVideoInProgress := by
  unfold configureWindowForEmulation
  simp only [movePopupToWindow_flag]
  split <;> rfl

theorem startEmulation_flag (w : World) :
    (startEmulation w).st.emuVideoInProgress = w.st.emuVideoInProgress := by
  simp [startEmulation, addOnFrameDelayed, addOnFrameDelegate_flag]

theorem pauseEmulation_flag (w : World) : (pauseEmulation w).st.emuVideoInProgress = false := rfl

theorem showEmulation_flag (w : World) :
    (showEmulation w).st.emuVideoInProgress = w.st.emuVideoInProgress := by
  unfold showEmulation
  split
  · rfl
  · simp [placeEmuViews, startEmulation_flag, configureWindowForEmulation_flag,
      configureAppForEmulation_st]

theorem showUI_flag (u : Bool) (w : World) :
    (showUI u w).st.emuVideoInProgress = false ∨ showUI u w = w := by
  unfold showUI
  split
  · exact Or.inr rfl
  · left
    split <;> simp [configureWindowForEmulation_flag, configureAppForEmulation_st,
      pauseEmulation_flag]

theorem closeSystem_flag (a u : Bool) (i : Int) (w : World) :
    (closeSystem a u i w).st.emuVideoInProgress = (showUI u w).st.emuVideoInProgress := by
  unfold closeSystem
  split <;> rfl

theorem moveOnFrame_flag (src dst : WindowId) (w : World) :
    (moveOnFrame src dst w).st.emuVideoInProgress = w.st.emuVideoInProgress := rfl

/-- C4, as amended: an operation that changes the frame-in-progress flag either
sets it, and is then a frame tick (a tick of a frame source or a call of the
per-frame callback), or clears it, and is then the video-frame-finished
callback, `pauseEmulation`, or a `showUI` or `closeSystem` (which call
`pauseEmulation` when emulation is showing). `startEmulation`,
`showEmulation` and the window moves never write the flag. -/
theorem emuVideoInProgress_writers (w : World) (op : Op)
    (h : (step w op).st.emuVideoInProgress ≠ w.st.emuVideoInProgress) :
    ((step w op).st.emuVideoInProgress = true ∧
      ((∃ src env, op = .frameTick src env) ∨ (∃ env, op = .frameUpdate env))) ∨
    ((step w op).st.emuVideoInProgress = false ∧
      (op = .frameFinished ∨ op = .pauseEmulation ∨ (∃ u, op = .showUI u) ∨
        (∃ a u i, op = .closeSystem a u i))) := by
  cases op with
  | frameTick src env =>
    left
    refine ⟨?_, Or.inl ⟨src, env, rfl⟩⟩
    cases hw : w.st.emuVideoInProgress with
    | true => exact dispatchOnFrame_flag_of_true src env w hw
    | false =>
      rw [hw] at h
      simpa using h
  | frameUpdate env =>
    left
    refine ⟨?_, Or.inr ⟨env, rfl⟩⟩
    cases hw : w.st.emuVideoInProgress with
    | true =>
      simp only [step]
      rw [onFrameUpdate_busy_st env w hw]
      exact hw
    | false =>
      rw [hw] at h
      simpa using h
  | frameFinished => exact Or.inr ⟨rfl, Or.inl rfl⟩
  | startEmulation => exact absurd (startEmulation_flag w) h
  | pauseEmulation => exact Or.inr ⟨rfl, Or.inr (Or.inl rfl)⟩
  | showEmulation => exact absurd (showEmulation_flag w) h
  | showUI u =>
    right
    refine ⟨?_, Or.inr (Or.inr (Or.inl ⟨u, rfl⟩))⟩
    rcases showUI_flag u w with h1 | h1
    · exact h1
    · exact absurd (by simp only [step]; rw [h1]) h
  | closeSystem a u i =>
    right
    refine ⟨?_, Or.inr (Or.inr (Or.inr ⟨a, u, i, rfl⟩))⟩
    simp only [step, closeSystem_flag] at h ⊢
    rcases showUI_flag u w with h1 | h1
    · exact h1
    · exact absurd (by rw [h1]) h
  | moveEmuViewToWindow win => exact absurd (moveEmuViewToWindow_flag win w) h
  | movePopupToWindow win => exact absurd (movePopupToWindow_flag win w) h
  | moveOnFrame src dst => exact absurd (moveOnFrame_flag src dst w) h

/-- C4 as stated fails: with a frame in progress, `pauseEmulation`, which is
not the video-frame-finished callback, clears the flag. -/
theorem emuVideoInProgress_writers_counterexample :
    (sampleInProgress false).st.emuVideoInProgress = true ∧
    (step (sampleInProgress false) .pauseEmulation).st.emuVideoInProgress = false ∧
    Op.pauseEmulation ≠ Op.frameFinished := by
  decide

/-- C4, as amended, at a concrete step: `showUI` with a frame in progress
changes the flag, and clears it. -/
theorem emuVideoInProgress_writers_witness :
    (step (sampleInProgress false) (.showUI true)).st.emuVideoInProgress ≠
      (sampleInProgress false).st.emuVideoInProgress ∧
    (((step (sampleInProgress false) (.showUI true)).st.emuVideoInProgress = true ∧
      ((∃ src env, Op.showUI true = .frameTick src env) ∨
        (∃ env, Op.showUI true = .frameUpdate env))) ∨
    ((step (sampleInProgress false) (.showUI true)).st.emuVideoInProgress = false ∧
      (Op.showUI true = .frameFinished ∨ Op.showUI true = .pauseEmulation ∨
        (∃ u, Op.showUI true = .showUI u) ∨ (∃ a u i, Op.showUI true = .closeSystem a u i)))) :=
  ⟨by decide, emuVideoInProgress_writers (sampleInProgress false) (.showUI true) (by decide)⟩

end EmuViewController

namespace EmuViewController

theorem emuFrameSource_addOnFrameDelegate (del : OnFrameDelegate) (w : World) :
    emuFrameSource (addOnFrameDelegate del w).st = emuFrameSource w.st := by
  unfold addOnFrameDelegate
  split <;> rfl

theorem onFrame_addOnFrameDelegate (del : OnFrameDelegate) (w : World) :
    (addOnFrameDelegate del w).st.onFrame =
      Function.update w.st.onFrame (emuFrameSource w.st)
        ((w.st.onFrame (emuFrameSource w.st)).add del 0).1 := by
  unfold addOnFrameDelegate emuFrameSource
  split <;> rfl

theorem trace_addOnFrameDelegate (del : OnFrameDelegate) (w : World) :
    (addOnFrameDelegate del w).trace =
      w.trace ++ (if useRendererTime w.st then [.windowPostDraw w.st.emuViewWin] else []) := by
  unfold addOnFrameDelegate
  by_cases h : useRendererTime w.st = true
  · simp [h, addOnFrame, setOnFrame]
  · simp [h, addOnFrame]

end EmuViewController

namespace EmuViewController

theorem addOnFrameDelegate_showing (del : OnFrameDelegate) (w : World) :
    (addOnFrameDelegate del w).st.showingEmulation = w.st.showingEmulation := by
  unfold addOnFrameDelegate
  split <;> rfl

theorem movePopupToWindow_showing (win : WindowId) (w : World) :
    (movePopupToWindow win w).st.showingEmulation = w.st.showingEmulation := by
  unfold movePopupToWindow
  dsimp only
  split <;> rfl

theorem configureWindowForEmulation_showing (win : WindowId) (running : Bool) (w : World) :
    (configureWindowForEmulation win running w).st.showingEmulation =
      w.st.showingEmulation := by
  unfold configureWindowForEmulation
  simp only [movePopupToWindow_showing]
  split <;> rfl

theorem startEmulation_showing (w : World) :
    (startEmulation w).st.showingEmulation = w.st.showingEmulation := by
  simp [startEmulation, addOnFrameDelayed, addOnFrameDelegate_showing]

theorem showEmulation_showing (w : World) : (showEmulation w).st.showingEmulation = true := by
  unfold showEmulation
  split
  · assumption
  · simp [placeEmuViews, startEmulation_showing, configureWindowForEmulation_showing,
      configureAppForEmulation_st]

/-- C6: `showEmulation` is idempotent. The world after two calls in a row, that
is the mode flag, the brightness, the callbacks registered with every frame
source, the rest of the controller state and the trace of collaborator calls,
is the world after one call; so the second call changes no state and calls no
collaborator. `showUI` in UI mode changes nothing either. -/
theorem showEmulation_idempotent (w : World) :
    showEmulation (showEmulation w) = showEmulation w ∧
    (showEmulation (showEmulation w)).st.showingEmulation = (showEmulation w).st.showingEmulation ∧
    (showEmulation (showEmulation w)).st.brightness = (showEmulation w).st.brightness ∧
    (showEmulation (showEmulation w)).st.onFrame = (showEmulation w).st.onFrame ∧
    (showEmulation (showEmulation w)).trace = (showEmulation w).trace ∧
    (∀ u, w.st.showingEmulation = false → showUI u w = w) := by
  have h : showEmulation (showEmulation w) = showEmulation w := by
    have hs := showEmulation_showing w
    generalize showEmulation w = v at hs
    unfold showEmulation
    simp [hs]
  refine ⟨h, by rw [h], by rw [h], by rw [h], by rw [h], ?_⟩
  intro u hu
  unfold showUI
  simp [hu]

/-- C6 at a concrete state: the controller right after `initViews`, in UI mode. -/
theorem showEmulation_idempotent_witness :
    (sampleInit true).st.showingEmulation = false ∧
    showUI true (sampleInit true) = sampleInit true ∧
    (showEmulation (sampleInit true)).st.showingEmulation = true ∧
    (showEmulation (showEmulation (sampleInit true))).trace = (showEmulation (sampleInit true)).trace :=
  ⟨by decide, (showEmulation_idempotent (sampleInit true)).2.2.2.2.2 true (by decide), by decide,
    (showEmulation_idempotent (sampleInit true)).2.2.2.2.1⟩

theorem startEmulation_st (w : World) :
    (startEmulation w).st =
      { w.st with
        brightness := 100
        onFrame := Function.update w.st.onFrame (emuFrameSource w.st)
          ((w.st.onFrame (emuFrameSource w.st)).add
            (.onFrameDelayed (w.st.settleDelay (emuWindowScreen w.st) % 256)) 0).1 } := by
  cases h : w.st.useRendererTime_ <;>
    simp [startEmulation, addOnFrameDelayed, addOnFrameDelegate, emuFrameSource, useRendererTime,
      h, addOnFrame, setOnFrame, emuWindowScreen, World.modify, World.call, postDrawToEmuWindows]

/-- C7, as amended: `startEmulation` has no guard for an emulation that is
already started. A repeated `startEmulation` directly after a `startEmulation`
leaves the controller state as it is. In general `startEmulation` leaves the
controller state unchanged exactly when the brightness is already full and a
settling-delay wrapper with the full delay is already registered with the
frame source of the emulation window; in every other state, so once a frame
tick has shortened the delay of the wrapper or has installed `onFrameUpdate`,
it registers one more settling-delay wrapper. -/
theorem startEmulation_repeat (w : World) :
    (startEmulation (startEmulation w)).st = (startEmulation w).st ∧
    ((startEmulation w).st = w.st ↔
      (w.st.brightness = 100 ∧
        (w.st.onFrame (emuFrameSource w.st)).contains
          (.onFrameDelayed (w.st.settleDelay (emuWindowScreen w.st) % 256)) = true)) ∧
    ((w.st.onFrame (emuFrameSource w.st)).contains
          (.onFrameDelayed (w.st.settleDelay (emuWindowScreen w.st) % 256)) = false →
      ((startEmulation w).st.onFrame (emuFrameSource w.st)).size =
          (w.st.onFrame (emuFrameSource w.st)).size + 1 ∧
      ((startEmulation w).st.onFrame (emuFrameSource w.st)).contains
          (.onFrameDelayed (w.st.settleDelay (emuWindowScreen w.st) % 256)) = true) := by
  have key : ∀ v : World, (v.st.brightness = 100 ∧
        (v.st.onFrame (emuFrameSource v.st)).contains
          (.onFrameDelayed (v.st.settleDelay (emuWindowScreen v.st) % 256)) = true) →
      (startEmulation v).st = v.st := by
    intro v hv
    rw [startEmulation_st]
    have ha : ((v.st.onFrame (emuFrameSource v.st)).add
        (.onFrameDelayed (v.st.settleDelay (emuWindowScreen v.st) % 256)) 0).1 =
        v.st.onFrame (emuFrameSource v.st) := by
      simp [IG.DelegateFuncSet.add, hv.2]
    rw [ha, Function.update_eq_self, ← hv.1]
  refine ⟨?_, ⟨?_, key w⟩, ?_⟩
  · apply key
    rw [startEmulation_st]
    refine ⟨rfl, ?_⟩
    show (Function.update w.st.onFrame (emuFrameSource w.st) _ (emuFrameSource w.st)).contains _
      = true
    rw [Function.update_same]
    exact IG.DelegateFuncSet.contains_add_self _ _ _
  · intro h
    rw [startEmulation_st] at h
    have hb : w.st.brightness = 100 := by
      have := congrArg State.brightness h
      exact this.symm
    refine ⟨hb, ?_⟩
    have ho := congrFun (congrArg State.onFrame h) (emuFrameSource w.st)
    simp only [Function.update_same] at ho
    by_contra hc
    have hc2 : (w.st.onFrame (emuFrameSource w.st)).contains
          (.onFrameDelayed (w.st.settleDelay (emuWindowScreen w.st) % 256)) = false := by
      simpa using hc
    have hl := congrArg IG.DelegateFuncSet.size ho
    simp [IG.DelegateFuncSet.add, hc2, IG.DelegateFuncSet.size,
      (IG.DelegateFuncSet.emplace_perm _ _).length_eq] at hl
  · intro hc
    rw [startEmulation_st]
    simp only [Function.update_same]
    refine ⟨?_, IG.DelegateFuncSet.contains_add_self _ _ _⟩
    simp [IG.DelegateFuncSet.add, hc, IG.DelegateFuncSet.size,
      (IG.DelegateFuncSet.emplace_perm _ _).length_eq]

/-- C7 as stated fails: once `onFrameUpdate` is installed, and also during the
settling delay after one tick, a further `startEmulation` registers one more
settling-delay wrapper, so the controller state changes. -/
theorem startEmulation_repeat_counterexample :
    ((sampleInstalled false).st.onFrame (.screen 0)).delegate = [⟨.onFrameUpdate, 0⟩] ∧
    ((startEmulation (sampleInstalled false)).st.onFrame (.screen 0)).delegate =
      [⟨.onFrameUpdate, 0⟩, ⟨.onFrameDelayed 15, 0⟩] ∧
    ((step (sampleRunning false) (.frameTick (.screen 0) (sampleEnv 0))).st.onFrame
      (.screen 0)).delegate = [⟨.onFrameDelayed 14, 0⟩] ∧
    ((startEmulation (step (sampleRunning false) (.frameTick (.screen 0) (sampleEnv 0)))).st.onFrame
      (.screen 0)).delegate = [⟨.onFrameDelayed 14, 0⟩, ⟨.onFrameDelayed 15, 0⟩] := by
  decide

/-- C7, as amended, at a concrete state: with `onFrameUpdate` installed and no
wrapper registered, `startEmulation` adds an entry. -/
theorem startEmulation_repeat_witness :
    ((sampleInstalled false).st.onFrame (emuFrameSource (sampleInstalled false).st)).size = 1 ∧
    ((startEmulation (sampleInstalled false)).st.onFrame
      (emuFrameSource (sampleInstalled false).st)).size = 1 + 1 :=
  ⟨by decide, ((startEmulation_repeat (sampleInstalled false)).2.2 (by decide)).1⟩

end EmuViewController

namespace EmuViewController

theorem windowFrameSource_removeOnFrameFrom (src : FrameSource) (del : OnFrameDelegate)
    (win : WindowId) (w : World) :
    windowFrameSource (removeOnFrameFrom src del w).st win = windowFrameSource w.st win := rfl

/-- C8, as amended: `moveOnFrame(from, to)` registers `onFrameUpdate` itself with
the frame source of the destination window at once. It arms no settling-delay
wrapper there (the wrappers registered with the destination are those
registered before) and requests no redraw, so the per-frame callback runs
from the first tick of the destination on. -/
theorem moveOnFrame_registers (src dst : WindowId) (w : World) :
    ((moveOnFrame src dst w).st.onFrame (windowFrameSource w.st dst)).contains
      .onFrameUpdate = true ∧
    (∀ d, ((moveOnFrame src dst w).st.onFrame (windowFrameSource w.st dst)).contains
        (.onFrameDelayed d) = (w.st.onFrame (windowFrameSource w.st dst)).contains
        (.onFrameDelayed d)) ∧
    (moveOnFrame src dst w).trace = w.trace := by
  have hst : (moveOnFrame src dst w).st.onFrame (windowFrameSource w.st dst) =
      (((removeOnFrameFrom (windowFrameSource w.st src) .onFrameUpdate w).st.onFrame
        (windowFrameSource w.st dst)).add .onFrameUpdate 0).1 := by
    simp [moveOnFrame, addOnFrame, setOnFrame, windowFrameSource_removeOnFrameFrom]
  refine ⟨?_, ?_, rfl⟩
  · rw [hst]
    exact IG.DelegateFuncSet.contains_add_self _ _ _
  · intro d
    rw [hst, IG.DelegateFuncSet.contains_add_of_ne _ _ (by simp)]
    simp only [removeOnFrameFrom, modify_st, setOnFrame]
    by_cases hs : windowFrameSource w.st dst = windowFrameSource w.st src
    · rw [hs, Function.update_same]
      exact IG.DelegateFuncSet.contains_remove_of_ne _ (by simp)
    · rw [Function.update_noteq hs]

/-- C8 as stated fails: with renderer time in use, emulation running on window 0
and `onFrameUpdate` installed, the frame source is moved to window 1 as
`setEmuViewOnExtraWindow` does. The destination then holds `onFrameUpdate`
and no settling-delay wrapper, and its very first tick runs the per-frame
callback, which requests a frame. -/
theorem moveOnFrame_registers_counterexample :
    ((run (sampleInstalled true) [.moveOnFrame 0 1, .moveEmuViewToWindow 1]).st.onFrame
      (.drawableHolder 1)).delegate = [⟨.onFrameUpdate, 0⟩] ∧
    runFrameCounts (newCalls
      (run (sampleInstalled true) [.moveOnFrame 0 1, .moveEmuViewToWindow 1])
      (run (sampleInstalled true) [.moveOnFrame 0 1, .moveEmuViewToWindow 1,
        .frameTick (.drawableHolder 1) (sampleEnv 1)])) = [1] := by
  decide

end EmuViewController

namespace EmuViewController

theorem windowsOK_of_same {s t : State} (h1 : t.windowData = s.windowData)
    (h2 : t.emuViewWin = s.emuViewWin) (h3 : t.popupWin = s.popupWin) (h : WindowsOK s) :
    WindowsOK t := by
  unfold WindowsOK
  rw [h1, h2, h3]
  exact h

theorem movePopupToWindow_ok (win : WindowId) (w : World) (h : WindowsOK w.st) :
    WindowsOK (movePopupToWindow win w).st := by
  unfold movePopupToWindow
  dsimp only
  split
  · exact h
  · rename_i hne
    obtain ⟨h1, h2⟩ := h
    constructor
    · intro x
      simp only [call_st, modify_st, setWindowData]
      rw [← h1 x]
      by_cases hx : x = win
      · subst hx
        simp [Function.update_same]
        by_cases hw : x = w.st.popupWin
        · subst hw
          simp [Function.update_same]
        · simp [Function.update_noteq hw]
      · rw [Function.update_noteq hx]
        by_cases hw : x = w.st.popupWin
        · subst hw
          simp [Function.update_same]
        · simp [Function.update_noteq hw]
    · intro x
      simp only [call_st, modify_st, setWindowData]
      by_cases hx : x = win
      · subst hx
        simp [Function.update_same]
      · rw [Function.update_noteq hx]
        by_cases hw : x = w.st.popupWin
        · subst hw
          simp [Function.update_same, hx]
        · simp only [Function.update_noteq hw]
          rw [h2 x]
          simp [hw, hx]

theorem moveEmuViewToWindow_ok (win : WindowId) (w : World) (h : WindowsOK w.st) :
    WindowsOK (moveEmuViewToWindow win w).st := by
  unfold moveEmuViewToWindow
  dsimp only
  split
  · exact h
  · rename_i hne
    obtain ⟨h1, h2⟩ := h
    constructor
    · intro x
      simp only [call_st, modify_st, setWindowData]
      by_cases hx : x = win
      · subst hx
        simp [Function.update_same]
      · rw [Function.update_noteq hx]
        by_cases hw : x = w.st.emuViewWin
        · subst hw
          simp [Function.update_same, hx]
        · simp only [Function.update_noteq hw]
          rw [h1 x]
          simp [hw, hx]
    · intro x
      simp only [call_st, modify_st, setWindowData]
      rw [← h2 x]
      by_cases hx : x = win
      · subst hx
        simp [Function.update_same]
        by_cases hw : x = w.st.emuViewWin
        · subst hw
          simp [Function.update_same]
        · simp [Function.update_noteq hw]
      · rw [Function.update_noteq hx]
        by_cases hw : x = w.st.emuViewWin
        · subst hw
          simp [Function.update_same]
        · simp [Function.update_noteq hw]

theorem addOnFrameDelegate_ok (del : OnFrameDelegate) (w : World) (h : WindowsOK w.st) :
    WindowsOK (addOnFrameDelegate del w).st := by
  unfold addOnFrameDelegate
  split <;> exact h

theorem configureWindowForEmulation_ok (win : WindowId) (running : Bool) (w : World)
    (h : WindowsOK w.st) : WindowsOK (configureWindowForEmulation win running w).st := by
  unfold configureWindowForEmulation
  apply movePopupToWindow_ok
  split <;> exact h

theorem startEmulation_ok (w : World) (h : WindowsOK w.st) : WindowsOK (startEmulation w).st := by
  rw [startEmulation_st]
  exact h

theorem pauseEmulation_ok (w : World) (h : WindowsOK w.st) : WindowsOK (pauseEmulation w).st :=
  h

theorem showEmulation_ok (w : World) (h : WindowsOK w.st) : WindowsOK (showEmulation w).st := by
  unfold showEmulation
  split
  · exact h
  · exact startEmulation_ok _ (configureWindowForEmulation_ok _ _ _ h)

theorem showUI_ok (u : Bool) (w : World) (h : WindowsOK w.st) : WindowsOK (showUI u w).st := by
  unfold showUI
  split
  · exact h
  · have h1 : WindowsOK (configureWindowForEmulation
        (configureAppForEmulation false (pauseEmulation
          (w.modify (fun s => { s with showingEmulation := false })))).st.emuViewWin false
        (configureAppForEmulation false (pauseEmulation
          (w.modify (fun s => { s with showingEmulation := false }))))).st :=
      configureWindowForEmulation_ok _ _ _ h
    split <;> exact h1

theorem closeSystem_ok (a u : Bool) (i : Int) (w : World) (h : WindowsOK w.st) :
    WindowsOK (closeSystem a u i w).st := by
  unfold closeSystem
  split <;> exact showUI_ok u w h

theorem onFrameUpdate_ok (env : FrameEnv) (w : World) (h : WindowsOK w.st) :
    WindowsOK (onFrameUpdate env w).1.st := by
  cases hp : w.st.emuVideoInProgress with
  | true =>
    rw [onFrameUpdate_busy_st env w hp]
    exact h
  | false =>
    by_cases ha : env.advanced = 0
    · rw [onFrameUpdate_idle env w hp ha]
      exact h
    · rw [onFrameUpdate_run env w hp ha]
      exact h

theorem invoke_ok (env : FrameEnv) (del : OnFrameDelegate) (w : World) (h : WindowsOK w.st) :
    WindowsOK (invoke env del w).1.st := by
  cases del with
  | onFrameUpdate => exact onFrameUpdate_ok env w h
  | onFrameDelayed delay =>
    simp only [invoke, onFrameDelayed]
    generalize hb : (if delay ≠ 0 then addOnFrameDelegate (.onFrameDelayed ((delay - 1) % 256)) w
      else if env.emuSystemIsActive = true then addOnFrameDelegate .onFrameUpdate w else w) = b
    have h1 : WindowsOK b.st := by
      rw [← hb]
      split
      · exact addOnFrameDelegate_ok _ _ h
      · split
        · exact addOnFrameDelegate_ok _ _ h
        · exact h
    split <;> exact h1

theorem dispatchOnFrame_ok (src : FrameSource) (env : FrameEnv) (w : World)
    (h : WindowsOK w.st) : WindowsOK (dispatchOnFrame src env w).st := by
  unfold dispatchOnFrame
  apply IG.runAll_induction _ _ _ (fun a => WindowsOK a.st) w h
  · intro d _ a ha
    exact invoke_ok env d.del a ha
  · intro d a ha
    exact ha

theorem step_ok (w : World) (op : Op) (h : WindowsOK w.st) : WindowsOK (step w op).st := by
  cases op with
  | frameTick src env => exact dispatchOnFrame_ok src env w h
  | frameUpdate env => exact onFrameUpdate_ok env w h
  | frameFinished => exact h
  | startEmulation => exact startEmulation_ok w h
  | pauseEmulation => exact h
  | showEmulation => exact showEmulation_ok w h
  | showUI u => exact showUI_ok u w h
  | closeSystem a u i => exact closeSystem_ok a u i w h
  | moveEmuViewToWindow win => exact moveEmuViewToWindow_ok win w h
  | movePopupToWindow win => exact movePopupToWindow_ok win w h
  | moveOnFrame src dst => exact h

theorem run_ok (ops : List Op) (w : World) (h : WindowsOK w.st) : WindowsOK (run w ops).st := by
  induction ops generalizing w with
  | nil => exact h
  | cons op ops ih => exact ih _ (step_ok w op h)

theorem initViews_ok (main : WindowId) (windowScreen : WindowId → ScreenId)
    (settleDelay : ScreenId → Nat) (options : Options) (brightness : Brightness)
    (rendererTime : Bool) :
    WindowsOK (initViews main rendererTime (construct main windowScreen settleDelay options brightness)).st := by
  unfold initViews
  apply showUI_ok
  have h0 : WindowsOK ((((construct main windowScreen settleDelay options brightness).modify
      (fun s => setWindowData main { s.windowData main with hasEmuView := true } s)).modify
      (fun s => setWindowData main { s.windowData main with hasPopup := true } s)).st) := by
    constructor
    · intro x
      by_cases hx : x = main
      · subst hx
        simp [construct, setWindowData]
      · simp [construct, setWindowData, Function.update_noteq hx, hx]
    · intro x
      by_cases hx : x = main
      · subst hx
        simp [construct, setWindowData]
      · simp [construct, setWindowData, Function.update_noteq hx, hx]
  dsimp only
  split
  · exact h0
  · exact h0

/-- C9: from the state set up by the constructor and `initViews` on the main
window, after every sequence of controller operations, among them
`moveEmuViewToWindow` and `movePopupToWindow` with any windows, a window has
`hasEmuView` set exactly when it is the window of `emuView`, and has
`hasPopup` set exactly when it is the window of `popup`; and moving a view to
the window it is on changes nothing. -/
theorem window_hosting (main : WindowId) (windowScreen : WindowId → ScreenId)
    (settleDelay : ScreenId → Nat) (options : Options) (brightness : Brightness)
    (rendererTime : Bool) (ops : List Op) :
    (∀ x, ((run (initViews main rendererTime
        (construct main windowScreen settleDelay options brightness)) ops).st.windowData x).hasEmuView = true
      ↔ x = (run (initViews main rendererTime
        (construct main windowScreen settleDelay options brightness)) ops).st.emuViewWin) ∧
    (∀ x, ((run (initViews main rendererTime
        (construct main windowScreen settleDelay options brightness)) ops).st.windowData x).hasPopup = true
      ↔ x = (run (initViews main rendererTime
        (construct main windowScreen settleDelay options brightness)) ops).st.popupWin) ∧
    (∀ w : World, moveEmuViewToWindow w.st.emuViewWin w = w) ∧
    (∀ w : World, movePopupToWindow w.st.popupWin w = w) := by
  have h := run_ok ops _ (initViews_ok main windowScreen settleDelay options brightness rendererTime)
  refine ⟨h.1, h.2, ?_, ?_⟩
  · intro w
    simp [moveEmuViewToWindow]
  · intro w
    simp [movePopupToWindow]

end EmuViewController

namespace EmuViewController

end EmuViewController

/-! ## Theorems on `runAll` -/

namespace IG

theorem runAll_eq_foldl {σ F : Type} [DecidableEq F] (get : σ → DelegateFuncSet F)
    (put : DelegateFuncSet F → σ → σ) (exec : F → σ → σ × Bool) (s : σ) :
    runAll get put exec s = (get s).delegate.foldl (runAllStep get put exec) s := by
  unfold runAll
  split
  · rename_i h
    have hl : (get s).delegate = [] := by
      simpa [DelegateFuncSet.size] using h
    rw [hl]
    rfl
  · rfl

theorem foldl_logged {σ F : Type} [DecidableEq F] (get : σ → DelegateFuncSet F)
    (put : DelegateFuncSet F → σ → σ) (exec : F → σ → σ × Bool)
    (ds : List (DelegateEntry F)) (a : σ) (l : List (F × Bool)) :
    ds.foldl (runAllStep (fun (x : σ × List (F × Bool)) => get x.1)
        (fun d x => (put d x.1, x.2)) (logged exec)) (a, l) =
      (ds.foldl (runAllStep get put exec) a, l ++ passLog get put exec ds a) := by
  induction ds generalizing a l with
  | nil => simp [passLog]
  | cons d ds ih =>
    rw [List.foldl_cons, List.foldl_cons]
    have hstep : runAllStep (fun (x : σ × List (F × Bool)) => get x.1)
        (fun d x => (put d x.1, x.2)) (logged exec) (a, l) d =
        (runAllStep get put exec a d, l ++ [(d.del, (exec d.del a).2)]) := by
      unfold runAllStep logged
      dsimp only
      split <;> rfl
    rw [hstep, ih]
    simp [passLog]

theorem runAllLogged_eq {σ F : Type} [DecidableEq F] (get : σ → DelegateFuncSet F)
    (put : DelegateFuncSet F → σ → σ) (exec : F → σ → σ × Bool) (s : σ) :
    runAllLogged get put exec s =
      (runAll get put exec s, passLog get put exec (get s).delegate s) := by
  unfold runAllLogged
  rw [runAll_eq_foldl, runAll_eq_foldl, foldl_logged]
  simp

theorem passLog_dels {σ F : Type} [DecidableEq F] (get : σ → DelegateFuncSet F)
    (put : DelegateFuncSet F → σ → σ) (exec : F → σ → σ × Bool)
    (ds : List (DelegateEntry F)) (a : σ) :
    (passLog get put exec ds a).map (fun c => c.1) = ds.map (fun d => d.del) := by
  induction ds generalizing a with
  | nil => rfl
  | cons d ds ih => simp [passLog, ih]

end IG

namespace IG

theorem get_runAllStep_false {σ F : Type} [DecidableEq F] (get : σ → DelegateFuncSet F)
    (put : DelegateFuncSet F → σ → σ) (exec : F → σ → σ × Bool)
    (hgp : ∀ d a, get (put d a) = d) (a : σ) (d : DelegateEntry F)
    (hr : (exec d.del a).2 = false) :
    get (runAllStep get put exec a d) =
      ⟨DelegateFuncSet.eraseFirstDel d.del (get (exec d.del a).1).delegate⟩ := by
  unfold runAllStep
  simp [hr, hgp, DelegateFuncSet.eraseFirst]

theorem runAllStep_true {σ F : Type} [DecidableEq F] (get : σ → DelegateFuncSet F)
    (put : DelegateFuncSet F → σ → σ) (exec : F → σ → σ × Bool) (a : σ) (d : DelegateEntry F)
    (hr : (exec d.del a).2 = true) : runAllStep get put exec a d = (exec d.del a).1 := by
  unfold runAllStep
  simp [hr]

theorem runAllStep_unique {σ F : Type} [DecidableEq F] (get : σ → DelegateFuncSet F)
    (put : DelegateFuncSet F → σ → σ) (exec : F → σ → σ × Bool)
    (hgp : ∀ d a, get (put d a) = d) (a : σ) (d : DelegateEntry F)
    (hU : (get a).Unique → (get (exec d.del a).1).Unique)
    (h : (get a).Unique) : (get (runAllStep get put exec a d)).Unique := by
  cases hr : (exec d.del a).2 with
  | true =>
    rw [runAllStep_true get put exec a d hr]
    exact hU h
  | false =>
    rw [get_runAllStep_false get put exec hgp a d hr]
    exact List.Nodup.sublist ((DelegateFuncSet.eraseFirstDel_sublist _ _).map _) (hU h)

theorem runAllStep_absent {σ F : Type} [DecidableEq F] (get : σ → DelegateFuncSet F)
    (put : DelegateFuncSet F → σ → σ) (exec : F → σ → σ × Bool)
    (hgp : ∀ d a, get (put d a) = d) (x : F) (a : σ) (d : DelegateEntry F)
    (h : (get (exec d.del a).1).contains x = false) :
    (get (runAllStep get put exec a d)).contains x = false := by
  cases hr : (exec d.del a).2 with
  | true =>
    rw [runAllStep_true get put exec a d hr]
    exact h
  | false =>
    rw [get_runAllStep_false get put exec hgp a d hr]
    rw [DelegateFuncSet.contains_eq_false_iff] at h ⊢
    intro e he
    exact h e ((DelegateFuncSet.eraseFirstDel_sublist _ _).subset he)

theorem foldl_absent {σ F : Type} [DecidableEq F] (get : σ → DelegateFuncSet F)
    (put : DelegateFuncSet F → σ → σ) (exec : F → σ → σ × Bool)
    (hgp : ∀ d a, get (put d a) = d) (x : F) (ds : List (DelegateEntry F))
    (hadd : ∀ e ∈ ds, ∀ a, e.del ≠ x → (get a).contains x = false →
      (get (exec e.del a).1).contains x = false)
    (a : σ) (hx : x ∉ ds.map (fun d => d.del)) (h : (get a).contains x = false) :
    (get (ds.foldl (runAllStep get put exec) a)).contains x = false := by
  induction ds generalizing a with
  | nil => exact h
  | cons d ds ih =>
    rw [List.foldl_cons]
    rw [List.map_cons, List.mem_cons, not_or] at hx
    apply ih (fun e he => hadd e (List.mem_cons_of_mem _ he)) _ hx.2
    apply runAllStep_absent get put exec hgp
    exact hadd d (List.mem_cons_self _ _) a (fun hd => hx.1 hd.symm) h

theorem foldl_erased {σ F : Type} [DecidableEq F] (get : σ → DelegateFuncSet F)
    (put : DelegateFuncSet F → σ → σ) (exec : F → σ → σ × Bool)
    (hgp : ∀ d a, get (put d a) = d) (x : F) (ds : List (DelegateEntry F))
    (hU : ∀ e ∈ ds, ∀ a, (get a).Unique → (get (exec e.del a).1).Unique)
    (hadd : ∀ e ∈ ds, ∀ a, e.del ≠ x → (get a).contains x = false →
      (get (exec e.del a).1).contains x = false)
    (a : σ) (hu : (get a).Unique)
    (hn : (ds.map (fun d => d.del)).Nodup) (hx : (x, false) ∈ passLog get put exec ds a) :
    (get (ds.foldl (runAllStep get put exec) a)).contains x = false := by
  induction ds generalizing a with
  | nil => simp [passLog] at hx
  | cons d ds ih =>
    rw [List.foldl_cons]
    rw [List.map_cons, List.nodup_cons] at hn
    simp only [passLog, List.mem_cons] at hx
    have hUd := hU d (List.mem_cons_self _ _) a
    rcases hx with hx | hx
    · have hd : x = d.del := congrArg Prod.fst hx
      have hr : (exec d.del a).2 = false := (congrArg Prod.snd hx).symm
      apply foldl_absent get put exec hgp x ds (fun e he => hadd e (List.mem_cons_of_mem _ he)) _
        (by rw [hd]; exact hn.1)
      rw [get_runAllStep_false get put exec hgp a d hr, DelegateFuncSet.contains_eq_false_iff, hd]
      exact DelegateFuncSet.not_mem_eraseFirstDel_of_nodup _ _ (hUd hu)
    · exact ih (fun e he => hU e (List.mem_cons_of_mem _ he))
        (fun e he => hadd e (List.mem_cons_of_mem _ he)) _
        (runAllStep_unique get put exec hgp a d hUd hu) hn.2 hx

theorem runAllStep_present {σ F : Type} [DecidableEq F] (get : σ → DelegateFuncSet F)
    (put : DelegateFuncSet F → σ → σ) (exec : F → σ → σ × Bool)
    (hgp : ∀ d a, get (put d a) = d) (x : F) (a : σ) (d : DelegateEntry F) (hd : d.del ≠ x)
    (h : (get (exec d.del a).1).contains x = true) :
    (get (runAllStep get put exec a d)).contains x = true := by
  cases hr : (exec d.del a).2 with
  | true =>
    rw [runAllStep_true get put exec a d hr]
    exact h
  | false =>
    rw [get_runAllStep_false get put exec hgp a d hr]
    rw [DelegateFuncSet.contains_iff] at h ⊢
    obtain ⟨e, he, hex⟩ := h
    exact ⟨e, (DelegateFuncSet.mem_eraseFirstDel_of_ne (by rw [hex]; exact fun hh => hd hh.symm)
      _).2 he, hex⟩

theorem foldl_present {σ F : Type} [DecidableEq F] (get : σ → DelegateFuncSet F)
    (put : DelegateFuncSet F → σ → σ) (exec : F → σ → σ × Bool)
    (hgp : ∀ d a, get (put d a) = d) (x : F) (ds : List (DelegateEntry F))
    (hrem : ∀ e ∈ ds, ∀ a, (get a).contains x = true →
      (get (exec e.del a).1).contains x = true)
    (a : σ) (hx : x ∉ ds.map (fun d => d.del)) (h : (get a).contains x = true) :
    (get (ds.foldl (runAllStep get put exec) a)).contains x = true := by
  induction ds generalizing a with
  | nil => exact h
  | cons d ds ih =>
    rw [List.foldl_cons]
    rw [List.map_cons, List.mem_cons, not_or] at hx
    apply ih (fun e he => hrem e (List.mem_cons_of_mem _ he)) _ hx.2
    exact runAllStep_present get put exec hgp x a d (fun hd => hx.1 hd.symm)
      (hrem d (List.mem_cons_self _ _) a h)

theorem foldl_kept {σ F : Type} [DecidableEq F] (get : σ → DelegateFuncSet F)
    (put : DelegateFuncSet F → σ → σ) (exec : F → σ → σ × Bool)
    (hgp : ∀ d a, get (put d a) = d) (x : F) (ds : List (DelegateEntry F))
    (hrem : ∀ e ∈ ds, ∀ a, (get a).contains x = true →
      (get (exec e.del a).1).contains x = true)
    (a : σ) (hn : (ds.map (fun d => d.del)).Nodup)
    (hx : (x, true) ∈ passLog get put exec ds a) (h : (get a).contains x = true) :
    (get (ds.foldl (runAllStep get put exec) a)).contains x = true := by
  induction ds generalizing a with
  | nil => simp [passLog] at hx
  | cons d ds ih =>
    rw [List.foldl_cons]
    rw [List.map_cons, List.nodup_cons] at hn
    simp only [passLog, List.mem_cons] at hx
    have hremd := hrem d (List.mem_cons_self _ _) a h
    rcases hx with hx | hx
    · have hd : x = d.del := congrArg Prod.fst hx
      have hr : (exec d.del a).2 = true := (congrArg Prod.snd hx).symm
      apply foldl_present get put exec hgp x ds (fun e he => hrem e (List.mem_cons_of_mem _ he)) _
        (by rw [hd]; exact hn.1)
      rw [runAllStep_true get put exec a d hr]
      exact hremd
    · have hmem : x ∈ ds.map (fun d => d.del) := by
        rw [← passLog_dels get put exec ds (runAllStep get put exec a d)]
        exact List.mem_map_of_mem (fun c => c.1) hx
      have hd : d.del ≠ x := fun hh => hn.1 (by rw [hh]; exact hmem)
      exact ih (fun e he => hrem e (List.mem_cons_of_mem _ he)) _ hn.2 hx
        (runAllStep_present get put exec hgp x a d hd hremd)

/-- C11, as amended: `runAll(exec)` calls `exec` on exactly the entries that are
in the set when `runAll` is called, each once and in the order of the set,
whatever the callbacks add or remove during the pass; on an empty set `exec`
is never called. Afterwards an entry whose run returned false is absent
from the set provided no other callback of the pass adds it again, and an
entry whose run returned true and that no callback of the pass removes is
still present. (For the last two facts the set holds one entry per callback
and the callbacks of the pass keep it so.) -/
theorem runAll_spec {σ F : Type} [DecidableEq F] (get : σ → DelegateFuncSet F)
    (put : DelegateFuncSet F → σ → σ) (exec : F → σ → σ × Bool) (s : σ)
    (hgp : ∀ d a, get (put d a) = d) :
    (runAllLogged get put exec s).1 = runAll get put exec s ∧
    (runAllLogged get put exec s).2.map (fun c => c.1) = (get s).delegate.map (fun d => d.del) ∧
    ((get s).size = 0 → (runAllLogged get put exec s).2 = []) ∧
    ((get s).Unique →
      (∀ e ∈ (get s).delegate, ∀ a, (get a).Unique → (get (exec e.del a).1).Unique) →
      ∀ x, (x, false) ∈ (runAllLogged get put exec s).2 →
        (∀ e ∈ (get s).delegate, ∀ a, e.del ≠ x → (get a).contains x = false →
          (get (exec e.del a).1).contains x = false) →
        (get (runAll get put exec s)).contains x = false) ∧
    ((get s).Unique →
      ∀ x, (x, true) ∈ (runAllLogged get put exec s).2 →
        (∀ e ∈ (get s).delegate, ∀ a, (get a).contains x = true →
          (get (exec e.del a).1).contains x = true) →
        (get (runAll get put exec s)).contains x = true) := by
  rw [runAllLogged_eq]
  refine ⟨rfl, passLog_dels get put exec _ s, ?_, ?_, ?_⟩
  · intro h
    have hl : (get s).delegate = [] := by
      simpa [DelegateFuncSet.size] using h
    rw [hl]
    rfl
  · intro hu hU x hx hadd
    rw [runAll_eq_foldl]
    exact foldl_erased get put exec hgp x _ hU hadd s hu hu hx
  · intro hu x hx hrem
    rw [runAll_eq_foldl]
    have hmem : x ∈ (get s).delegate.map (fun d => d.del) := by
      rw [← passLog_dels get put exec _ s]
      exact List.mem_map_of_mem (fun c => c.1) hx
    have hc : (get s).contains x = true := by
      rw [DelegateFuncSet.contains_iff]
      obtain ⟨e, he, hex⟩ := List.mem_map.1 hmem
      exact ⟨e, he, hex⟩
    exact foldl_kept get put exec hgp x _ hrem s hu hx hc

/-- C11, as amended, at a concrete pass over the callbacks 1, 2 and 3: the run
of callback 1 returns false, the run of callback 2 adds callback 9 and returns
true, the run of callback 3 returns true. All three are called, callback 9 is
not; afterwards callback 1 is absent and callback 2 is present. -/
theorem runAll_spec_witness :
    (runAllLogged (fun (x : DelegateFuncSet Nat) => x) (fun d _ => d)
      (fun d x => (if d = 2 then (x.add 9 0).1 else x, decide (d ≠ 1)))
      ⟨[⟨1, 0⟩, ⟨2, 0⟩, ⟨3, 0⟩]⟩).2 = [(1, false), (2, true), (3, true)] ∧
    (runAll (fun (x : DelegateFuncSet Nat) => x) (fun d _ => d)
      (fun d x => (if d = 2 then (x.add 9 0).1 else x, decide (d ≠ 1)))
      ⟨[⟨1, 0⟩, ⟨2, 0⟩, ⟨3, 0⟩]⟩).contains 1 = false ∧
    (runAll (fun (x : DelegateFuncSet Nat) => x) (fun d _ => d)
      (fun d x => (if d = 2 then (x.add 9 0).1 else x, decide (d ≠ 1)))
      ⟨[⟨1, 0⟩, ⟨2, 0⟩, ⟨3, 0⟩]⟩).contains 2 = true := by
  have h := runAll_spec (fun (x : DelegateFuncSet Nat) => x) (fun d _ => d)
    (fun d x => (if d = 2 then (x.add 9 0).1 else x, decide (d ≠ 1)))
    ⟨[⟨1, 0⟩, ⟨2, 0⟩, ⟨3, 0⟩]⟩ (fun _ _ => rfl)
  refine ⟨by decide, ?_, ?_⟩
  · apply h.2.2.2.1 (by decide) _ 1 (by decide)
    · intro e _ a hne ha
      dsimp only
      split
      · exact (DelegateFuncSet.contains_add_of_ne a 0 (by decide)).trans ha
      · exact ha
    · intro e _ a ha
      dsimp only
      split
      · exact DelegateFuncSet.add_unique a 9 0 ha
      · exact ha
  · apply h.2.2.2.2 (by decide) 2 (by decide)
    intro e _ a ha
    dsimp only
    split
    · exact (DelegateFuncSet.contains_add_of_ne a 0 (by decide)).trans ha
    · exact ha

end IG

namespace EmuViewController

/-- C11 as stated fails: the frame source holds the wrappers with delays 14 and
15. In one pass the run of wrapper 14 returns false and the entry is erased,
then the run of wrapper 15 registers wrapper 14 again: after the pass the
entry whose run returned false is in the set. -/
theorem runAll_spec_counterexample :
    (sampleRestarted.st.onFrame (.screen 0)).delegate =
      [⟨.onFrameDelayed 14, 0⟩, ⟨.onFrameDelayed 15, 0⟩] ∧
    (IG.runAllLogged (fun (x : World) => x.st.onFrame (.screen 0))
      (fun d (x : World) => x.modify (setOnFrame (.screen 0) d)) (invoke (sampleEnv 0))
      sampleRestarted).2 = [(.onFrameDelayed 14, false), (.onFrameDelayed 15, false)] ∧
    ((IG.runAll (fun (x : World) => x.st.onFrame (.screen 0))
      (fun d (x : World) => x.modify (setOnFrame (.screen 0) d)) (invoke (sampleEnv 0))
      sampleRestarted).st.onFrame (.screen 0)).contains (.onFrameDelayed 14) = true := by
  decide

end EmuViewController

namespace IG

theorem mem_emplace {F : Type} (e x : DelegateEntry F) (xs : List (DelegateEntry F)) :
    x ∈ FlatMultiSet.emplace e xs ↔ x = e ∨ x ∈ xs := by
  rw [(DelegateFuncSet.emplace_perm e xs).mem_iff, List.mem_cons]

theorem emplace_pairwise {F : Type} (R : DelegateEntry F → DelegateEntry F → Prop)
    (hR : ∀ a b, R a b → a.priority ≤ b.priority) (e : DelegateEntry F)
    (xs : List (DelegateEntry F)) (hp : xs.Pairwise R)
    (h1 : ∀ x ∈ xs, ¬ e.priority < x.priority → R x e)
    (h2 : ∀ x ∈ xs, e.priority < x.priority → R e x) :
    (FlatMultiSet.emplace e xs).Pairwise R := by
  induction xs with
  | nil => simp [FlatMultiSet.emplace]
  | cons x xs ih =>
    rw [List.pairwise_cons] at hp
    unfold FlatMultiSet.emplace
    split
    · rename_i hlt
      rw [List.pairwise_cons]
      refine ⟨?_, List.pairwise_cons.2 hp⟩
      intro y hy
      rcases List.mem_cons.1 hy with rfl | hy
      · exact h2 _ (List.mem_cons_self _ _) hlt
      · exact h2 y (List.mem_cons_of_mem _ hy) (lt_of_lt_of_le hlt (hR _ _ (hp.1 y hy)))
    · rename_i hlt
      rw [List.pairwise_cons]
      refine ⟨?_, ih hp.2 (fun y hy => h1 y (List.mem_cons_of_mem _ hy))
        (fun y hy => h2 y (List.mem_cons_of_mem _ hy))⟩
      intro y hy
      rcases (mem_emplace e y xs).1 hy with rfl | hy
      · exact h1 x (List.mem_cons_self _ _) hlt
      · exact hp.1 y hy

theorem Timed.apply_inv {F : Type} [DecidableEq F] (t : Timed F) (op : SetOp F)
    (h : t.set.delegate.Pairwise t.Before ∧ ∀ e ∈ t.set.delegate, t.time e.del < t.clock) :
    (t.apply op).set.delegate.Pairwise (t.apply op).Before ∧
      ∀ e ∈ (t.apply op).set.delegate, (t.apply op).time e.del < (t.apply op).clock := by
  obtain ⟨hp, ht⟩ := h
  cases op with
  | remove del =>
    have hsub : ((t.set.remove del).1).delegate.Sublist t.set.delegate := by
      unfold DelegateFuncSet.remove
      split
      · exact DelegateFuncSet.eraseFirstDel_sublist _ _
      · exact List.Sublist.refl _
    refine ⟨hp.sublist hsub, ?_⟩
    intro e he
    exact Nat.lt_succ_of_lt (ht e (hsub.subset he))
  | add del priority =>
    cases hc : t.set.contains del with
    | true =>
      have hs : t.set.add del priority = (t.set, false) := by
        simp [DelegateFuncSet.add, hc]
      simp only [Timed.apply, hs]
      refine ⟨hp, ?_⟩
      intro e he
      exact Nat.lt_succ_of_lt (ht e he)
    | false =>
      have hs : t.set.add del priority =
          (⟨FlatMultiSet.emplace ⟨del, priority⟩ t.set.delegate⟩, true) := by
        simp [DelegateFuncSet.add, hc]
      have hne : ∀ e ∈ t.set.delegate, e.del ≠ del :=
        (DelegateFuncSet.contains_eq_false_iff _ _).1 hc
      simp only [Timed.apply, hs, if_true]
      constructor
      · apply emplace_pairwise
        · intro a b hab
          rcases hab with hab | hab
          · exact le_of_lt hab
          · exact le_of_eq hab.1
        · refine hp.imp_of_mem ?_
          intro a b ha hb hab
          unfold Timed.Before at hab ⊢
          simp only [Function.update_noteq (hne a ha), Function.update_noteq (hne b hb)]
          exact hab
        · intro x hx hlt
          unfold Timed.Before
          simp only [Function.update_noteq (hne x hx), Function.update_same]
          rcases lt_or_eq_of_le (not_lt.1 hlt) with h1 | h1
          · exact Or.inl h1
          · exact Or.inr ⟨h1, ht x hx⟩
        · intro x hx hlt
          exact Or.inl hlt
      · intro e he
        rcases (mem_emplace _ e _).1 he with rfl | he
        · simp
        · simp only [Function.update_noteq (hne e he)]
          exact Nat.lt_succ_of_lt (ht e he)

theorem Timed.build_inv {F : Type} [DecidableEq F] (ops : List (SetOp F)) :
    (Timed.build ops).set.delegate.Pairwise (Timed.build ops).Before ∧
      ∀ e ∈ (Timed.build ops).set.delegate,
        (Timed.build ops).time e.del < (Timed.build ops).clock := by
  unfold Timed.build
  generalize h0 : ({ set := DelegateFuncSet.empty, clock := 0, time := fun _ => 0 } : Timed F) = t0
  have hi : t0.set.delegate.Pairwise t0.Before ∧ ∀ e ∈ t0.set.delegate, t0.time e.del < t0.clock := by
    rw [← h0]
    simp [DelegateFuncSet.empty]
  clear h0
  induction ops generalizing t0 with
  | nil => exact hi
  | cons op ops ih => exact ih _ (Timed.apply_inv t0 op hi)

/-- C12: for every sequence of `add` and `remove` calls that builds a set from
the empty set, the entries of the set are in ascending priority order, with
entries of equal priority in the order in which they were added, and
`runAll` calls the callbacks in this order of the entries. -/
theorem runAll_order {σ F : Type} [DecidableEq F] (ops : List (SetOp F))
    (get : σ → DelegateFuncSet F) (put : DelegateFuncSet F → σ → σ)
    (exec : F → σ → σ × Bool) (s : σ) (hs : get s = (Timed.build ops).set) :
    (get s).delegate.Pairwise (fun a b => a.priority ≤ b.priority) ∧
    (get s).delegate.Pairwise (fun a b => a.priority < b.priority ∨
      (a.priority = b.priority ∧ (Timed.build ops).time a.del < (Timed.build ops).time b.del)) ∧
    (runAllLogged get put exec s).2.map (fun c => c.1) = (get s).delegate.map (fun d => d.del) := by
  have hi := (Timed.build_inv ops).1
  rw [hs, runAllLogged_eq]
  refine ⟨?_, hi, ?_⟩
  · refine hi.imp ?_
    intro a b hab
    rcases hab with hab | hab
    · exact le_of_lt hab
    · exact le_of_eq hab.1
  · rw [passLog_dels, hs]

/-- C12 at a concrete set: callbacks 1 and 3 are added with priority 5, callback
2 with priority 0 is added and removed, callback 4 is added last with priority
0; every callback returns true. The pass calls 4, then 1, then 3. -/
theorem runAll_order_witness :
    (Timed.build [SetOp.add (1 : Nat) 5, .add 2 0, .add 3 5, .remove 2, .add 4 0]).set =
      ⟨[⟨4, 0⟩, ⟨1, 5⟩, ⟨3, 5⟩]⟩ ∧
    (runAllLogged (fun (x : DelegateFuncSet Nat) => x) (fun d _ => d) (fun _ x => (x, true))
      (Timed.build [SetOp.add (1 : Nat) 5, .add 2 0, .add 3 5, .remove 2, .add 4 0]).set).2.map
        (fun c => c.1) = [4, 1, 3] :=
  ⟨by decide,
   (runAll_order [SetOp.add (1 : Nat) 5, .add 2 0, .add 3 5, .remove 2, .add 4 0]
      (fun (x : DelegateFuncSet Nat) => x) (fun d _ => d) (fun _ x => (x, true)) _ rfl).2.2.trans
      (by decide)⟩

end IG

/-! ## Theorems on the window -/

namespace Base

namespace WinWorld

theorem postDraw_win (v : WinWorld) :
    (postDraw v).win = { v.win with drawNeeded := v.win.hasSurface } := by
  unfold postDraw Window.setNeedsDraw
  cases hs : v.win.hasSurface <;> cases hn : v.win.notifyDrawAllowed <;> simp [hs, hn, call]

theorem updateSize_win (s : Point2D) (v : WinWorld) :
    (updateSize s v).1.win =
      { v.win with
        winSizePixels := s.swapIf (orientationIsSideways v.win.softOrientation_)
        surfaceChange :=
          if v.win.winSizePixels = s.swapIf (orientationIsSideways v.win.softOrientation_)
          then v.win.surfaceChange else v.win.surfaceChange.addSurfaceResized } := by
  unfold updateSize Point2D.swapIf
  dsimp only
  cases hs : orientationIsSideways v.win.softOrientation_ <;>
    simp only [hs, if_true, if_false, Bool.false_eq_true] <;>
    split <;> rfl

theorem updateSize_same (s : Point2D) (v : WinWorld)
    (h : s.swapIf (orientationIsSideways v.win.softOrientation_) = v.win.winSizePixels) :
    updateSize s v = (v, false) := by
  unfold updateSize
  unfold Point2D.swapIf at h
  dsimp only
  rw [h]
  simp

theorem updateSize_changed (s : Point2D) (v : WinWorld)
    (h : s.swapIf (orientationIsSideways v.win.softOrientation_) ≠ v.win.winSizePixels) :
    (updateSize s v).2 = true := by
  unfold updateSize
  unfold Point2D.swapIf at h
  dsimp only
  rw [if_neg (fun hh => h hh.symm)]

/-- C17: `updateSize(s)`, with `s'` the size `s` with its axes swapped when the
current orientation is sideways. When `s'` is the stored pixel size the call
returns false and changes nothing. Otherwise it returns true, the stored size
becomes `s'`, the surface-resized flag is pending while the other two
sub-flags are as before, and `realSize()` is `s`. -/
theorem updateSize_spec (s : Point2D) (v : WinWorld) :
    if s.swapIf (orientationIsSideways v.win.softOrientation_) = v.win.winSizePixels
    then updateSize s v = (v, false)
    else
      (updateSize s v).2 = true ∧
      (updateSize s v).1.win.winSizePixels =
        s.swapIf (orientationIsSideways v.win.softOrientation_) ∧
      (updateSize s v).1.win.surfaceChange.surfaceResized = true ∧
      (updateSize s v).1.win.surfaceChange.contentRectResized =
        v.win.surfaceChange.contentRectResized ∧
      (updateSize s v).1.win.surfaceChange.customViewportResized =
        v.win.surfaceChange.customViewportResized ∧
      (updateSize s v).1.win.realSize = s := by
  split
  · rename_i h
    exact updateSize_same s v h
  · rename_i h
    refine ⟨updateSize_changed s v h, ?_, ?_, ?_, ?_, ?_⟩
    · rw [updateSize_win]
    · rw [updateSize_win]
      dsimp only
      rw [if_neg (fun hh => h hh.symm)]
      rfl
    · rw [updateSize_win]
      dsimp only
      split <;> rfl
    · rw [updateSize_win]
      dsimp only
      split <;> rfl
    · rw [updateSize_win]
      cases hs : orientationIsSideways v.win.softOrientation_ <;>
        simp [Window.realSize, Window.realWidth, Window.realHeight, Window.softOrientation,
          Window.width, Window.height, Point2D.swapIf, hs]

/-- C17 at concrete windows: a window of 640 by 480 pixels is told its size
again, and is told the size 800 by 600. -/
theorem updateSize_spec_witness :
    updateSize { x := 640, y := 480 } (sampleWindow mask0) = (sampleWindow mask0, false) ∧
    (updateSize { x := 800, y := 600 } (sampleWindow mask0)).1.win.realSize
      = { x := 800, y := 600 } := by
  have h1 := updateSize_spec { x := 640, y := 480 } (sampleWindow mask0)
  have h2 := updateSize_spec { x := 800, y := 600 } (sampleWindow mask0)
  rw [if_pos (by decide)] at h1
  rw [if_neg (by decide)] at h2
  exact ⟨h1, h2.2.2.2.2.2⟩

theorem requestOrientationChange_rejected (o : Orientation) (v : WinWorld)
    (h : v.win.softOrientation_ = o ∨ v.win.validSoftOrientations_.has o = false) :
    requestOrientationChange o v =
      ({ v with win := { v.win with setSoftOrientation := o } }, false) := by
  unfold requestOrientationChange
  dsimp only
  rcases h with h | h
  · simp [h]
  · simp [h]

theorem requestOrientationChange_accepted (o : Orientation) (v : WinWorld)
    (hm : v.win.validSoftOrientations_.has o = true) (hne : v.win.softOrientation_ ≠ o) :
    (requestOrientationChange o v).2 = true ∧
    (requestOrientationChange o v).1.win =
      { v.win with
        setSoftOrientation := o
        softOrientation_ := o
        winSizePixels :=
          Point2D.swapIf (orientationIsSideways o) { x := v.win.realWidth, y := v.win.realHeight }
        surfaceChange :=
          if v.win.winSizePixels =
            Point2D.swapIf (orientationIsSideways o) { x := v.win.realWidth, y := v.win.realHeight }
          then v.win.surfaceChange else v.win.surfaceChange.addSurfaceResized
        drawNeeded := v.win.hasSurface } := by
  unfold requestOrientationChange
  dsimp only
  rw [if_pos (by simp [hm, hne])]
  refine ⟨rfl, ?_⟩
  have hcall : ∀ (c : WinCall) (x : WinWorld), (x.call c).win = x.win := fun _ _ => rfl
  rw [hcall]
  have hmain : ∀ (x : WinWorld),
      (if x.win.isMainWindow = true then x.call (.setSystemOrientation o) else x).win = x.win := by
    intro x
    split <;> rfl
  rw [hmain, postDraw_win, updateSize_win]
  rfl

end WinWorld

end Base

namespace Base

namespace WinWorld

/-- C14: an accepted `requestOrientationChange(o)` (`o` in the valid mask and not
the current orientation) returns true, makes `o` the orientation, leaves
`realWidth()` and `realHeight()` as they were, and swaps the logical pair
`(width(), height())` when exactly one of the old and the new orientation is
sideways, leaving it as it was otherwise. In every window
`(realWidth(), realHeight())` is `(height(), width())` when the orientation is
sideways and `(width(), height())` otherwise. -/
theorem requestOrientationChange_axes (o : Orientation) (v : WinWorld)
    (hm : v.win.validSoftOrientations_.has o = true) (hne : v.win.softOrientation_ ≠ o) :
    (requestOrientationChange o v).2 = true ∧
    (requestOrientationChange o v).1.win.softOrientation_ = o ∧
    (requestOrientationChange o v).1.win.realWidth = v.win.realWidth ∧
    (requestOrientationChange o v).1.win.realHeight = v.win.realHeight ∧
    ((requestOrientationChange o v).1.win.width, (requestOrientationChange o v).1.win.height) =
      (if orientationIsSideways v.win.softOrientation_ != orientationIsSideways o
        then (v.win.height, v.win.width) else (v.win.width, v.win.height)) ∧
    (∀ w : Window, (w.realWidth, w.realHeight) =
      if orientationIsSideways w.softOrientation then (w.height, w.width)
      else (w.width, w.height)) := by
  obtain ⟨h1, h2⟩ := requestOrientationChange_accepted o v hm hne
  refine ⟨h1, by rw [h2], ?_, ?_, ?_, ?_⟩
  · rw [h2]
    cases hs : orientationIsSideways o <;> cases ht : orientationIsSideways v.win.softOrientation_ <;>
      simp [Window.realWidth, Window.softOrientation, Window.width, Window.height,
        Point2D.swapIf, hs, ht]
  · rw [h2]
    cases hs : orientationIsSideways o <;> cases ht : orientationIsSideways v.win.softOrientation_ <;>
      simp [Window.realHeight, Window.softOrientation, Window.width, Window.height,
        Point2D.swapIf, hs, ht]
  · rw [h2]
    cases hs : orientationIsSideways o <;> cases ht : orientationIsSideways v.win.softOrientation_ <;>
      simp [Window.realWidth, Window.realHeight, Window.softOrientation, Window.width,
        Window.height, Point2D.swapIf, hs, ht]
  · intro w
    cases hs : orientationIsSideways w.softOrientation <;>
      simp [Window.realWidth, Window.realHeight, hs]

/-- C14 at a concrete window: a window of 640 by 480 pixels in orientation 0 is
turned to 90 degrees. -/
theorem requestOrientationChange_axes_witness :
    (sampleWindow mask0and90).win.validSoftOrientations_.has .VIEW_ROTATE_90 = true ∧
    ((requestOrientationChange .VIEW_ROTATE_90 (sampleWindow mask0and90)).1.win.width,
      (requestOrientationChange .VIEW_ROTATE_90 (sampleWindow mask0and90)).1.win.height) =
      (480, 640) ∧
    (requestOrientationChange .VIEW_ROTATE_90 (sampleWindow mask0and90)).1.win.realWidth = 640 :=
  ⟨by decide,
   (requestOrientationChange_axes .VIEW_ROTATE_90 (sampleWindow mask0and90) (by decide)
      (by decide)).2.2.2.2.1,
   (requestOrientationChange_axes .VIEW_ROTATE_90 (sampleWindow mask0and90) (by decide)
      (by decide)).2.2.1⟩

/-- C13, as amended: for a window with pixel size `(W, H)` in orientation 0 whose
valid mask contains 0 and 90 degrees, after `requestOrientationChange(90)` the
logical pair `(width(), height())` is `(H, W)` while
`(realWidth(), realHeight())` is still `(W, H)`; after a further
`requestOrientationChange(0)` both pairs are `(W, H)`. -/
theorem requestOrientationChange_swap (W H : Int) (v : WinWorld)
    (hsize : v.win.winSizePixels = { x := W, y := H })
    (ho : v.win.softOrientation_ = .VIEW_ROTATE_0)
    (h90 : v.win.validSoftOrientations_.has .VIEW_ROTATE_90 = true)
    (h0 : v.win.validSoftOrientations_.has .VIEW_ROTATE_0 = true) :
    ((requestOrientationChange .VIEW_ROTATE_90 v).1.win.width,
      (requestOrientationChange .VIEW_ROTATE_90 v).1.win.height) = (H, W) ∧
    ((requestOrientationChange .VIEW_ROTATE_90 v).1.win.realWidth,
      (requestOrientationChange .VIEW_ROTATE_90 v).1.win.realHeight) = (W, H) ∧
    ((requestOrientationChange .VIEW_ROTATE_0
        (requestOrientationChange .VIEW_ROTATE_90 v).1).1.win.width,
      (requestOrientationChange .VIEW_ROTATE_0
        (requestOrientationChange .VIEW_ROTATE_90 v).1).1.win.height) = (W, H) ∧
    ((requestOrientationChange .VIEW_ROTATE_0
        (requestOrientationChange .VIEW_ROTATE_90 v).1).1.win.realWidth,
      (requestOrientationChange .VIEW_ROTATE_0
        (requestOrientationChange .VIEW_ROTATE_90 v).1).1.win.realHeight) = (W, H) := by
  have a1 := (requestOrientationChange_accepted .VIEW_ROTATE_90 v h90 (by rw [ho]; decide)).2
  have hm : (requestOrientationChange .VIEW_ROTATE_90 v).1.win.validSoftOrientations_.has
      .VIEW_ROTATE_0 = true := by
    rw [a1]
    exact h0
  have hn : (requestOrientationChange .VIEW_ROTATE_90 v).1.win.softOrientation_ ≠
      .VIEW_ROTATE_0 := by
    rw [a1]
    simp
  have a2 := (requestOrientationChange_accepted .VIEW_ROTATE_0
    (requestOrientationChange .VIEW_ROTATE_90 v).1 hm hn).2
  refine ⟨?_, ?_, ?_, ?_⟩
  · rw [a1]
    simp [Window.width, Window.height, Window.realWidth, Window.realHeight,
      Window.softOrientation, Point2D.swapIf, orientationIsSideways, ho, hsize]
  · rw [a1]
    simp [Window.width, Window.height, Window.realWidth, Window.realHeight,
      Window.softOrientation, Point2D.swapIf, orientationIsSideways, ho, hsize]
  · rw [a2, a1]
    simp [Window.width, Window.height, Window.realWidth, Window.realHeight,
      Window.softOrientation, Point2D.swapIf, orientationIsSideways, ho, hsize]
  · rw [a2, a1]
    simp [Window.width, Window.height, Window.realWidth, Window.realHeight,
      Window.softOrientation, Point2D.swapIf, orientationIsSideways, ho, hsize]

/-- C13 as stated fails: a window of 640 by 480 pixels in orientation 0 is
turned to 90 degrees; `(realWidth(), realHeight())` is still `(640, 480)`, not
`(480, 640)`. -/
theorem requestOrientationChange_swap_counterexample :
    (sampleWindow mask0and90).win.winSizePixels = { x := 640, y := 480 } ∧
    ((requestOrientationChange .VIEW_ROTATE_90 (sampleWindow mask0and90)).1.win.realWidth,
      (requestOrientationChange .VIEW_ROTATE_90 (sampleWindow mask0and90)).1.win.realHeight) =
      (640, 480) ∧
    ((640 : Int), (480 : Int)) ≠ (480, 640) := by
  decide

/-- C13, as amended, at a concrete window of 640 by 480 pixels. -/
theorem requestOrientationChange_swap_witness :
    ((requestOrientationChange .VIEW_ROTATE_90 (sampleWindow mask0and90)).1.win.width,
      (requestOrientationChange .VIEW_ROTATE_90 (sampleWindow mask0and90)).1.win.height) =
      (480, 640) :=
  (requestOrientationChange_swap 640 480 (sampleWindow mask0and90) rfl rfl (by decide)
    (by decide)).1

/-- C15, as amended: `requestOrientationChange(o)` with `o` the current
orientation, or `o` not in the valid mask, returns false, makes no call and
leaves every field of the window as it was except the remembered requested
orientation, which becomes `o`. -/
theorem requestOrientationChange_noop (o : Orientation) (v : WinWorld)
    (h : v.win.softOrientation_ = o ∨ v.win.validSoftOrientations_.has o = false) :
    (requestOrientationChange o v).2 = false ∧
    (requestOrientationChange o v).1.calls = v.calls ∧
    (requestOrientationChange o v).1.win = { v.win with setSoftOrientation := o } ∧
    (requestOrientationChange o v).1.win.softOrientation_ = v.win.softOrientation_ ∧
    (requestOrientationChange o v).1.win.winSizePixels = v.win.winSizePixels ∧
    (requestOrientationChange o v).1.win.surfaceChange = v.win.surfaceChange ∧
    (requestOrientationChange o v).1.win.drawNeeded = v.win.drawNeeded ∧
    (requestOrientationChange o v).1.win.setSoftOrientation = o := by
  rw [requestOrientationChange_rejected o v h]
  exact ⟨rfl, rfl, rfl, rfl, rfl, rfl, rfl, rfl⟩

/-- C15 as stated fails: a request for 90 degrees that the mask does not allow
is rejected, yet the remembered requested orientation changes from 0 to 90,
and a later `setValidOrientations` with a mask of 0 and 90 degrees then turns
the window to 90 degrees, which it does not do without the rejected call. -/
theorem requestOrientationChange_noop_counterexample :
    (sampleWindow mask0).win.validSoftOrientations_.has .VIEW_ROTATE_90 = false ∧
    (requestOrientationChange .VIEW_ROTATE_90 (sampleWindow mask0)).2 = false ∧
    (sampleWindow mask0).win.setSoftOrientation = .VIEW_ROTATE_0 ∧
    (requestOrientationChange .VIEW_ROTATE_90 (sampleWindow mask0)).1.win.setSoftOrientation =
      .VIEW_ROTATE_90 ∧
    (setValidOrientations id mask0and90 (sampleWindow mask0)).map
      (fun r => r.1.win.softOrientation_) = some .VIEW_ROTATE_0 ∧
    (setValidOrientations id mask0and90
      (requestOrientationChange .VIEW_ROTATE_90 (sampleWindow mask0)).1).map
      (fun r => r.1.win.softOrientation_) = some .VIEW_ROTATE_90 := by
  decide

/-- C15, as amended, at a concrete window: 90 degrees is not in the mask. -/
theorem requestOrientationChange_noop_witness :
    (sampleWindow mask0).win.validSoftOrientations_.has .VIEW_ROTATE_90 = false ∧
    (requestOrientationChange .VIEW_ROTATE_90 (sampleWindow mask0)).2 = false :=
  ⟨by decide,
   (requestOrientationChange_noop .VIEW_ROTATE_90 (sampleWindow mask0) (Or.inr (by decide))).1⟩

theorem requestOrientationChange_orientation (o : Orientation) (v : WinWorld) :
    (requestOrientationChange o v).1.win.softOrientation_ =
      if v.win.validSoftOrientations_.has o then o else v.win.softOrientation_ := by
  by_cases hm : v.win.validSoftOrientations_.has o = true
  · by_cases hne : v.win.softOrientation_ = o
    · rw [requestOrientationChange_rejected o v (Or.inl hne)]
      simp [hm, hne]
    · rw [(requestOrientationChange_accepted o v hm hne).2]
      simp [hm]
  · rw [requestOrientationChange_rejected o v (Or.inr (by simpa using hm))]
    simp [hm]

/-- C16, as amended: `setValidOrientations(mask)`, with `m` the validated mask.
When `m` contains the remembered requested orientation, the window ends in
that orientation. Otherwise, when `m` does not contain the current
orientation, the window switches to the first orientation of the list 0, 90,
180, 270 that `m` contains (the code reaches `bug_unreachable` when there is
none). Otherwise the current orientation is kept. -/
theorem setValidOrientations_spec (validate : OrientationMask → OrientationMask)
    (oMask : OrientationMask) (v : WinWorld) :
    (setValidOrientations validate oMask v).map (fun r => r.1.win.softOrientation_) =
      if (validate oMask).has v.win.setSoftOrientation then some v.win.setSoftOrientation
      else if !(validate oMask).has v.win.softOrientation_ then (validate oMask).firstValid
      else some v.win.softOrientation_ := by
  unfold setValidOrientations
  dsimp only
  by_cases h1 : (validate oMask).has v.win.setSoftOrientation = true
  · simp [h1, requestOrientationChange_orientation]
  · simp only [h1, if_false, Bool.false_eq_true]
    by_cases h2 : (validate oMask).has v.win.softOrientation_ = true
    · simp [h2]
    · have h2f : (validate oMask).has v.win.softOrientation_ = false := by simpa using h2
      simp only [h2f, Bool.not_false, if_true]
      unfold OrientationMask.firstValid
      cases ha : (validate oMask).has .VIEW_ROTATE_0 <;>
        cases hb : (validate oMask).has .VIEW_ROTATE_90 <;>
        cases hc : (validate oMask).has .VIEW_ROTATE_180 <;>
        cases hd : (validate oMask).has .VIEW_ROTATE_270 <;>
        simp [List.find?, ha, hb, hc, hd, requestOrientationChange_orientation]

/-- C16 as stated fails. A window in orientation 0 that remembers a rejected
request for 270 degrees is given the mask of 90 and 270 degrees: it switches
to 270, not to 90, the first of the list in the mask. A window in orientation
0 that remembers a rejected request for 90 degrees is given the mask of 0 and
90 degrees: it switches to 90 although the mask contains its orientation. -/
theorem setValidOrientations_spec_counterexample :
    (requestOrientationChange .VIEW_ROTATE_270 (sampleWindow mask0)).1.win.softOrientation_ =
      .VIEW_ROTATE_0 ∧
    mask90and270.has .VIEW_ROTATE_0 = false ∧
    mask90and270.firstValid = some .VIEW_ROTATE_90 ∧
    (setValidOrientations id mask90and270
      (requestOrientationChange .VIEW_ROTATE_270 (sampleWindow mask0)).1).map
      (fun r => r.1.win.softOrientation_) = some .VIEW_ROTATE_270 ∧
    (requestOrientationChange .VIEW_ROTATE_90 (sampleWindow mask0)).1.win.softOrientation_ =
      .VIEW_ROTATE_0 ∧
    mask0and90.has .VIEW_ROTATE_0 = true ∧
    (setValidOrientations id mask0and90
      (requestOrientationChange .VIEW_ROTATE_90 (sampleWindow mask0)).1).map
      (fun r => r.1.win.softOrientation_) = some .VIEW_ROTATE_90 := by
  decide

end WinWorld

end Base

namespace Base

namespace WinWorld

theorem deferredDrawComplete_win (v : WinWorld) :
    (deferredDrawComplete v).win = { v.win with notifyDrawAllowed := true } := by
  unfold deferredDrawComplete
  dsimp only
  split <;> rfl

theorem handlerCalls_append (l1 l2 : List WinCall) :
    handlerCalls (l1 ++ l2) = handlerCalls l1 ++ handlerCalls l2 := by
  induction l1 with
  | nil => rfl
  | cons c cs ih => cases c <;> simp [handlerCalls, ih]

theorem flags_false (c : SurfaceChange) (h : c.flags = false) : c = SurfaceChange.none := by
  cases c
  simp [SurfaceChange.flags] at h
  simp [SurfaceChange.none, h]

theorem draw_calls (h : Handlers) (needsSync : Bool) (v : WinWorld) :
    handlerCalls ((draw h needsSync v).calls.drop v.calls.length) =
      (if v.win.surfaceChange.flags then
        [.onSurfaceChange { v.win with surfaceChange := SurfaceChange.none } v.win.surfaceChange,
         .onDraw { h.onSurfaceChange { v.win with surfaceChange := SurfaceChange.none }
              v.win.surfaceChange with notifyDrawAllowed := false }
            { needsSync_ := needsSync, wasResized_ := true }]
      else
        [.onDraw { v.win with notifyDrawAllowed := false }
          { needsSync_ := needsSync, wasResized_ := false }]) := by
  unfold draw
  dsimp only
  cases hf : v.win.surfaceChange.flags <;>
    simp only [hf, if_true, if_false, Bool.false_eq_true] <;>
    split <;>
    simp [deferredDrawComplete, dispatchSurfaceChange, call, handlerCalls, handlerCalls_append] <;>
    split <;> simp [handlerCalls, handlerCalls_append]

theorem draw_win (h : Handlers) (needsSync : Bool) (v : WinWorld) :
    (draw h needsSync v).win.drawNeeded =
      (h.onDraw { (if v.win.surfaceChange.flags then
          h.onSurfaceChange { v.win with surfaceChange := SurfaceChange.none } v.win.surfaceChange
          else v.win) with notifyDrawAllowed := false }
        { needsSync_ := needsSync, wasResized_ := v.win.surfaceChange.flags }).1.drawNeeded ∧
    (draw h needsSync v).win.surfaceChange =
      (h.onDraw { (if v.win.surfaceChange.flags then
          h.onSurfaceChange { v.win with surfaceChange := SurfaceChange.none } v.win.surfaceChange
          else v.win) with notifyDrawAllowed := false }
        { needsSync_ := needsSync, wasResized_ := v.win.surfaceChange.flags }).1.surfaceChange := by
  unfold draw
  dsimp only
  cases hf : v.win.surfaceChange.flags <;>
    simp only [hf, if_true, if_false, Bool.false_eq_true] <;>
    split <;> simp [deferredDrawComplete_win, dispatchSurfaceChange, call]

/-- C18: `dispatchOnDraw`. When the draw-needed flag is clear nothing happens:
no handler is called and the window is unchanged. When it is set, the flag
is cleared before any handler runs. If a surface-change sub-flag is pending,
the surface-change handler is called exactly once, with all the pending
sub-flags and on a window whose pending set is already empty, and then the
draw handler is called with `wasResized` true; if none is pending only the
draw handler is called, with `wasResized` false. After the dispatch the
draw-needed flag is clear and no sub-flag is pending, unless a handler has
set them itself. -/
theorem dispatchOnDraw_spec (h : Handlers) (needsSync : Bool) (v : WinWorld) :
    if v.win.drawNeeded then
      handlerCalls ((dispatchOnDraw h needsSync v).calls.drop v.calls.length) =
        (if v.win.surfaceChange.flags then
          [.onSurfaceChange { v.win with drawNeeded := false, surfaceChange := SurfaceChange.none }
              v.win.surfaceChange,
           .onDraw { h.onSurfaceChange
                { v.win with drawNeeded := false, surfaceChange := SurfaceChange.none }
                v.win.surfaceChange with notifyDrawAllowed := false }
              { needsSync_ := needsSync, wasResized_ := true }]
        else
          [.onDraw { v.win with drawNeeded := false, notifyDrawAllowed := false }
            { needsSync_ := needsSync, wasResized_ := false }]) ∧
      ((∀ w c, (h.onSurfaceChange w c).drawNeeded = w.drawNeeded ∧
          (h.onSurfaceChange w c).surfaceChange = w.surfaceChange) →
        (∀ w p, (h.onDraw w p).1.drawNeeded = w.drawNeeded ∧
          (h.onDraw w p).1.surfaceChange = w.surfaceChange) →
        (dispatchOnDraw h needsSync v).win.drawNeeded = false ∧
        (dispatchOnDraw h needsSync v).win.surfaceChange = SurfaceChange.none)
    else dispatchOnDraw h needsSync v = v := by
  cases hd : v.win.drawNeeded with
  | false => simp [dispatchOnDraw, Window.needsDraw, hd]
  | true =>
    simp only [if_true]
    have he : dispatchOnDraw h needsSync v =
        draw h needsSync { v with win := { v.win with drawNeeded := false } } := by
      simp [dispatchOnDraw, Window.needsDraw, hd]
    rw [he]
    constructor
    · exact draw_calls h needsSync { v with win := { v.win with drawNeeded := false } }
    · intro hs hdraw
      obtain ⟨h1, h2⟩ := draw_win h needsSync { v with win := { v.win with drawNeeded := false } }
      rw [h1, h2, (hdraw _ _).1, (hdraw _ _).2]
      dsimp only
      cases hf : v.win.surfaceChange.flags
      · simp only [Bool.false_eq_true, if_false]
        exact ⟨trivial, flags_false _ hf⟩
      · simp only [if_true, (hs _ _).1, (hs _ _).2]
        exact ⟨trivial, trivial⟩

/-- C18 at a concrete window: a window turned to 90 degrees needs a draw and has
the surface-resized flag pending; the handlers leave the window alone. -/
theorem dispatchOnDraw_spec_witness :
    (requestOrientationChange .VIEW_ROTATE_90 (sampleWindow mask0and90)).1.win.drawNeeded = true ∧
    (dispatchOnDraw quietHandlers false
      (requestOrientationChange .VIEW_ROTATE_90 (sampleWindow mask0and90)).1).win.drawNeeded
        = false ∧
    (dispatchOnDraw quietHandlers false
      (requestOrientationChange .VIEW_ROTATE_90 (sampleWindow mask0and90)).1).win.surfaceChange
        = SurfaceChange.none := by
  have h := dispatchOnDraw_spec quietHandlers false
    (requestOrientationChange .VIEW_ROTATE_90 (sampleWindow mask0and90)).1
  rw [if_pos (by decide)] at h
  exact ⟨by decide, h.2 (fun _ _ => ⟨rfl, rfl⟩) (fun _ _ => ⟨rfl, rfl⟩)⟩

end WinWorld

end Base

/-! ## Theorems on the drawable holder -/

namespace Gfx

namespace GfxWorld

theorem removeOnExit_onResumeSet (del : Option LifecycleHook) (w : GfxWorld) :
    (removeOnExit del w).onResumeSet = w.onResumeSet := by
  cases del <;> rfl

theorem destroyDrawable_onResumeSet (w : GfxWorld) :
    (destroyDrawable w).onResumeSet = w.onResumeSet := by
  unfold destroyDrawable
  cases w.drawable_ with
  | none => rfl
  | some d =>
    dsimp only
    rw [show ∀ (x : GfxWorld), ({ x with eventAttached := false, eventPending := false } :
      GfxWorld).onResumeSet = x.onResumeSet from fun _ => rfl]
    rw [removeOnExit_onResumeSet, removeOnExit_onResumeSet]
    rfl

theorem destroyDrawable_unbound (w : GfxWorld) : (destroyDrawable w).drawable_ = none := by
  unfold destroyDrawable
  cases h : w.drawable_ with
  | none => exact h
  | some d =>
    dsimp only
    cases w.onResume <;> cases w.onExit <;> rfl

theorem makeDrawable_fields (d : DrawableId) (b : Bool) (w : GfxWorld) :
    (makeDrawable (some d) b w).drawable_ = some d ∧
    (makeDrawable (some d) b w).onResume = some (.drawableOnResume d) ∧
    (makeDrawable (some d) b w).onExit = some (.drawableOnExit (makeDrawable (some d) b w).self) ∧
    (makeDrawable (some d) b w).onResumeSet =
      ((destroyDrawable w).onResumeSet.add (.drawableOnResume d) (destroyDrawable w).resumePriority).1 ∧
    (makeDrawable (some d) b w).onExitSet =
      ((destroyDrawable w).onExitSet.add (.drawableOnExit (destroyDrawable w).self)
        (destroyDrawable w).exitPriority).1 ∧
    (makeDrawable (some d) b w).self = (destroyDrawable w).self := by
  unfold makeDrawable
  cases b <;> exact ⟨rfl, rfl, rfl, rfl, rfl, rfl⟩

/-- C19, the code at the failing input: after a successful `makeDrawable`
followed by `destroyDrawable` the holder is unbound, but the on-resume hook of
the holder is still in the process-wide on-resume registry, because
`destroyDrawable` passes `onResume` to `Base::removeOnExit` and never touches
the on-resume registry. -/
theorem destroyDrawable_keeps_onResume (d : DrawableId) (b : Bool) (w : GfxWorld) :
    (destroyDrawable (makeDrawable (some d) b w)).drawable_ = none ∧
    (destroyDrawable (makeDrawable (some d) b w)).onResumeSet.contains (.drawableOnResume d)
      = true ∧
    (∀ x : GfxWorld, (destroyDrawable x).onResumeSet = x.onResumeSet) := by
  refine ⟨destroyDrawable_unbound _, ?_, destroyDrawable_onResumeSet⟩
  rw [destroyDrawable_onResumeSet, (makeDrawable_fields d b w).2.2.2.1]
  exact IG.DelegateFuncSet.contains_add_self _ _ _

/-- C19 at a concrete holder: drawable 7 is made and destroyed; the on-exit
registry is empty again, the on-resume registry still holds the hook. -/
theorem sampleHolder_destroyed :
    (destroyDrawable (makeDrawable (some 7) true sampleHolder)).onExitSet.delegate = [] ∧
    (destroyDrawable (makeDrawable (some 7) true sampleHolder)).onResumeSet.delegate =
      [⟨.drawableOnResume 7, -10⟩] ∧
    destroyDrawable sampleHolder = sampleHolder := by
  refine ⟨by decide, by decide, rfl⟩

/-- C20: after a successful `makeDrawable` of drawable `d` and a request for a
frame-completion notification, the on-exit hook of the holder run with
`backgrounded` true returns true, leaves the handle bound to `d`, frees the
caches of `d` and cancels the pending notification, so that the event loop
dispatches no frame callback; the on-resume hook run afterwards restores the
caches of `d` and leaves the handle bound; the on-exit hook run with
`backgrounded` false destroys `d` instead. Both hooks are registered by
`makeDrawable`. -/
theorem drawable_hooks (d : DrawableId) (b focused : Bool) (w m : GfxWorld)
    (hm : m = notifyOnFrame (makeDrawable (some d) b w)) :
    m.drawable_ = some d ∧
    m.onResumeSet.contains (.drawableOnResume d) = true ∧
    m.onExitSet.contains (.drawableOnExit m.self) = true ∧
    (invokeHook (.drawableOnExit m.self) true m).2 = true ∧
    (invokeHook (.drawableOnExit m.self) true m).1.drawable_ = some d ∧
    (invokeHook (.drawableOnExit m.self) true m).1.caches d = false ∧
    (invokeHook (.drawableOnExit m.self) true m).1.eventPending = false ∧
    (invokeHook (.drawableOnExit m.self) true m).1.calls = m.calls ++ [.freeCaches d] ∧
    (fireDrawFinished (invokeHook (.drawableOnExit m.self) true m).1) =
      (invokeHook (.drawableOnExit m.self) true m).1 ∧
    (invokeHook (.drawableOnResume d) focused
      (invokeHook (.drawableOnExit m.self) true m).1).1.caches d = true ∧
    (invokeHook (.drawableOnResume d) focused
      (invokeHook (.drawableOnExit m.self) true m).1).1.drawable_ = some d ∧
    (invokeHook (.drawableOnExit m.self) false m).1.alive d = false ∧
    (invokeHook (.drawableOnExit m.self) false m).1.calls = m.calls ++ [.destroy d] := by
  obtain ⟨f1, f2, f3, f4, f5, f6⟩ := makeDrawable_fields d b w
  have hself : m.self = (destroyDrawable w).self := by
    rw [hm, ← f6]
    unfold notifyOnFrame
    split <;> rfl
  have hd : m.drawable_ = some d := by
    rw [hm]
    unfold notifyOnFrame
    split
    · exact f1
    · exact f1
  have hr : m.onResumeSet = (makeDrawable (some d) b w).onResumeSet := by
    rw [hm]
    unfold notifyOnFrame
    split <;> rfl
  have he : m.onExitSet = (makeDrawable (some d) b w).onExitSet := by
    rw [hm]
    unfold notifyOnFrame
    split <;> rfl
  refine ⟨hd, ?_, ?_, ?_⟩
  · rw [hr, f4]
    exact IG.DelegateFuncSet.contains_add_self _ _ _
  · rw [he, f5, hself]
    exact IG.DelegateFuncSet.contains_add_self _ _ _
  · simp [invokeHook, runOnExit, runOnResume, hd, call, fireDrawFinished]

/-- C20 at a concrete holder: drawable 7, one frame callback registered. -/
theorem drawable_hooks_witness :
    (notifyOnFrame (makeDrawable (some 7) true sampleHolder)).eventPending = true ∧
    (invokeHook (.drawableOnExit 0) true
      (notifyOnFrame (makeDrawable (some 7) true sampleHolder))).1.eventPending = false ∧
    (invokeHook (.drawableOnExit 0) true
      (notifyOnFrame (makeDrawable (some 7) true sampleHolder))).1.drawable_ = some 7 :=
  ⟨by decide,
   (drawable_hooks 7 true true sampleHolder
      (notifyOnFrame (makeDrawable (some 7) true sampleHolder)) rfl).2.2.2.2.2.2.1,
   (drawable_hooks 7 true true sampleHolder
      (notifyOnFrame (makeDrawable (some 7) true sampleHolder)) rfl).2.2.2.2.1⟩

end GfxWorld

end Gfx

/-! ## Theorems on the frame count of a tick -/

namespace EmuViewController

/-- C26: in a tick that finds no frame in progress, if the emulated system
reports 0 advanced frames then `runFrame` is not called and the
frame-in-progress flag stays false. Otherwise `runFrame` is called exactly
once, with the frame count `min(n', 8)`, where `n'` is the value of
`currentFrameInterval()` (as stored in the unsigned 32-bit field) when
skip-late-frames is disabled and the tick is not fast-forwarding, and the
reported advanced count otherwise; the count is at most 8, and the flag is
true afterwards. -/
theorem onFrameUpdate_frameCount (env : FrameEnv) (w : World)
    (hp : w.st.emuVideoInProgress = false) :
    if env.advanced = 0 then
      runFrameCounts (newCalls w (onFrameUpdate env w).1) = [] ∧
      (onFrameUpdate env w).1.st.emuVideoInProgress = false
    else
      runFrameCounts (newCalls w (onFrameUpdate env w).1) =
        [min (if !w.st.options.optionSkipLateFrames &&
              !(env.shouldFastForward || decide (w.st.targetFastForwardSpeed > 1))
            then env.currentFrameInterval % 2 ^ 32 else env.advanced) 8] ∧
      (env.currentFrameInterval < 2 ^ 32 →
        runFrameCounts (newCalls w (onFrameUpdate env w).1) =
          [min (if !w.st.options.optionSkipLateFrames &&
                !(env.shouldFastForward || decide (w.st.targetFastForwardSpeed > 1))
              then env.currentFrameInterval else env.advanced) 8]) ∧
      (∀ n ∈ runFrameCounts (newCalls w (onFrameUpdate env w).1), n ≤ 8) ∧
      (onFrameUpdate env w).1.st.emuVideoInProgress = true := by
  split
  · rename_i ha
    rw [onFrameUpdate_idle env w hp ha, newCalls_append]
    refine ⟨?_, hp⟩
    by_cases h : useRendererTime w.st = true <;> simp [runFrameCounts, h]
  · rename_i ha
    rw [onFrameUpdate_run env w hp ha, newCalls_append]
    refine ⟨by simp [runFrameCounts], ?_, ?_, rfl⟩
    · intro hc
      rw [Nat.mod_eq_of_lt hc]
      simp [runFrameCounts]
    · intro n hn
      simp only [runFrameCounts, List.mem_singleton] at hn
      rw [hn]
      exact Nat.min_le_right _ _

/-- C26 at concrete ticks: with skip-late-frames disabled and a base interval
of 1, a tick reporting 10 advanced frames requests 1 frame; a fast-forwarding
tick reporting 10 requests 8; a tick reporting 0 requests none. -/
theorem onFrameUpdate_frameCount_witness :
    runFrameCounts (newCalls (sampleInstalled false)
      (onFrameUpdate (sampleEnv 10) (sampleInstalled false)).1) = [1] ∧
    runFrameCounts (newCalls (sampleInstalled false)
      (onFrameUpdate { sampleEnv 10 with shouldFastForward := true }
        (sampleInstalled false)).1) = [8] ∧
    runFrameCounts (newCalls (sampleInstalled false)
      (onFrameUpdate (sampleEnv 0) (sampleInstalled false)).1) = [] := by
  have h1 := onFrameUpdate_frameCount (sampleEnv 10) (sampleInstalled false) (by decide)
  have h2 := onFrameUpdate_frameCount { sampleEnv 10 with shouldFastForward := true }
    (sampleInstalled false) (by decide)
  have h3 := onFrameUpdate_frameCount (sampleEnv 0) (sampleInstalled false) (by decide)
  exact ⟨by decide, by decide, by simpa [sampleEnv] using h3.1⟩

end EmuViewController

/-! ## Theorems on the settling delay -/

namespace EmuViewController

theorem dispatchOnFrame_single (src : FrameSource) (env : FrameEnv) (a : World)
    (e : IG.DelegateEntry OnFrameDelegate) (h : (a.st.onFrame src).delegate = [e]) :
    dispatchOnFrame src env a =
      IG.runAllStep (fun (x : World) => x.st.onFrame src)
        (fun d (x : World) => x.modify (setOnFrame src d)) (invoke env) a e := by
  unfold dispatchOnFrame
  rw [IG.runAll_eq_foldl]
  simp only [h]
  rfl

theorem tickLog_single (src : FrameSource) (env : FrameEnv) (a : World)
    (e : IG.DelegateEntry OnFrameDelegate) (h : (a.st.onFrame src).delegate = [e]) :
    tickLog src env a = [(e.del, (invoke env e.del a).2)] := by
  unfold tickLog
  rw [IG.runAllLogged_eq]
  simp only [h]
  rfl

theorem holds_addOnFrameDelegate {src : FrameSource} {t0 : List Call} {a : World}
    (old new : OnFrameDelegate) (hne : old ≠ new) (h : Holds src t0 old a) :
    emuFrameSource (addOnFrameDelegate new a).st = src ∧
    ((addOnFrameDelegate new a).st.onFrame src).delegate = [⟨old, 0⟩, ⟨new, 0⟩] ∧
    ∃ l, (addOnFrameDelegate new a).trace = t0 ++ l ∧ ∀ c ∈ l, advancesEmulation c = false := by
  obtain ⟨h1, h2, l, h3, h4⟩ := h
  refine ⟨by rw [emuFrameSource_addOnFrameDelegate, h1], ?_, ?_⟩
  · rw [onFrame_addOnFrameDelegate, h1, Function.update_same]
    have hc : (a.st.onFrame src).contains new = false := by
      rw [IG.DelegateFuncSet.contains_eq_false_iff, h2]
      intro e he
      rw [List.mem_singleton.1 he]
      exact hne
    simp [IG.DelegateFuncSet.add, hc, h2, IG.FlatMultiSet.emplace]
  · rw [trace_addOnFrameDelegate, h3]
    refine ⟨l ++ (if useRendererTime a.st then [.windowPostDraw a.st.emuViewWin] else []),
      by simp, ?_⟩
    intro c hc
    rcases List.mem_append.1 hc with hc | hc
    · exact h4 c hc
    · split at hc
      · rw [List.mem_singleton.1 hc]
        rfl
      · simp at hc

theorem holds_wrapper_step {src : FrameSource} {t0 : List Call} {a : World}
    (old new : OnFrameDelegate) (hne : old ≠ new) (h : Holds src t0 old a) (b : Bool) :
    Holds src t0 new
      (IG.runAllStep (fun (x : World) => x.st.onFrame src)
        (fun d (x : World) => x.modify (setOnFrame src d))
        (fun _ x => ((if b then postDrawToEmuWindows (addOnFrameDelegate new x)
          else addOnFrameDelegate new x), false)) a ⟨old, 0⟩) := by
  obtain ⟨h1, h2, l, h3, h4⟩ := holds_addOnFrameDelegate old new hne h
  unfold IG.runAllStep
  dsimp only
  simp only [Bool.false_eq_true, if_false]
  cases b with
  | false =>
    simp only [Bool.false_eq_true, if_false]
    refine ⟨h1, ?_, l, h3, h4⟩
    simp [setOnFrame, h2, IG.DelegateFuncSet.eraseFirst, IG.DelegateFuncSet.eraseFirstDel]
  | true =>
    simp only [if_true]
    refine ⟨h1, ?_, l ++ [.windowPostDraw (addOnFrameDelegate new a).st.emuViewWin],
      by simp [h3], ?_⟩
    · simp [setOnFrame, h2, IG.DelegateFuncSet.eraseFirst, IG.DelegateFuncSet.eraseFirstDel]
    · intro c hc
      rcases List.mem_append.1 hc with hc | hc
      · exact h4 c hc
      · rw [List.mem_singleton.1 hc]
        rfl

theorem useRendererTime_addOnFrameDelegate (del : OnFrameDelegate) (w : World) :
    useRendererTime (addOnFrameDelegate del w).st = useRendererTime w.st := by
  unfold addOnFrameDelegate
  split <;> rfl

theorem holds_tick_delayed {src : FrameSource} {t0 : List Call} {a : World} (n : Nat)
    (env : FrameEnv) (hn : n < 256) (h : Holds src t0 (.onFrameDelayed (n + 1)) a) :
    Holds src t0 (.onFrameDelayed n) (dispatchOnFrame src env a) := by
  rw [dispatchOnFrame_single src env a _ h.2.1]
  have hs := holds_wrapper_step (.onFrameDelayed (n + 1)) (.onFrameDelayed n) (by simp) h
    (useRendererTime a.st)
  have he : IG.runAllStep (fun (x : World) => x.st.onFrame src)
      (fun d (x : World) => x.modify (setOnFrame src d)) (invoke env) a
        ⟨.onFrameDelayed (n + 1), 0⟩ =
      IG.runAllStep (fun (x : World) => x.st.onFrame src)
        (fun d (x : World) => x.modify (setOnFrame src d))
        (fun _ x => ((if useRendererTime a.st then
            postDrawToEmuWindows (addOnFrameDelegate (.onFrameDelayed n) x)
          else addOnFrameDelegate (.onFrameDelayed n) x), false)) a
        ⟨.onFrameDelayed (n + 1), 0⟩ := by
    unfold IG.runAllStep
    simp only [invoke, onFrameDelayed, Nat.add_sub_cancel, Nat.mod_eq_of_lt hn]
    simp only [ne_eq, Nat.add_one_ne_zero, not_false_eq_true, if_true]
    rw [useRendererTime_addOnFrameDelegate]
  rw [he]
  exact hs

theorem holds_tick_last {src : FrameSource} {t0 : List Call} {a : World}
    (env : FrameEnv) (hact : env.emuSystemIsActive = true)
    (h : Holds src t0 (.onFrameDelayed 0) a) :
    Holds src t0 .onFrameUpdate (dispatchOnFrame src env a) := by
  rw [dispatchOnFrame_single src env a _ h.2.1]
  have hs := holds_wrapper_step (.onFrameDelayed 0) .onFrameUpdate (by simp) h
    (useRendererTime a.st)
  have he : IG.runAllStep (fun (x : World) => x.st.onFrame src)
      (fun d (x : World) => x.modify (setOnFrame src d)) (invoke env) a
        ⟨.onFrameDelayed 0, 0⟩ =
      IG.runAllStep (fun (x : World) => x.st.onFrame src)
        (fun d (x : World) => x.modify (setOnFrame src d))
        (fun _ x => ((if useRendererTime a.st then
            postDrawToEmuWindows (addOnFrameDelegate .onFrameUpdate x)
          else addOnFrameDelegate .onFrameUpdate x), false)) a
        ⟨.onFrameDelayed 0, 0⟩ := by
    unfold IG.runAllStep
    simp only [invoke, onFrameDelayed, hact]
    simp only [ne_eq, not_true_eq_false, if_false, if_true]
    rw [useRendererTime_addOnFrameDelegate]
  rw [he]
  exact hs

theorem holds_run_delayed {src : FrameSource} {t0 : List Call} (envs : List FrameEnv)
    (a : World) (n : Nat) (hn : n < 256) (hl : envs.length ≤ n)
    (h : Holds src t0 (.onFrameDelayed n) a) :
    Holds src t0 (.onFrameDelayed (n - envs.length))
      (run a (envs.map (fun env => Op.frameTick src env))) := by
  induction envs generalizing a n with
  | nil => exact h
  | cons env envs ih =>
    simp only [run, List.map_cons, List.foldl_cons, step]
    simp only [List.length_cons] at hl ⊢
    obtain ⟨m, rfl⟩ : ∃ m, n = m + 1 := ⟨n - 1, by omega⟩
    have h1 := holds_tick_delayed m env (by omega) h
    have h2 := ih _ m (by omega) (by omega) h1
    have he : m + 1 - (envs.length + 1) = m - envs.length := by omega
    rw [he]
    exact h2

theorem holds_run_installed {src : FrameSource} {t0 : List Call} (envs : List FrameEnv)
    (hact : ∀ env ∈ envs, env.emuSystemIsActive = true)
    (a : World) (n : Nat) (hn : n < 256) (hl : envs.length = n + 1)
    (h : Holds src t0 (.onFrameDelayed n) a) :
    Holds src t0 .onFrameUpdate (run a (envs.map (fun env => Op.frameTick src env))) := by
  induction envs generalizing a n with
  | nil => simp at hl
  | cons env envs ih =>
    simp only [run, List.map_cons, List.foldl_cons, step]
    simp only [List.length_cons] at hl
    cases n with
    | zero =>
      have hnil : envs = [] := List.eq_nil_of_length_eq_zero (by omega)
      subst hnil
      exact holds_tick_last env (hact env (List.mem_cons_self _ _)) h
    | succ m =>
      have h1 := holds_tick_delayed m env (by omega) h
      exact ih (fun e he => hact e (List.mem_cons_of_mem _ he)) _ m (by omega) (by omega) h1

theorem holds_addOnFrameDelayed (w : World)
    (hempty : (w.st.onFrame (emuFrameSource w.st)).delegate = []) :
    Holds (emuFrameSource w.st) w.trace
      (.onFrameDelayed (w.st.settleDelay (emuWindowScreen w.st) % 256)) (addOnFrameDelayed w) := by
  unfold addOnFrameDelayed
  refine ⟨emuFrameSource_addOnFrameDelegate _ _, ?_, ?_⟩
  · rw [onFrame_addOnFrameDelegate, Function.update_same]
    simp [IG.DelegateFuncSet.add, IG.DelegateFuncSet.contains, hempty, IG.FlatMultiSet.emplace]
  · rw [trace_addOnFrameDelegate]
    refine ⟨_, rfl, ?_⟩
    intro c hc
    split at hc
    · rw [List.mem_singleton.1 hc]
      rfl
    · simp at hc

theorem holds_newCalls {src : FrameSource} {del : OnFrameDelegate} {w a : World}
    (h : Holds src w.trace del a) : ∀ c ∈ newCalls w a, advancesEmulation c = false := by
  obtain ⟨_, _, l, h3, h4⟩ := h
  unfold newCalls
  rw [h3, List.drop_left]
  exact h4

/-- C27, as amended: the frame source of the emulation window holds no callback
when it is armed by `addOnFrameDelayed`, with the delay `d` (the refresh rate
divided by 4, as an unsigned 8-bit value); the emulated system is active in
every tick.
After `k` ticks, for every `k ≤ d`, the source holds exactly the wrapper with
`d - k` ticks left, a further tick runs that wrapper and nothing else, the
wrapper returns false, and no call made so far advances emulation. After
`d + 1` ticks the source holds exactly `onFrameUpdate`, still no call has
advanced emulation, and the next tick, tick `d + 2`, runs `onFrameUpdate`. -/
theorem settle_chain (w : World) (envs : List FrameEnv) (env : FrameEnv)
    (hempty : (w.st.onFrame (emuFrameSource w.st)).delegate = [])
    (hact : ∀ e ∈ envs, e.emuSystemIsActive = true) :
    (envs.length ≤ w.st.settleDelay (emuWindowScreen w.st) % 256 →
      ((run (addOnFrameDelayed w)
        (envs.map (fun e => Op.frameTick (emuFrameSource w.st) e))).st.onFrame
          (emuFrameSource w.st)).delegate =
        [⟨.onFrameDelayed (w.st.settleDelay (emuWindowScreen w.st) % 256 - envs.length), 0⟩] ∧
      tickLog (emuFrameSource w.st) env (run (addOnFrameDelayed w)
        (envs.map (fun e => Op.frameTick (emuFrameSource w.st) e))) =
        [(.onFrameDelayed (w.st.settleDelay (emuWindowScreen w.st) % 256 - envs.length), false)] ∧
      ∀ c ∈ newCalls w (run (addOnFrameDelayed w)
        (envs.map (fun e => Op.frameTick (emuFrameSource w.st) e))),
        advancesEmulation c = false) ∧
    (envs.length = w.st.settleDelay (emuWindowScreen w.st) % 256 + 1 →
      ((run (addOnFrameDelayed w)
        (envs.map (fun e => Op.frameTick (emuFrameSource w.st) e))).st.onFrame
          (emuFrameSource w.st)).delegate = [⟨.onFrameUpdate, 0⟩] ∧
      tickLog (emuFrameSource w.st) env (run (addOnFrameDelayed w)
        (envs.map (fun e => Op.frameTick (emuFrameSource w.st) e))) =
        [(.onFrameUpdate, true)] ∧
      ∀ c ∈ newCalls w (run (addOnFrameDelayed w)
        (envs.map (fun e => Op.frameTick (emuFrameSource w.st) e))),
        advancesEmulation c = false) := by
  have h0 := holds_addOnFrameDelayed w hempty
  have hd : w.st.settleDelay (emuWindowScreen w.st) % 256 < 256 := Nat.mod_lt _ (by decide)
  constructor
  · intro hl
    have h := holds_run_delayed envs _ _ hd hl h0
    refine ⟨h.2.1, ?_, holds_newCalls h⟩
    rw [tickLog_single _ env _ _ h.2.1]
    rfl
  · intro hl
    have h := holds_run_installed envs hact _ _ hd hl h0
    refine ⟨h.2.1, ?_, holds_newCalls h⟩
    rw [tickLog_single _ env _ _ h.2.1]
    simp only [invoke]
    by_cases hp : (run (addOnFrameDelayed w)
        (envs.map (fun e => Op.frameTick (emuFrameSource w.st) e))).st.emuVideoInProgress = true
    · rw [onFrameUpdate_busy env _ hp]
    · have hp2 : (run (addOnFrameDelayed w)
          (envs.map (fun e => Op.frameTick (emuFrameSource w.st) e))).st.emuVideoInProgress =
            false := by simpa using hp
      by_cases ha : env.advanced = 0
      · rw [onFrameUpdate_idle env _ hp2 ha]
      · rw [onFrameUpdate_run env _ hp2 ha]

end EmuViewController

namespace EmuViewController

/-- C27, as amended, at a concrete controller: the sample controller has a
settling delay of 15. Armed on the empty frame source of screen 0, after 3 ticks the next tick
runs the wrapper with 12 ticks left, which returns false; after 16 ticks the
source holds `onFrameUpdate` alone and tick 17 runs it. -/
theorem settle_chain_witness :
    (sampleInit false).st.settleDelay (emuWindowScreen (sampleInit false).st) % 256 = 15 ∧
    emuFrameSource (sampleInit false).st = .screen 0 ∧
    tickLog (.screen 0) (sampleEnv 1) (run (addOnFrameDelayed (sampleInit false))
      ((List.replicate 3 (sampleEnv 0)).map (fun e => Op.frameTick (.screen 0) e))) =
      [(.onFrameDelayed 12, false)] ∧
    ((run (addOnFrameDelayed (sampleInit false))
      ((List.replicate 16 (sampleEnv 0)).map (fun e => Op.frameTick (.screen 0) e))).st.onFrame
        (.screen 0)).delegate = [⟨.onFrameUpdate, 0⟩] ∧
    tickLog (.screen 0) (sampleEnv 1) (run (addOnFrameDelayed (sampleInit false))
      ((List.replicate 16 (sampleEnv 0)).map (fun e => Op.frameTick (.screen 0) e))) =
      [(.onFrameUpdate, true)] := by
  have h1 := (settle_chain (sampleInit false) (List.replicate 3 (sampleEnv 0)) (sampleEnv 1)
    (by decide) (by decide)).1 (by decide)
  have h2 := (settle_chain (sampleInit false) (List.replicate 16 (sampleEnv 0)) (sampleEnv 1)
    (by decide) (by decide)).2 (by decide)
  exact ⟨by decide, by decide, h1.2.1, h2.1, h2.2.1⟩

/-- C27 as stated fails when the frame source is armed while it still holds a
wrapper. The sample controller (delay 15) is paused after one tick of the
settling delay and started again: the source of screen 0 then holds the
wrappers with 14 and with 15 ticks left. Every tick runs two wrappers, not
one; after 15 ticks the source holds `onFrameUpdate`, and tick 16, which is
tick `d + 1`, runs it and issues a `runFrame`. -/
theorem settle_chain_counterexample :
    samplePaused.st.settleDelay (emuWindowScreen samplePaused.st) % 256 = 15 ∧
    emuFrameSource samplePaused.st = .screen 0 ∧
    (samplePaused.st.onFrame (.screen 0)).delegate = [⟨.onFrameDelayed 14, 0⟩] ∧
    ((startEmulation samplePaused).st.onFrame (.screen 0)).delegate =
      ((addOnFrameDelayed samplePaused).st.onFrame (.screen 0)).delegate ∧
    ((sampleRearmed 0).st.onFrame (.screen 0)).delegate =
      [⟨.onFrameDelayed 14, 0⟩, ⟨.onFrameDelayed 15, 0⟩] ∧
    tickLog (.screen 0) (sampleEnv 1) (sampleRearmed 0) =
      [(.onFrameDelayed 14, false), (.onFrameDelayed 15, false)] ∧
    tickLog (.screen 0) (sampleEnv 1) (sampleRearmed 15) =
      [(.onFrameUpdate, true), (.onFrameDelayed 0, false)] ∧
    runFrameCounts (newCalls (sampleRearmed 15)
      (dispatchOnFrame (.screen 0) (sampleEnv 1) (sampleRearmed 15))) = [1] := by
  refine ⟨by decide, by decide, by decide, by decide, by decide, by decide, ?_, ?_⟩
  · set_option maxRecDepth 20000 in decide
  · set_option maxRecDepth 20000 in decide

end EmuViewController

/-! ## Theorems on the entries of a delegate set -/

namespace IG

theorem DelegateFuncSet.apply_unique {F : Type} [DecidableEq F] (s : DelegateFuncSet F)
    (op : SetOp F) (h : s.Unique) : (s.apply op).Unique := by
  cases op with
  | add del priority => exact DelegateFuncSet.add_unique s del priority h
  | remove del => exact DelegateFuncSet.remove_unique s del h

theorem execCalls_unique {F : Type} [DecidableEq F]
    (cb : F → DelegateFuncSet F → List (SetOp F) × Bool) (d : F) (s : DelegateFuncSet F)
    (h : s.Unique) : (execCalls cb d s).1.Unique := by
  unfold execCalls
  dsimp only
  generalize (cb d s).1 = ops
  induction ops generalizing s with
  | nil => exact h
  | cons op ops ih =>
    rw [List.foldl_cons]
    exact ih _ (DelegateFuncSet.apply_unique s op h)

theorem foldl_runAllStep_unique {σ F : Type} [DecidableEq F] (get : σ → DelegateFuncSet F)
    (put : DelegateFuncSet F → σ → σ) (exec : F → σ → σ × Bool)
    (hgp : ∀ d a, get (put d a) = d)
    (hU : ∀ d a, (get a).Unique → (get (exec d a).1).Unique)
    (ds : List (DelegateEntry F)) (a : σ) (h : (get a).Unique) :
    (get (ds.foldl (runAllStep get put exec) a)).Unique := by
  induction ds generalizing a with
  | nil => exact h
  | cons d ds ih =>
    rw [List.foldl_cons]
    exact ih _ (runAllStep_unique get put exec hgp a d (hU d.del a) h)

theorem built_unique {F : Type} [DecidableEq F] (s : DelegateFuncSet F) (h : Built s) :
    s.Unique := by
  induction h with
  | empty => exact DelegateFuncSet.empty_unique
  | add s del priority _ ih => exact DelegateFuncSet.add_unique s del priority ih
  | remove s del _ ih => exact DelegateFuncSet.remove_unique s del ih
  | runAll s cb _ ih =>
    rw [runAll_eq_foldl]
    exact foldl_runAllStep_unique (fun x => x) (fun d _ => d) (execCalls cb) (fun _ _ => rfl)
      (fun d a ha => execCalls_unique cb d a ha) _ s ih

/-- C29: a delegate set never holds two entries with the same callback. This
holds for the empty set and is kept by every `add`, every `remove` and every
`runAll` pass, also a pass whose callbacks add to or remove from the set. So
for every set `s` reached in this way: a `remove(del)` that returns true
leaves `contains(del)` false, and `remove(del)` of a callback that is absent
returns false and leaves the set unchanged. -/
theorem DelegateFuncSet.unique_entries {F : Type} [DecidableEq F] (s : DelegateFuncSet F)
    (h : Built s) :
    s.Unique ∧
    (∀ del priority, (s.add del priority).1.Unique) ∧
    (∀ del, (s.remove del).1.Unique) ∧
    (∀ cb, (runAll (fun x => x) (fun d _ => d) (execCalls cb) s).Unique) ∧
    (∀ del, (s.remove del).2 = true → (s.remove del).1.contains del = false) ∧
    (∀ del, s.contains del = false → s.remove del = (s, false)) := by
  have hu := built_unique s h
  refine ⟨hu, ?_, ?_, ?_, ?_, ?_⟩
  · intro del priority
    exact DelegateFuncSet.add_unique s del priority hu
  · intro del
    exact DelegateFuncSet.remove_unique s del hu
  · intro cb
    exact built_unique _ (Built.runAll s cb h)
  · intro del _
    exact DelegateFuncSet.contains_remove_self s del hu
  · intro del hc
    simp [DelegateFuncSet.remove, hc]

/-- C29 at a concrete set: the pass `samplePass`, in which the first callback
adds a callback that is present and one that is not, ends with the callbacks 2
and 4, each once; removing 2 succeeds and leaves it absent, removing the
absent 3 is refused. -/
theorem DelegateFuncSet.unique_entries_witness :
    samplePass = ⟨[⟨2, 0⟩, ⟨4, 0⟩]⟩ ∧ samplePass.Unique ∧
    (samplePass.remove 2).2 = true ∧ (samplePass.remove 2).1.contains 2 = false ∧
    samplePass.remove 3 = (samplePass, false) := by
  have h := DelegateFuncSet.unique_entries samplePass
    (Built.runAll _ _ (Built.add _ 3 0 (Built.add _ 2 0 (Built.add _ 1 0 Built.empty))))
  exact ⟨by decide, h.1, by decide, h.2.2.2.2.1 2 (by decide), h.2.2.2.2.2 3 (by decide)⟩

end IG

/-! ## Theorems on the valid orientations of a window -/

namespace Base

namespace WinWorld

theorem requestOrientationChange_mask (o : Orientation) (v : WinWorld) :
    (requestOrientationChange o v).1.win.validSoftOrientations_ =
      v.win.validSoftOrientations_ := by
  by_cases hm : v.win.validSoftOrientations_.has o = true
  · by_cases hne : v.win.softOrientation_ = o
    · rw [requestOrientationChange_rejected o v (Or.inl hne)]
    · rw [(requestOrientationChange_accepted o v hm hne).2]
  · rw [requestOrientationChange_rejected o v (Or.inr (by simpa using hm))]

theorem requestOrientationChange_member (o : Orientation) (v : WinWorld)
    (h : v.win.validSoftOrientations_.has o = true ∨
      v.win.validSoftOrientations_.has v.win.softOrientation_ = true) :
    (requestOrientationChange o v).1.win.validSoftOrientations_.has
      (requestOrientationChange o v).1.win.softOrientation_ = true := by
  rw [requestOrientationChange_mask, requestOrientationChange_orientation]
  by_cases hm : v.win.validSoftOrientations_.has o = true
  · simp [hm]
  · rcases h with h | h
    · exact absurd h hm
    · simp [hm, h]

/-- C30: for every window and every mask whose validated form `m` contains at
least one of the four orientations, `setValidOrientations(mask)` returns, the
stored valid mask is `m` afterwards, and the current soft orientation is a
member of it. For every window whose current orientation is a member of its
valid mask and every argument `o`, `requestOrientationChange(o)` leaves the
mask as it is and the current orientation a member of it, and changes the
current orientation only to `o`, and only when `o` is a member of the mask. -/
theorem orientation_member (validate : OrientationMask → OrientationMask)
    (oMask : OrientationMask) (v u : WinWorld) (o : Orientation)
    (hm : (validate oMask).firstValid ≠ none)
    (hu : u.win.validSoftOrientations_.has u.win.softOrientation_ = true) :
    (∃ r, setValidOrientations validate oMask v = some r ∧
      r.1.win.validSoftOrientations_ = validate oMask ∧
      r.1.win.validSoftOrientations_.has r.1.win.softOrientation_ = true) ∧
    (requestOrientationChange o u).1.win.validSoftOrientations_ = u.win.validSoftOrientations_ ∧
    (requestOrientationChange o u).1.win.validSoftOrientations_.has
      (requestOrientationChange o u).1.win.softOrientation_ = true ∧
    ((requestOrientationChange o u).1.win.softOrientation_ ≠ u.win.softOrientation_ →
      (requestOrientationChange o u).1.win.softOrientation_ = o ∧
      u.win.validSoftOrientations_.has o = true) := by
  refine ⟨?_, requestOrientationChange_mask o u,
    requestOrientationChange_member o u (Or.inr hu), ?_⟩
  · unfold setValidOrientations
    dsimp only
    by_cases h1 : (validate oMask).has v.win.setSoftOrientation = true
    · rw [if_pos h1]
      exact ⟨_, rfl, requestOrientationChange_mask _ _,
        requestOrientationChange_member _ _ (Or.inl h1)⟩
    · rw [if_neg h1]
      by_cases h2 : (validate oMask).has v.win.softOrientation_ = true
      · rw [if_neg (by simp [h2])]
        exact ⟨_, rfl, rfl, h2⟩
      · rw [if_pos (by simpa using h2)]
        by_cases ha : (validate oMask).has .VIEW_ROTATE_0 = true
        · rw [if_pos ha]
          exact ⟨_, rfl, requestOrientationChange_mask _ _,
            requestOrientationChange_member _ _ (Or.inl ha)⟩
        · rw [if_neg ha]
          by_cases hb : (validate oMask).has .VIEW_ROTATE_90 = true
          · rw [if_pos hb]
            exact ⟨_, rfl, requestOrientationChange_mask _ _,
              requestOrientationChange_member _ _ (Or.inl hb)⟩
          · rw [if_neg hb]
            by_cases hc : (validate oMask).has .VIEW_ROTATE_180 = true
            · rw [if_pos hc]
              exact ⟨_, rfl, requestOrientationChange_mask _ _,
                requestOrientationChange_member _ _ (Or.inl hc)⟩
            · rw [if_neg hc]
              by_cases hd : (validate oMask).has .VIEW_ROTATE_270 = true
              · rw [if_pos hd]
                exact ⟨_, rfl, requestOrientationChange_mask _ _,
                  requestOrientationChange_member _ _ (Or.inl hd)⟩
              · exfalso
                apply hm
                unfold OrientationMask.firstValid
                rw [List.find?_eq_none]
                intro x hx
                cases x <;> assumption
  · intro hne
    rw [requestOrientationChange_orientation] at hne ⊢
    by_cases hmo : u.win.validSoftOrientations_.has o = true
    · simp [hmo]
    · simp [hmo] at hne

/-- C30 at a concrete window: a window in orientation 0 is given the mask of 90
and 270 degrees and ends in 90 degrees, a member of the mask; a window in
orientation 0 with the mask of 0 and 90 degrees is asked for 180 degrees and
stays in orientation 0. -/
theorem orientation_member_witness :
    (setValidOrientations id mask90and270 (sampleWindow mask0)).map
      (fun r => (r.1.win.validSoftOrientations_, r.1.win.softOrientation_)) =
      some (mask90and270, .VIEW_ROTATE_90) ∧
    (requestOrientationChange .VIEW_ROTATE_180 (sampleWindow mask0and90)).1.win.softOrientation_ =
      .VIEW_ROTATE_0 ∧
    (requestOrientationChange .VIEW_ROTATE_180
      (sampleWindow mask0and90)).1.win.validSoftOrientations_.has
      (requestOrientationChange .VIEW_ROTATE_180
        (sampleWindow mask0and90)).1.win.softOrientation_ = true := by
  have h := orientation_member id mask90and270 (sampleWindow mask0) (sampleWindow mask0and90)
    .VIEW_ROTATE_180 (by decide) (by decide)
  exact ⟨by decide, by decide, h.2.2.1⟩

end WinWorld

end Base

/-! ## Theorems on the recent-games list -/

theorem eraseFirstPath_sublist (p : String) (l : List RecentGameInfo) :
    (eraseFirstPath p l).Sublist l := by
  induction l with
  | nil => simp [eraseFirstPath]
  | cons x xs ih =>
    unfold eraseFirstPath
    split
    · exact List.sublist_cons_self _ _
    · exact List.Sublist.cons₂ x ih

theorem eraseFirstPath_absent (p : String) (l : List RecentGameInfo)
    (h : ∀ e ∈ l, e.path ≠ p) : eraseFirstPath p l = l := by
  induction l with
  | nil => rfl
  | cons x xs ih =>
    unfold eraseFirstPath
    rw [if_neg (h x (List.mem_cons_self _ _)), ih (fun e he => h e (List.mem_cons_of_mem _ he))]

theorem eraseFirstPath_length (p : String) (l : List RecentGameInfo)
    (h : ∃ e ∈ l, e.path = p) : (eraseFirstPath p l).length + 1 = l.length := by
  induction l with
  | nil => simp at h
  | cons x xs ih =>
    unfold eraseFirstPath
    split
    · simp
    · rename_i hx
      obtain ⟨e, he, hp⟩ := h
      rcases List.mem_cons.1 he with rfl | he
      · exact absurd hp hx
      · simp [ih ⟨e, he, hp⟩]

theorem eraseFirstPath_not_mem (p : String) (l : List RecentGameInfo)
    (h : (l.map (fun e => e.path)).Nodup) : ∀ e ∈ eraseFirstPath p l, e.path ≠ p := by
  induction l with
  | nil => simp [eraseFirstPath]
  | cons x xs ih =>
    rw [List.map_cons, List.nodup_cons] at h
    unfold eraseFirstPath
    split
    · rename_i hx
      intro e he hd
      apply h.1
      rw [hx, ← hd]
      exact List.mem_map_of_mem _ he
    · rename_i hx
      intro e he
      rcases List.mem_cons.1 he with rfl | he
      · exact hx
      · exact ih h.2 e he

theorem addRecentGame_eq (capacity : Nat) (p name : String) (l : List RecentGameInfo)
    (hp : p ≠ "") :
    addRecentGame capacity p name l =
      ⟨p, name⟩ :: (if (eraseFirstPath p l).length = capacity then (eraseFirstPath p l).dropLast
        else eraseFirstPath p l) := by
  unfold addRecentGame
  have hl : p.length ≠ 0 := by
    intro h
    apply hp
    exact String.ext (List.eq_nil_of_length_eq_zero h)
  rw [if_neg hl]

/-- C24: for every recent-games list `l` that holds at most one entry per path
and at most `capacity` entries, and every non-empty path `p`: after
`addRecentGame(p, name)` the first entry is `(p, name)`, exactly one entry has
the path `p`, the list still holds at most one entry per path, the entries
behind the first are entries of `l` in their order in `l`, and the size is at
most the capacity. The last entry of `l` is evicted exactly when `l` was
full and `p` was not in it; otherwise the entries behind the first are those
of `l` without the entry of path `p`. A second call with the same path gives
the list of the first call, and so does a call with another name but for the
name of the first entry. An empty path leaves the list unchanged. -/
theorem addRecentGame_spec (capacity : Nat) (p name : String) (l : List RecentGameInfo)
    (hcap : 0 < capacity) (hlen : l.length ≤ capacity)
    (hu : (l.map (fun e => e.path)).Nodup) (hp : p ≠ "") :
    (addRecentGame capacity p name l).head? = some ⟨p, name⟩ ∧
    ((addRecentGame capacity p name l).map (fun e => e.path)).count p = 1 ∧
    ((addRecentGame capacity p name l).map (fun e => e.path)).Nodup ∧
    (addRecentGame capacity p name l).tail.Sublist l ∧
    (addRecentGame capacity p name l).length ≤ capacity ∧
    (addRecentGame capacity p name l).tail =
      (if l.length = capacity ∧ ∀ e ∈ l, e.path ≠ p then l.dropLast else eraseFirstPath p l) ∧
    addRecentGame capacity p name (addRecentGame capacity p name l) =
      addRecentGame capacity p name l ∧
    (∀ other, addRecentGame capacity p other (addRecentGame capacity p name l) =
      addRecentGame capacity p other l) ∧
    (∀ n, addRecentGame capacity "" n l = l) := by
  have htail : (addRecentGame capacity p name l).tail =
      (if l.length = capacity ∧ ∀ e ∈ l, e.path ≠ p then l.dropLast else eraseFirstPath p l) := by
    rw [addRecentGame_eq capacity p name l hp, List.tail_cons]
    by_cases hin : ∃ e ∈ l, e.path = p
    · have h1 := eraseFirstPath_length p l hin
      rw [if_neg (by omega), if_neg]
      rintro ⟨_, h2⟩
      obtain ⟨e, he, hpe⟩ := hin
      exact h2 e he hpe
    · have hall : ∀ e ∈ l, e.path ≠ p := fun e he hpe => hin ⟨e, he, hpe⟩
      rw [eraseFirstPath_absent p l hall]
      by_cases hfull : l.length = capacity
      · rw [if_pos hfull, if_pos ⟨hfull, hall⟩]
      · rw [if_neg hfull, if_neg (fun h => hfull h.1)]
  have hrest : ∀ nm, addRecentGame capacity p nm l =
      ⟨p, nm⟩ :: (addRecentGame capacity p name l).tail := by
    intro nm
    rw [addRecentGame_eq capacity p nm l hp, addRecentGame_eq capacity p name l hp, List.tail_cons]
  have hsub : (addRecentGame capacity p name l).tail.Sublist (eraseFirstPath p l) := by
    rw [addRecentGame_eq capacity p name l hp, List.tail_cons]
    split
    · exact List.dropLast_sublist _
    · exact List.Sublist.refl _
  have hno : ∀ e ∈ (addRecentGame capacity p name l).tail, e.path ≠ p :=
    fun e he => eraseFirstPath_not_mem p l hu e (hsub.subset he)
  have hnd : ((addRecentGame capacity p name l).map (fun e => e.path)).Nodup := by
    rw [hrest name, List.map_cons, List.nodup_cons]
    constructor
    · intro hm
      rcases List.mem_map.1 hm with ⟨e, he, hpe⟩
      exact hno e he hpe
    · exact List.Nodup.sublist ((hsub.trans (eraseFirstPath_sublist p l)).map _) hu
  have hlen2 : (addRecentGame capacity p name l).tail.length + 1 ≤ capacity := by
    rw [htail]
    split
    · rename_i h
      rw [List.length_dropLast]
      omega
    · rename_i h
      by_cases hin : ∃ e ∈ l, e.path = p
      · have h1 := eraseFirstPath_length p l hin
        omega
      · have hall : ∀ e ∈ l, e.path ≠ p := fun e he hpe => hin ⟨e, he, hpe⟩
        rw [eraseFirstPath_absent p l hall]
        have : l.length ≠ capacity := fun hh => h ⟨hh, hall⟩
        omega
  have hagain : ∀ nm other, addRecentGame capacity p other (addRecentGame capacity p nm l) =
      addRecentGame capacity p other l := by
    intro nm other
    rw [addRecentGame_eq capacity p other _ hp, hrest nm, hrest other]
    have he : eraseFirstPath p (⟨p, nm⟩ :: (addRecentGame capacity p name l).tail) =
        (addRecentGame capacity p name l).tail := by
      simp [eraseFirstPath]
    rw [he, if_neg (by omega)]
  refine ⟨?_, ?_, hnd, hsub.trans (eraseFirstPath_sublist p l), ?_, htail, hagain name name,
    fun other => hagain name other, ?_⟩
  · rw [hrest name]
    rfl
  · apply List.count_eq_one_of_mem hnd
    rw [hrest name]
    simp
  · rw [hrest name, List.length_cons]
    exact hlen2
  · intro n
    rfl

/-- C24 at concrete lists, with a capacity of 3: adding the path of the last
of three games moves it to the front and evicts nothing; adding a new path to
the full list evicts the last game; the second call changes nothing. -/
theorem addRecentGame_spec_witness :
    addRecentGame 3 "/roms/c.nes" "C" sampleRecent =
      [⟨"/roms/c.nes", "C"⟩, ⟨"/roms/a.nes", "A"⟩, ⟨"/roms/b.nes", "B"⟩] ∧
    addRecentGame 3 "/roms/d.nes" "D" sampleRecent =
      [⟨"/roms/d.nes", "D"⟩, ⟨"/roms/a.nes", "A"⟩, ⟨"/roms/b.nes", "B"⟩] ∧
    addRecentGame 3 "/roms/d.nes" "D" (addRecentGame 3 "/roms/d.nes" "D" sampleRecent) =
      addRecentGame 3 "/roms/d.nes" "D" sampleRecent := by
  have h := addRecentGame_spec 3 "/roms/d.nes" "D" sampleRecent (by decide) (by decide)
    (by decide) (by decide)
  exact ⟨by decide, by decide, h.2.2.2.2.2.2.1⟩

/-! ## Theorems on the threading mode of the renderer -/

namespace Gfx

/-- C21: the threading mode `configureRenderer` derives. The result is
`MULTI` exactly when sync fences are supported, the override file is absent,
and the request is `MULTI`, or is `AUTO` while it is not the case that the
build is for Android, the SDK level is below 26 and immutable buffer storage
is missing; otherwise it is `SINGLE`. So it is a function of the request, the
fence support, the SDK level, the buffer storage support and the presence of
the file. Without fence support the result is `SINGLE` for every request, and
a result `MULTI` implies `supportsThreadMode()`. -/
theorem Renderer.configureRenderer_threadMode (cfg : BuildConfig) (env : GLEnv)
    (mode : ThreadMode) (r : Renderer) :
    ((r.configureRenderer cfg env mode).threadMode =
      if r.support.hasSyncFences cfg = true ∧ env.overrideFileExists = false ∧
          (mode = .MULTI ∨ (mode = .AUTO ∧
            ¬(cfg.android = true ∧ env.androidSDK < 26 ∧
              r.support.hasImmutableBufferStorage cfg = false)))
        then .MULTI else .SINGLE) ∧
    (r.support.hasSyncFences cfg = false →
      (r.configureRenderer cfg env mode).threadMode = .SINGLE) ∧
    ((r.configureRenderer cfg env mode).threadMode = .MULTI →
      (r.configureRenderer cfg env mode).supportsThreadMode cfg = true) ∧
    (r.configureRenderer cfg env mode).isConfigured = true := by
  have hs : (r.configureRenderer cfg env mode).supportsThreadMode cfg =
      r.support.hasSyncFences cfg := rfl
  have h1 : (r.configureRenderer cfg env mode).threadMode =
      if r.support.hasSyncFences cfg = true ∧ env.overrideFileExists = false ∧
          (mode = .MULTI ∨ (mode = .AUTO ∧
            ¬(cfg.android = true ∧ env.androidSDK < 26 ∧
              r.support.hasImmutableBufferStorage cfg = false)))
        then .MULTI else .SINGLE := by
    unfold Renderer.configureRenderer Renderer.threadMode
    cases hf : r.support.hasSyncFences cfg <;> cases ho : env.overrideFileExists <;>
      cases hb : r.support.hasImmutableBufferStorage cfg <;> cases ha : cfg.android <;>
      cases mode <;> by_cases hk : env.androidSDK < 26 <;> simp [hk]
  refine ⟨h1, ?_, ?_, rfl⟩
  · intro hf
    rw [h1, if_neg]
    rw [hf]
    simp
  · intro hm
    rw [hs]
    rw [h1] at hm
    by_contra hc
    rw [if_neg (fun h => hc h.1)] at hm
    cases hm

end Gfx

/-! ## Theorems on the extension probes -/

namespace Gfx

theorem keeps_refl (cfg : BuildConfig) (env : GLEnv) (a : DrawContextSupport) :
    Keeps cfg env a a :=
  ⟨id, id, id, id, id, id, id, id, id, id, id, id, id, Or.inl, rfl, fun _ => rfl,
    fun _ => ⟨rfl, rfl, rfl, rfl⟩, fun _ => rfl, fun _ => rfl, fun _ => rfl⟩

theorem hasSyncFences_of_keeps {cfg : BuildConfig} {a b : DrawContextSupport}
    (hflag : a.hasFenceSync = true → b.hasFenceSync = true)
    (hptr : a.hasSyncFences cfg = true → b.glFenceSync = a.glFenceSync)
    (h : a.hasSyncFences cfg = true) : b.hasSyncFences cfg = true := by
  have hp := hptr h
  unfold DrawContextSupport.hasSyncFences at h ⊢
  cases he : cfg.openglES
  · rw [he] at h
    simpa using hflag (by simpa using h)
  · rw [he] at h
    simp only [if_true] at h ⊢
    rw [hp]
    exact h

theorem hasImmutableBufferStorage_of_keeps {cfg : BuildConfig} {a b : DrawContextSupport}
    (hflag : a.hasBufferStorage = true → b.hasBufferStorage = true)
    (hptr : a.hasImmutableBufferStorage cfg = true → b.glBufferStorage = a.glBufferStorage)
    (h : a.hasImmutableBufferStorage cfg = true) : b.hasImmutableBufferStorage cfg = true := by
  have hp := hptr h
  unfold DrawContextSupport.hasImmutableBufferStorage at h ⊢
  cases he : cfg.openglES
  · rw [he] at h
    simpa using hflag (by simpa using h)
  · rw [he] at h
    simp only [if_true] at h ⊢
    rw [hp]
    exact h

theorem keeps_trans {cfg : BuildConfig} {env : GLEnv} {a b c : DrawContextSupport}
    (hab : Keeps cfg env a b) (hbc : Keeps cfg env b c) : Keeps cfg env a c := by
  obtain ⟨a1, a2, a3, a4, a5, a6, a7, a8, a9, a10, a11, a12, a13, a14, a15, a16, a17, a18, a19,
    a20⟩ := hab
  obtain ⟨b1, b2, b3, b4, b5, b6, b7, b8, b9, b10, b11, b12, b13, b14, b15, b16, b17, b18, b19,
    b20⟩ := hbc
  refine ⟨fun h => b1 (a1 h), fun h => b2 (a2 h), fun h => b3 (a3 h), fun h => b4 (a4 h),
    fun h => b5 (a5 h), fun h => b6 (a6 h), fun h => b7 (a7 h), fun h => b8 (a8 h),
    fun h => b9 (a9 h), fun h => b10 (a10 h), fun h => b11 (a11 h), fun h => b12 (a12 h),
    fun h => b13 (a13 h), fun h => (a14 h).elim b14 Or.inr, b15.trans a15,
    fun h => (b16 (a6 h)).trans (a16 h), ?_, ?_, ?_, ?_⟩
  · intro h
    have hb := b17 (hasSyncFences_of_keeps a7 (fun x => (a17 x).1) h)
    have ha := a17 h
    exact ⟨hb.1.trans ha.1, hb.2.1.trans ha.2.1, hb.2.2.1.trans ha.2.2.1,
      hb.2.2.2.trans ha.2.2.2⟩
  · intro h
    have ha := a18 h
    exact (b18 (by rw [ha]; exact h)).trans ha
  · intro h
    have ha := a19 h
    exact (b19 (by rw [ha]; exact h)).trans ha
  · intro h
    exact (b20 (hasImmutableBufferStorage_of_keeps a11 a20 h)).trans (a20 h)

theorem keeps_of_flags (cfg : BuildConfig) (env : GLEnv) (a b : DrawContextSupport)
    (h1 : a.nonPow2 = true → b.nonPow2 = true)
    (h2 : a.nonPow2CanMipmap = true → b.nonPow2CanMipmap = true)
    (h3 : a.nonPow2CanRepeat = true → b.nonPow2CanRepeat = true)
    (h4 : a.hasUnpackRowLength = true → b.hasUnpackRowLength = true)
    (h5 : a.hasBGRPixels = true → b.hasBGRPixels = true)
    (h8 : a.hasEGLImages = true → b.hasEGLImages = true)
    (h9 : a.hasExternalEGLImages = true → b.hasExternalEGLImages = true)
    (h10 : a.hasPBOFuncs = true → b.hasPBOFuncs = true)
    (h12 : a.hasMultisample = true → b.hasMultisample = true)
    (h13 : a.hasMultisampleHints = true → b.hasMultisampleHints = true)
    (h14 : a.hasDebugOutput = true →
      b.hasDebugOutput = true ∨ (cfg.android = true ∧ env.androidSDK < 23))
    (hrest : b = { a with
      nonPow2 := b.nonPow2, nonPow2CanMipmap := b.nonPow2CanMipmap
      nonPow2CanRepeat := b.nonPow2CanRepeat, hasUnpackRowLength := b.hasUnpackRowLength
      hasBGRPixels := b.hasBGRPixels, hasEGLImages := b.hasEGLImages
      hasExternalEGLImages := b.hasExternalEGLImages, hasPBOFuncs := b.hasPBOFuncs
      hasMultisample := b.hasMultisample, hasMultisampleHints := b.hasMultisampleHints
      hasDebugOutput := b.hasDebugOutput, bgrInternalFormat := b.bgrInternalFormat
      generateMipmaps := b.generateMipmaps
      glEGLImageTargetTexStorageEXT := b.glEGLImageTargetTexStorageEXT
      maximumAnisotropy := b.maximumAnisotropy }) :
    Keeps cfg env a b := by
  have e6 : b.hasImmutableTexStorage = a.hasImmutableTexStorage := by rw [hrest]
  have e7 : b.hasFenceSync = a.hasFenceSync := by rw [hrest]
  have e11 : b.hasBufferStorage = a.hasBufferStorage := by rw [hrest]
  have e15 : b.isConfigured = a.isConfigured := by rw [hrest]
  have e16 : b.glTexStorage2D = a.glTexStorage2D := by rw [hrest]
  have e17 : b.glFenceSync = a.glFenceSync := by rw [hrest]
  have e18 : b.glDeleteSync = a.glDeleteSync := by rw [hrest]
  have e19 : b.glClientWaitSync = a.glClientWaitSync := by rw [hrest]
  have e20 : b.glWaitSync = a.glWaitSync := by rw [hrest]
  have e21 : b.glMapBufferRange = a.glMapBufferRange := by rw [hrest]
  have e22 : b.glUnmapBuffer = a.glUnmapBuffer := by rw [hrest]
  have e23 : b.glBufferStorage = a.glBufferStorage := by rw [hrest]
  exact ⟨h1, h2, h3, h4, h5, fun h => e6.trans h, fun h => e7.trans h, h8, h9, h10,
    fun h => e11.trans h, h12, h13, h14, e15, fun _ => e16, fun _ => ⟨e17, e18, e19, e20⟩,
    fun _ => e21, fun _ => e22, fun _ => e23⟩

theorem setupUnmapBufferFunc_keeps (cfg : BuildConfig) (env : GLEnv) (a : DrawContextSupport) :
    Keeps cfg env a (GLRenderer.setupUnmapBufferFunc cfg env a) := by
  unfold GLRenderer.setupUnmapBufferFunc
  split
  · split
    · rename_i h
      split <;>
        simp_all [Keeps, DrawContextSupport.hasSyncFences,
          DrawContextSupport.hasImmutableBufferStorage]
    · exact keeps_refl cfg env a
  · exact keeps_refl cfg env a

theorem mapBufferRange_keeps (cfg : BuildConfig) (env : GLEnv) (name : String)
    (a : DrawContextSupport) :
    Keeps cfg env a (if (!a.glMapBufferRange.isSome) = true then
      { a with glMapBufferRange := env.procAddress name } else a) := by
  split
  · rename_i h
    simp_all [Keeps, DrawContextSupport.hasSyncFences,
      DrawContextSupport.hasImmutableBufferStorage]
  · exact keeps_refl cfg env a

theorem setupFBOFuncs_keeps (cfg : BuildConfig) (env : GLEnv) (a : DrawContextSupport) :
    Keeps cfg env a (GLRenderer.setupFBOFuncs cfg a).1 := by
  unfold GLRenderer.setupFBOFuncs
  split
  · exact keeps_of_flags cfg env _ _ id id id id id id id id id id Or.inl rfl
  · split
    · exact keeps_of_flags cfg env _ _ id id id id id id id id id id Or.inl rfl
    · exact keeps_refl cfg env a

theorem setupFenceSync_keeps (cfg : BuildConfig) (env : GLEnv) (a : DrawContextSupport) :
    Keeps cfg env a (GLRenderer.setupFenceSync cfg env a) := by
  unfold GLRenderer.setupFenceSync
  split
  · exact keeps_refl cfg env a
  · rename_i h
    split <;>
      simp_all [Keeps, DrawContextSupport.hasSyncFences,
        DrawContextSupport.hasImmutableBufferStorage]

theorem setupAppleFenceSync_keeps (cfg : BuildConfig) (env : GLEnv) (a : DrawContextSupport) :
    Keeps cfg env a (GLRenderer.setupAppleFenceSync cfg env a) := by
  unfold GLRenderer.setupAppleFenceSync
  split
  · exact keeps_refl cfg env a
  · rename_i h
    cases he : cfg.openglES <;>
      simp_all [Keeps, DrawContextSupport.hasSyncFences,
        DrawContextSupport.hasImmutableBufferStorage]

theorem setupImmutableTexStorage_keeps (cfg : BuildConfig) (env : GLEnv) (ext : Bool)
    (a : DrawContextSupport) :
    Keeps cfg env a (GLRenderer.setupImmutableTexStorage cfg env ext a) := by
  unfold GLRenderer.setupImmutableTexStorage
  split
  · exact keeps_refl cfg env a
  · rename_i h
    dsimp only
    split <;>
      simp_all [Keeps, DrawContextSupport.hasSyncFences,
        DrawContextSupport.hasImmutableBufferStorage]

theorem setupImmutableBufferStorage_keeps (cfg : BuildConfig) (env : GLEnv)
    (a : DrawContextSupport) :
    Keeps cfg env a (GLRenderer.setupImmutableBufferStorage cfg env a) := by
  unfold GLRenderer.setupImmutableBufferStorage
  split
  · exact keeps_refl cfg env a
  · rename_i h
    split <;>
      simp_all [Keeps, DrawContextSupport.hasSyncFences,
        DrawContextSupport.hasImmutableBufferStorage]

theorem keeps_ite (cfg : BuildConfig) (env : GLEnv) (a : DrawContextSupport) (c : Prop)
    [Decidable c] (x y : DrawContextSupport × Bool)
    (hx : Keeps cfg env a x.1) (hy : Keeps cfg env a y.1) :
    Keeps cfg env a (if c then x else y).1 := by
  split
  · exact hx
  · exact hy

theorem debugOutput_keeps (cfg : BuildConfig) (env : GLEnv) (a : DrawContextSupport) :
    Keeps cfg env a
      (if cfg.android = true ∧ env.androidSDK < 23 then
        { ({ a with hasDebugOutput := true } : DrawContextSupport) with hasDebugOutput := false }
      else { a with hasDebugOutput := true }) := by
  split
  · rename_i h
    exact keeps_of_flags cfg env _ _ id id id id id id id id id id (fun _ => Or.inr h) rfl
  · exact keeps_of_flags cfg env _ _ id id id id id id id id id id (fun _ => Or.inl rfl) rfl

theorem setupAnisotropicFiltering_keeps (cfg : BuildConfig) (env : GLEnv)
    (a : DrawContextSupport) : Keeps cfg env a (GLRenderer.setupAnisotropicFiltering cfg env a) := by
  unfold GLRenderer.setupAnisotropicFiltering
  split
  · exact keeps_of_flags cfg env _ _ id id id id id id id id id id Or.inl rfl
  · exact keeps_refl cfg env a

theorem setupMultisample_keeps (cfg : BuildConfig) (env : GLEnv) (a : DrawContextSupport) :
    Keeps cfg env a (GLRenderer.setupMultisample cfg a) := by
  unfold GLRenderer.setupMultisample
  split
  · exact keeps_of_flags cfg env _ _ id id id id id id id id (fun _ => rfl) id Or.inl rfl
  · exact keeps_refl cfg env a

theorem setupMultisampleHints_keeps (cfg : BuildConfig) (env : GLEnv) (a : DrawContextSupport) :
    Keeps cfg env a (GLRenderer.setupMultisampleHints cfg a) := by
  unfold GLRenderer.setupMultisampleHints
  split
  · exact keeps_of_flags cfg env _ _ id id id id id id id id id (fun _ => rfl) Or.inl rfl
  · exact keeps_refl cfg env a

theorem setupFBOFuncs_ext_keeps (cfg : BuildConfig) (env : GLEnv) (a : DrawContextSupport)
    (p : FuncPtr) :
    Keeps cfg env a { (GLRenderer.setupFBOFuncs cfg a).1 with generateMipmaps := p } := by
  unfold GLRenderer.setupFBOFuncs
  split
  · exact keeps_of_flags cfg env _ _ id id id id id id id id id id Or.inl rfl
  · split
    · exact keeps_of_flags cfg env _ _ id id id id id id id id id id Or.inl rfl
    · exact keeps_of_flags cfg env _ _ id id id id id id id id id id Or.inl rfl

theorem checkExtensionString_keeps (cfg : BuildConfig) (env : GLEnv) (extStr : String)
    (a : DrawContextSupport) (u : Bool) :
    Keeps cfg env a (GLRenderer.checkExtensionString cfg env extStr a u).1 := by
  unfold GLRenderer.checkExtensionString
  repeat' first
    | exact keeps_refl cfg env _
    | exact setupFBOFuncs_keeps cfg env _
    | exact setupFBOFuncs_ext_keeps cfg env _ _
    | exact setupFenceSync_keeps cfg env _
    | exact setupAppleFenceSync_keeps cfg env _
    | exact setupImmutableTexStorage_keeps cfg env _ _
    | exact setupImmutableBufferStorage_keeps cfg env _
    | exact setupAnisotropicFiltering_keeps cfg env _
    | exact setupMultisample_keeps cfg env _
    | exact setupMultisampleHints_keeps cfg env _
    | exact debugOutput_keeps cfg env _
    | exact keeps_trans (mapBufferRange_keeps cfg env _ _) (setupUnmapBufferFunc_keeps cfg env _)
    | exact keeps_of_flags cfg env _ _ (fun _ => rfl) (fun _ => rfl) (fun _ => rfl) id id id id id
        id id Or.inl rfl
    | exact keeps_of_flags cfg env _ _ (fun _ => rfl) (fun _ => rfl) id id id id id id
        id id Or.inl rfl
    | exact keeps_of_flags cfg env _ _ (fun _ => rfl) id id id id id id id id id Or.inl rfl
    | exact keeps_of_flags cfg env _ _ id id id (fun _ => rfl) id id id id id id Or.inl rfl
    | exact keeps_of_flags cfg env _ _ id id id id (fun _ => rfl) id id id id id Or.inl rfl
    | exact keeps_of_flags cfg env _ _ id id id id id (fun _ => rfl) id id id id Or.inl rfl
    | exact keeps_of_flags cfg env _ _ id id id id id id (fun _ => rfl) id id id Or.inl rfl
    | exact keeps_of_flags cfg env _ _ id id id id id id id (fun _ => rfl) id id Or.inl rfl
    | exact keeps_of_flags cfg env _ _ id id id id id id id id id id Or.inl rfl
    | apply keeps_ite

theorem foldl_checkExtensionString_keeps (cfg : BuildConfig) (env : GLEnv)
    (ts : List String) (a : DrawContextSupport × Bool) :
    Keeps cfg env a.1
      (ts.foldl (fun x extStr => GLRenderer.checkExtensionString cfg env extStr x.1 x.2) a).1 := by
  induction ts generalizing a with
  | nil => exact keeps_refl cfg env _
  | cons t ts ih =>
    rw [List.foldl_cons]
    exact keeps_trans (checkExtensionString_keeps cfg env t a.1 a.2) (ih _)

/-- C22, as amended: the probes do not read `isConfigured`. For every
capability record, configured or not, every extension token with either value
of `useFBOFuncs`, and every full extension string: the probe leaves set every
feature flag that was set (`hasDebugOutput` only unless the build is for
Android and the SDK level is below 23), leaves `isConfigured` as it was, and
leaves as they were the function pointers behind a test that holds:
`glTexStorage2D`, the four fence functions, `glMapBufferRange`,
`glUnmapBuffer` and `glBufferStorage`. -/
theorem GLRenderer.probe_keeps (cfg : BuildConfig) (env : GLEnv) (extStr fullExtStr : String)
    (support : DrawContextSupport) (useFBOFuncs : Bool) :
    Keeps cfg env support (GLRenderer.checkExtensionString cfg env extStr support useFBOFuncs).1 ∧
    Keeps cfg env support (GLRenderer.checkFullExtensionString cfg env fullExtStr support) :=
  ⟨checkExtensionString_keeps cfg env extStr support useFBOFuncs,
   foldl_checkExtensionString_keeps cfg env _ (support, false)⟩

/-- C22 as stated fails. On a configured desktop renderer whose
`generateMipmaps` is `glGenerateMipmap`, a further probe of the token
`GL_EXT_framebuffer_object` makes it `glGenerateMipmapEXT`. On a configured
Android renderer with BGR pixel support and the internal format `GL_BGRA`, a
further probe of the token `GL_APPLE_texture_format_BGRA8888` makes the
internal format `GL_RGBA`. -/
theorem GLRenderer.probe_keeps_counterexample :
    sampleConfiguredDesktop.isConfigured = true ∧
    sampleConfiguredDesktop.generateMipmaps = some "glGenerateMipmap" ∧
    (GLRenderer.checkExtensionString sampleDesktopBuild (sampleGLEnv 0) "GL_EXT_framebuffer_object"
      sampleConfiguredDesktop false).1.generateMipmaps = some "glGenerateMipmapEXT" ∧
    (GLRenderer.checkFullExtensionString sampleDesktopBuild (sampleGLEnv 0)
      "GL_EXT_framebuffer_object" sampleConfiguredDesktop).generateMipmaps =
        some "glGenerateMipmapEXT" ∧
    sampleConfiguredAndroid.isConfigured = true ∧
    sampleConfiguredAndroid.hasBGRPixels = true ∧
    sampleConfiguredAndroid.bgrInternalFormat = GL_BGRA ∧
    (GLRenderer.checkFullExtensionString sampleAndroidBuild (sampleGLEnv 28)
      "GL_APPLE_texture_format_BGRA8888" sampleConfiguredAndroid).bgrInternalFormat = GL_RGBA ∧
    GL_RGBA ≠ GL_BGRA := by
  decide

end Gfx

/-! ## Theorems on the version number of a version string -/

namespace Gfx

theorem dropWhile_all {p : Char → Bool} (l r : List Char) (h : ∀ c ∈ l, p c = true)
    (hr : ∀ c, r.head? = some c → p c = false) : (l ++ r).dropWhile p = r := by
  induction l with
  | nil =>
    cases r with
    | nil => rfl
    | cons x xs => simp [List.dropWhile, hr x rfl]
  | cons x xs ih =>
    rw [List.cons_append, List.dropWhile_cons, h x (List.mem_cons_self _ _), if_pos rfl]
    exact ih (fun c hc => h c (List.mem_cons_of_mem _ hc))

theorem takeWhile_all {p : Char → Bool} (l r : List Char) (h : ∀ c ∈ l, p c = true)
    (hr : ∀ c, r.head? = some c → p c = false) : (l ++ r).takeWhile p = l := by
  induction l with
  | nil =>
    cases r with
    | nil => rfl
    | cons x xs => simp [List.takeWhile, hr x rfl]
  | cons x xs ih =>
    rw [List.cons_append, List.takeWhile_cons, h x (List.mem_cons_self _ _), if_pos rfl,
      ih (fun c hc => h c (List.mem_cons_of_mem _ hc))]

theorem toInt32_of_lt (n : Nat) (h : n < 2 ^ 31) : toInt32 (n : Int) = n := by
  unfold toInt32
  have h2 : (n : Int) < 2147483648 := by
    have : (2 : Nat) ^ 31 = 2147483648 := by norm_num
    omega
  norm_num
  omega

theorem scanInt_digits (ds r : List Char) (hne : ds ≠ []) (hd : ∀ c ∈ ds, isdigit c = true)
    (hr : ∀ c, r.head? = some c → isdigit c = false) (hv : digitsValue ds < 2 ^ 31) :
    scanInt (ds ++ r) = some ((digitsValue ds : Int), r) := by
  obtain ⟨x, xs, rfl⟩ := List.exists_cons_of_ne_nil hne
  have hx : isdigit x = true := hd x (List.mem_cons_self _ _)
  have hxr : 48 ≤ x.toNat ∧ x.toNat ≤ 57 := by simpa [isdigit] using hx
  have hsp : isspace x = false := by
    simp only [isspace, decide_eq_false_iff_not]
    omega
  have hm : x ≠ '-' := by
    intro h
    rw [h] at hxr
    revert hxr
    decide
  have hp : x ≠ '+' := by
    intro h
    rw [h] at hxr
    revert hxr
    decide
  unfold scanInt
  have h1 : (x :: xs ++ r).dropWhile isspace = x :: xs ++ r := by
    simp [List.dropWhile, hsp]
  simp only [h1]
  have h2 : (x :: xs ++ r).head? = some x := rfl
  simp only [h2, Option.some.injEq, hm, hp, if_false]
  rw [takeWhile_all (x :: xs) r hd hr, dropWhile_all (x :: xs) r hd hr]
  simp [toInt32_of_lt _ hv]

theorem dropWhile_not_digit (l r : List Char) (h : ∀ c ∈ l, isdigit c = false)
    (hr : ∀ c, r.head? = some c → isdigit c = true) :
    (l ++ r).dropWhile (fun c => !isdigit c) = r := by
  apply dropWhile_all
  · intro c hc
    simp [h c hc]
  · intro c hc
    simp [hr c hc]

theorem glVersionFromStr_value (v : VersionString) (h : v.WellFormed)
    (hr : 10 * digitsValue v.major + digitsValue v.minor < 2 ^ 31) :
    glVersionFromStr v.chars = 10 * digitsValue v.major + digitsValue v.minor := by
  obtain ⟨hpre, hM, hMd, hm, hmd, hs⟩ := h
  unfold glVersionFromStr VersionString.chars
  have hdot : isdigit '.' = false := by decide
  have e1 : v.pre ++ v.major ++ '.' :: v.minor ++ v.suffix =
      v.pre ++ (v.major ++ '.' :: (v.minor ++ v.suffix)) := by simp
  have hhead : ∀ c, (v.major ++ '.' :: (v.minor ++ v.suffix)).head? = some c →
      isdigit c = true := by
    obtain ⟨x, xs, hx⟩ := List.exists_cons_of_ne_nil hM
    intro c hc
    rw [hx] at hc
    simp only [List.cons_append, List.head?_cons, Option.some.injEq] at hc
    rw [← hc]
    exact hMd x (by rw [hx]; exact List.mem_cons_self _ _)
  rw [e1, dropWhile_not_digit _ _ hpre hhead]
  have s1 : scanInt (v.major ++ '.' :: (v.minor ++ v.suffix)) =
      some ((digitsValue v.major : Int), '.' :: (v.minor ++ v.suffix)) :=
    scanInt_digits _ _ hM hMd (by intro c hc; simp at hc; rw [← hc]; exact hdot) (by omega)
  have s2 : scanInt (v.minor ++ v.suffix) = some ((digitsValue v.minor : Int), v.suffix) :=
    scanInt_digits _ _ hm hmd hs (by omega)
  simp only [scanVersion, s1, s2]
  have := toInt32_of_lt (10 * digitsValue v.major + digitsValue v.minor) hr
  push_cast at this
  exact this

theorem glVersionFromStr_no_digit (s : List Char) (h : ∀ c ∈ s, isdigit c = false) :
    glVersionFromStr s = 10 := by
  unfold glVersionFromStr
  have := dropWhile_not_digit s [] h (by simp)
  rw [List.append_nil] at this
  rw [this]
  decide

/-- C28, as amended: for every version string made of a prefix without digits,
the digits of a major number `M`, a dot, the digits of a minor number `m` and
a suffix that does not go on with a digit, with `10 * M + m` less than
`2 ^ 31`, `glVersionFromStr` gives `10 * M + m`. For two such strings with
minor numbers of at most 9, the results are ordered as the pairs `(M, m)` are
in the lexicographic order. For a string with no digit the result is 10. -/
theorem glVersionFromStr_spec (a b : VersionString) (s : List Char)
    (ha : a.WellFormed) (hb : b.WellFormed)
    (hra : 10 * digitsValue a.major + digitsValue a.minor < 2 ^ 31)
    (hrb : 10 * digitsValue b.major + digitsValue b.minor < 2 ^ 31)
    (hs : ∀ c ∈ s, isdigit c = false) :
    glVersionFromStr a.chars = 10 * digitsValue a.major + digitsValue a.minor ∧
    (digitsValue a.minor ≤ 9 → digitsValue b.minor ≤ 9 →
      ((digitsValue a.major < digitsValue b.major ∨
        (digitsValue a.major = digitsValue b.major ∧ digitsValue a.minor < digitsValue b.minor)) ↔
        glVersionFromStr a.chars < glVersionFromStr b.chars)) ∧
    glVersionFromStr s = 10 := by
  refine ⟨glVersionFromStr_value a ha hra, ?_, glVersionFromStr_no_digit s hs⟩
  intro h1 h2
  rw [glVersionFromStr_value a ha hra, glVersionFromStr_value b hb hrb]
  constructor
  · intro h
    have : 10 * digitsValue a.major + digitsValue a.minor <
        10 * digitsValue b.major + digitsValue b.minor := by omega
    exact_mod_cast this
  · intro h
    have : 10 * digitsValue a.major + digitsValue a.minor <
        10 * digitsValue b.major + digitsValue b.minor := by exact_mod_cast h
    omega

/-- C28 as stated fails: the string `214748365.0` is a major number 214748365,
a dot and a minor number 0, so `10 * M + m` is 2147483650, which no `int`
holds; the result is another number. -/
theorem glVersionFromStr_spec_counterexample :
    sampleVersionHuge.WellFormed ∧
    sampleVersionHuge.chars = "214748365.0".toList ∧
    10 * digitsValue sampleVersionHuge.major + digitsValue sampleVersionHuge.minor = 2147483650 ∧
    glVersionFromStr sampleVersionHuge.chars = -2147483646 ∧
    glVersionFromStr sampleVersionHuge.chars ≠
      10 * digitsValue sampleVersionHuge.major + digitsValue sampleVersionHuge.minor := by
  refine ⟨?_, by decide, by decide, by decide, by decide⟩
  refine ⟨by decide, by decide, by decide, by decide, by decide, ?_⟩
  intro c hc
  simp [sampleVersionHuge] at hc

/-- C28, as amended, at concrete strings: `OpenGL ES 3.2 build` gives 32,
`4.6.0 NVIDIA` gives 46, the first is less than the second, and a string
without digits gives 10. -/
theorem glVersionFromStr_spec_witness :
    sampleVersion.chars = "OpenGL ES 3.2 build".toList ∧
    glVersionFromStr "OpenGL ES 3.2 build".toList = 32 ∧
    glVersionFromStr sampleVersionDesktop.chars = 46 ∧
    glVersionFromStr sampleVersion.chars < glVersionFromStr sampleVersionDesktop.chars ∧
    glVersionFromStr "unknown".toList = 10 := by
  have hw1 : sampleVersion.WellFormed := by
    refine ⟨by decide, by decide, by decide, by decide, by decide, ?_⟩
    intro c hc
    simp only [sampleVersion, String.toList] at hc
    simp only [List.head?_cons, Option.some.injEq] at hc
    rw [← hc]
    decide
  have hw2 : sampleVersionDesktop.WellFormed := by
    refine ⟨by decide, by decide, by decide, by decide, by decide, ?_⟩
    intro c hc
    simp only [sampleVersionDesktop, String.toList] at hc
    simp only [List.head?_cons, Option.some.injEq] at hc
    rw [← hc]
    decide
  have h := glVersionFromStr_spec sampleVersion sampleVersionDesktop "unknown".toList hw1 hw2
    (by decide) (by decide) (by decide)
  exact ⟨by decide, by decide, by decide, (h.2.1 (by decide) (by decide)).1 (by decide), h.2.2⟩

end Gfx

/-! ## Theorems on key events -/

namespace Input

theorem keyRepeatCounts_append (l1 l2 : List InputCall) :
    keyRepeatCounts (l1 ++ l2) = keyRepeatCounts l1 ++ keyRepeatCounts l2 := by
  induction l1 with
  | nil => rfl
  | cons c cs ih =>
    cases c with
    | dispatchInputEvent e =>
      cases e <;> simp [keyRepeatCounts, ih]
    | axisKeyEmuDispatch a b c d e => simp [keyRepeatCounts, ih]
    | processICadeKey a b c d => simp [keyRepeatCounts, ih]
    | cancelKeyRepeatTimer => simp [keyRepeatCounts, ih]

/-- The whole effect of a key event. -/
theorem processInputEvent_key (env : InputEnv) (event : AInputEvent) (s : InputState)
    (hk : event.type = AINPUT_EVENT_TYPE_KEY) :
    processInputEvent env event s =
      match (match deviceForInputId env s event.deviceId with
        | some dev => some dev
        | none => s.virtualDev) with
      | none => ({ s with mostRecentKeyEventDevID := event.deviceId }, false)
      | some dev =>
        if mapKeycodesForSpecialDevices env dev event.keyCode event.metaState event = 0 then
          ({ s with mostRecentKeyEventDevID := event.deviceId }, false)
        else if dev.iCadeMode = true ∧
            env.iCadeHandles (mapKeycodesForSpecialDevices env dev event.keyCode event.metaState event)
              (if event.action = AKEY_EVENT_ACTION_UP then Action.RELEASED else Action.PUSHED)
              dev = true then
          ({ s with
              mostRecentKeyEventDevID := event.deviceId
              calls := s.calls ++ [.processICadeKey
                (mapKeycodesForSpecialDevices env dev event.keyCode event.metaState event)
                (if event.action = AKEY_EVENT_ACTION_UP then Action.RELEASED else Action.PUSHED)
                event.eventTime dev] }, true)
        else
          ({ s with
              mostRecentKeyEventDevID := event.deviceId
              calls := s.calls ++
                ((if dev.iCadeMode = true then [InputCall.processICadeKey
                  (mapKeycodesForSpecialDevices env dev event.keyCode event.metaState event)
                  (if event.action = AKEY_EVENT_ACTION_UP then Action.RELEASED else Action.PUSHED)
                  event.eventTime dev] else []) ++
                [.cancelKeyRepeatTimer,
                 .dispatchInputEvent (.key dev.devId
                  (mapKeycodesForSpecialDevices env dev event.keyCode event.metaState event &&& 0x1ff)
                  (if event.action = AKEY_EVENT_ACTION_UP then Action.RELEASED else Action.PUSHED)
                  (event.metaState &&& AMETA_SHIFT_ON)
                  (if event.repeatCount ≠ 0 ∧ event.deviceId = s.mostRecentKeyEventDevID
                    then event.repeatCount else 0)
                  event.eventTime dev)]) },
            env.windowHandles (.key dev.devId
              (mapKeycodesForSpecialDevices env dev event.keyCode event.metaState event &&& 0x1ff)
              (if event.action = AKEY_EVENT_ACTION_UP then Action.RELEASED else Action.PUSHED)
              (event.metaState &&& AMETA_SHIFT_ON)
              (if event.repeatCount ≠ 0 ∧ event.deviceId = s.mostRecentKeyEventDevID
                then event.repeatCount else 0)
              event.eventTime dev)) := by
  have hm : event.type ≠ AINPUT_EVENT_TYPE_MOTION := by
    rw [hk]
    decide
  have hdev : ∀ d, deviceForInputId env { s with mostRecentKeyEventDevID := d } event.deviceId =
      deviceForInputId env s event.deviceId := fun _ => rfl
  unfold processInputEvent
  rw [if_neg hm, if_pos hk]
  simp only [hdev]
  cases hfound : (match deviceForInputId env s event.deviceId with
      | some dev => some dev
      | none => s.virtualDev) with
  | none => rfl
  | some dev =>
    simp only
    by_cases h0 : mapKeycodesForSpecialDevices env dev event.keyCode event.metaState event = 0
    · simp only [h0, if_true]
    · simp only [h0, if_false]
      have hrc : (if (!(decide (event.repeatCount ≠ 0) &&
            decide (event.deviceId = s.mostRecentKeyEventDevID))) = true then (0 : Int)
          else event.repeatCount) =
          (if event.repeatCount ≠ 0 ∧ event.deviceId = s.mostRecentKeyEventDevID
            then event.repeatCount else 0) := by
        by_cases h1 : event.repeatCount ≠ 0 <;>
          by_cases h2 : event.deviceId = s.mostRecentKeyEventDevID <;> simp [h1, h2]
      rw [hrc]
      cases hi : dev.iCadeMode with
      | false => simp [InputState.call]
      | true =>
        cases hh : env.iCadeHandles
            (mapKeycodesForSpecialDevices env dev event.keyCode event.metaState event)
            (if event.action = AKEY_EVENT_ACTION_UP then Action.RELEASED else Action.PUSHED) dev with
        | false => simp [InputState.call, hh]
        | true => simp [InputState.call, hh]

/-- C23: for every key event with the OS repeat count `r` from the device id
`d`, where `p` is the device id of the previous key event: after the event the
remembered device id is `d`, whether the event is given to the window or
discarded; at most one key event is given to the window, and the repeat count
it carries is `r` if `r ≠ 0` and `d = p`, and 0 otherwise. The key event is
given to the window whenever a device is found for it (the known device of
the id, or else the virtual device), the mapped key code is not 0 and the key
is not taken by the iCade handling. -/
theorem processInputEvent_repeat (env : InputEnv) (event : AInputEvent) (s : InputState)
    (hk : event.type = AINPUT_EVENT_TYPE_KEY) :
    (processInputEvent env event s).1.mostRecentKeyEventDevID = event.deviceId ∧
    (keyRepeatCounts (newInputCalls s (processInputEvent env event s).1) = [] ∨
      keyRepeatCounts (newInputCalls s (processInputEvent env event s).1) =
        [if event.repeatCount ≠ 0 ∧ event.deviceId = s.mostRecentKeyEventDevID
          then event.repeatCount else 0]) ∧
    (∀ dev, (match deviceForInputId env s event.deviceId with
        | some dev => some dev
        | none => s.virtualDev) = some dev →
      mapKeycodesForSpecialDevices env dev event.keyCode event.metaState event ≠ 0 →
      (dev.iCadeMode = false ∨
        env.iCadeHandles (mapKeycodesForSpecialDevices env dev event.keyCode event.metaState event)
          (if event.action = AKEY_EVENT_ACTION_UP then Action.RELEASED else Action.PUSHED)
          dev = false) →
      keyRepeatCounts (newInputCalls s (processInputEvent env event s).1) =
        [if event.repeatCount ≠ 0 ∧ event.deviceId = s.mostRecentKeyEventDevID
          then event.repeatCount else 0]) := by
  rw [processInputEvent_key env event s hk]
  cases hfound : (match deviceForInputId env s event.deviceId with
      | some dev => some dev
      | none => s.virtualDev) with
  | none =>
    refine ⟨rfl, Or.inl ?_, ?_⟩
    · simp [newInputCalls, keyRepeatCounts]
    · intro dev hd
      cases hd
  | some dev =>
    simp only
    by_cases h0 : mapKeycodesForSpecialDevices env dev event.keyCode event.metaState event = 0
    · simp only [h0, if_true]
      refine ⟨trivial, Or.inl ?_, ?_⟩
      · simp [newInputCalls, keyRepeatCounts]
      · intro d hd hne
        rw [Option.some.injEq] at hd
        subst hd
        exact absurd h0 hne
    · simp only [h0, if_false]
      by_cases hi : dev.iCadeMode = true ∧
          env.iCadeHandles (mapKeycodesForSpecialDevices env dev event.keyCode event.metaState event)
            (if event.action = AKEY_EVENT_ACTION_UP then Action.RELEASED else Action.PUSHED)
            dev = true
      · rw [if_pos hi]
        refine ⟨rfl, Or.inl ?_, ?_⟩
        · simp [newInputCalls, keyRepeatCounts]
        · intro d hd _ hor
          rw [Option.some.injEq] at hd
          subst hd
          rcases hor with h | h
          · rw [h] at hi
            exact absurd hi.1 (by simp)
          · rw [h] at hi
            exact absurd hi.2 (by simp)
      · rw [if_neg hi]
        have hcount : keyRepeatCounts (newInputCalls s
            { s with
              mostRecentKeyEventDevID := event.deviceId
              calls := s.calls ++
                ((if dev.iCadeMode = true then [InputCall.processICadeKey
                  (mapKeycodesForSpecialDevices env dev event.keyCode event.metaState event)
                  (if event.action = AKEY_EVENT_ACTION_UP then Action.RELEASED else Action.PUSHED)
                  event.eventTime dev] else []) ++
                [.cancelKeyRepeatTimer,
                 .dispatchInputEvent (.key dev.devId
                  (mapKeycodesForSpecialDevices env dev event.keyCode event.metaState event &&& 0x1ff)
                  (if event.action = AKEY_EVENT_ACTION_UP then Action.RELEASED else Action.PUSHED)
                  (event.metaState &&& AMETA_SHIFT_ON)
                  (if event.repeatCount ≠ 0 ∧ event.deviceId = s.mostRecentKeyEventDevID
                    then event.repeatCount else 0)
                  event.eventTime dev)]) }) =
            [if event.repeatCount ≠ 0 ∧ event.deviceId = s.mostRecentKeyEventDevID
              then event.repeatCount else 0] := by
          unfold newInputCalls
          simp only [List.drop_left]
          rw [keyRepeatCounts_append]
          cases dev.iCadeMode <;> simp [keyRepeatCounts]
        exact ⟨rfl, Or.inr hcount, fun _ _ _ _ => hcount⟩

/-- C23 at concrete events: the gamepad repeats a key (repeat count 2) right
after its own key event, and the window gets the count 2; it reports the same
repeat right after a key event of device 5, and the window gets 0; a key event
from the unknown device 7 is discarded, and device 7 is remembered. -/
theorem processInputEvent_repeat_witness :
    keyRepeatCounts (newInputCalls (sampleInput none 3)
      (processInputEvent (sampleInputEnv 28) (sampleKeyEvent 3 2) (sampleInput none 3)).1) = [2] ∧
    keyRepeatCounts (newInputCalls (sampleInput none 5)
      (processInputEvent (sampleInputEnv 28) (sampleKeyEvent 3 2) (sampleInput none 5)).1) = [0] ∧
    (processInputEvent (sampleInputEnv 28) (sampleKeyEvent 7 2) (sampleInput none 5)).2 = false ∧
    (processInputEvent (sampleInputEnv 28) (sampleKeyEvent 7 2)
      (sampleInput none 5)).1.mostRecentKeyEventDevID = 7 := by
  have h := processInputEvent_repeat (sampleInputEnv 28) (sampleKeyEvent 7 2) (sampleInput none 5)
    (by decide)
  exact ⟨by decide, by decide, by decide, h.1⟩

end Input

/-! ## Theorems on events from unknown devices -/

namespace Input

theorem deviceForInputId_unknown (env : InputEnv) (s : InputState) (id : Int)
    (hsdk : 12 ≤ env.androidSDK) (hunk : ∀ dev ∈ s.sysInputDev, dev.osId ≠ id) :
    deviceForInputId env s id = none := by
  unfold deviceForInputId
  rw [if_neg (by omega), List.find?_eq_none]
  intro dev hd
  simpa using hunk dev hd

/-- C25, as amended: an event whose device id matches no known input device, on
SDK level 12 or later. A pointer event and a joystick event are discarded:
the state is unchanged, nothing is given to the window, and the result is
false. A key event is discarded in the same way (but the device id is
remembered) when there is no virtual device. When there is a virtual device,
the key event is processed as an event of that device: unless its mapped key
code is 0 or the iCade handling takes it, it is given to the window with the
virtual device as its device, and the result is what the window returns.
Below SDK level 12 the first known device is found for every device id. -/
theorem processInputEvent_unknown (env : InputEnv) (event : AInputEvent) (s : InputState)
    (hunk : ∀ dev ∈ s.sysInputDev, dev.osId ≠ event.deviceId) :
    (12 ≤ env.androidSDK → event.type = AINPUT_EVENT_TYPE_MOTION →
      (event.source &&& AINPUT_SOURCE_CLASS_MASK = AINPUT_SOURCE_CLASS_POINTER ∨
        event.source &&& AINPUT_SOURCE_CLASS_MASK = AINPUT_SOURCE_CLASS_JOYSTICK) →
      processInputEvent env event s = (s, false)) ∧
    (12 ≤ env.androidSDK → event.type = AINPUT_EVENT_TYPE_KEY → s.virtualDev = none →
      processInputEvent env event s =
        ({ s with mostRecentKeyEventDevID := event.deviceId }, false)) ∧
    (12 ≤ env.androidSDK → event.type = AINPUT_EVENT_TYPE_KEY →
      ∀ v, s.virtualDev = some v →
        mapKeycodesForSpecialDevices env v event.keyCode event.metaState event ≠ 0 →
        v.iCadeMode = false →
        processInputEvent env event s =
          ({ s with
              mostRecentKeyEventDevID := event.deviceId
              calls := s.calls ++
                [.cancelKeyRepeatTimer,
                 .dispatchInputEvent (.key v.devId
                  (mapKeycodesForSpecialDevices env v event.keyCode event.metaState event &&& 0x1ff)
                  (if event.action = AKEY_EVENT_ACTION_UP then Action.RELEASED else Action.PUSHED)
                  (event.metaState &&& AMETA_SHIFT_ON)
                  (if event.repeatCount ≠ 0 ∧ event.deviceId = s.mostRecentKeyEventDevID
                    then event.repeatCount else 0)
                  event.eventTime v)] },
            env.windowHandles (.key v.devId
              (mapKeycodesForSpecialDevices env v event.keyCode event.metaState event &&& 0x1ff)
              (if event.action = AKEY_EVENT_ACTION_UP then Action.RELEASED else Action.PUSHED)
              (event.metaState &&& AMETA_SHIFT_ON)
              (if event.repeatCount ≠ 0 ∧ event.deviceId = s.mostRecentKeyEventDevID
                then event.repeatCount else 0)
              event.eventTime v))) ∧
    (env.androidSDK < 12 → ∀ id, deviceForInputId env s id = s.sysInputDev.head?) := by
  refine ⟨?_, ?_, ?_, ?_⟩
  · intro hsdk hm hc
    have hd := deviceForInputId_unknown env s event.deviceId hsdk hunk
    unfold processInputEvent
    rw [if_pos hm]
    dsimp only
    rcases hc with hc | hc
    · rw [if_pos hc, hd]
    · have h1 : event.source &&& AINPUT_SOURCE_CLASS_MASK ≠ AINPUT_SOURCE_CLASS_POINTER := by
        rw [hc]
        decide
      have h2 : event.source &&& AINPUT_SOURCE_CLASS_MASK ≠ AINPUT_SOURCE_CLASS_NAVIGATION := by
        rw [hc]
        decide
      rw [if_neg h1, if_neg h2, if_pos hc, hd]
  · intro hsdk hk hv
    have hd := deviceForInputId_unknown env s event.deviceId hsdk hunk
    rw [processInputEvent_key env event s hk, hd, hv]
  · intro hsdk hk v hv h0 hi
    have hd := deviceForInputId_unknown env s event.deviceId hsdk hunk
    rw [processInputEvent_key env event s hk, hd, hv]
    simp [h0, hi]
  · intro hsdk id
    unfold deviceForInputId
    rw [if_pos hsdk]

/-- C25 as stated fails. A key event from the unknown device id 7 reaches the
window when there is a virtual device: one key event is dispatched, with the
virtual device as its device, and the result is true. On SDK level 10 a touch
event from the unknown device id 9 is processed with the first known device:
a pointer event is dispatched and the result is true. -/
theorem processInputEvent_unknown_counterexample :
    (∀ dev ∈ (sampleInput (some sampleVirtual) 5).sysInputDev, dev.osId ≠ 7 ∧ dev.osId ≠ 9) ∧
    processInputEvent (sampleInputEnv 28) (sampleKeyEvent 7 0) (sampleInput (some sampleVirtual) 5) =
      ({ sampleInput (some sampleVirtual) 7 with
          calls := [.cancelKeyRepeatTimer,
            .dispatchInputEvent (.key 0 96 .PUSHED 0 0 1000 sampleVirtual)] }, true) ∧
    processInputEvent (sampleInputEnv 10) (sampleTouchEvent 9) (sampleInput none 5) =
      ({ sampleInput none 5 with
          m := [{ id := 0, isTouching := true }, { id := -1, isTouching := false },
            { id := -1, isTouching := false }, { id := -1, isTouching := false }]
          calls := [.dispatchInputEvent (.pointer 0 1 2 .PUSHED 10 20 0 true 1000 sampleGamepad)] },
        true) := by
  decide

/-- C25, as amended, at concrete events, on SDK level 28: a touch event from
the unknown device id 9 and, without a virtual device, a key event from the
unknown device id 7 are discarded. -/
theorem processInputEvent_unknown_witness :
    processInputEvent (sampleInputEnv 28) (sampleTouchEvent 9) (sampleInput none 5) =
      (sampleInput none 5, false) ∧
    processInputEvent (sampleInputEnv 28) (sampleKeyEvent 7 0) (sampleInput none 5) =
      (sampleInput none 7, false) :=
  ⟨(processInputEvent_unknown (sampleInputEnv 28) (sampleTouchEvent 9) (sampleInput none 5)
      (by decide)).1 (by decide) (by decide) (Or.inl (by decide)),
   (processInputEvent_unknown (sampleInputEnv 28) (sampleKeyEvent 7 0) (sampleInput none 5)
      (by decide)).2.1 (by decide) (by decide) rfl⟩

end Input
